import Mathlib

/-!
Verification of the valence item-component codec and the inventory click
validator, shallowly embedded from the repository sources
(crates/valence_item and crates/valence_inventory/src/validate.rs).

Byte streams are lists of naturals (each byte < 256 by construction of the
encoders).  Machine integers are modelled as Int/Nat with explicit
reductions mod 2^w where the Rust code truncates or casts.

The primitive byte-cursor codec (VarInt, booleans, strings, lists,
optionals, fixed-width integers) lives in the valence_binary core, which is
not part of the supplied sources; per the specification it is an external
collaborator ("variable-length integers, strings, booleans, lists,
optionals"), so those primitives are modelled from the spec here, following
the standard Minecraft protocol forms.
-/

namespace Valence

/-- Two-complement reading of a natural below 2^32 as a signed 32-bit value. -/
def i32ofNat (n : Nat) : Int :=
  if n < 2147483648 then (n : Int) else (n : Int) - 4294967296

/-- The unsigned 32-bit pattern of a signed integer (Rust cast i32 to u32). -/
def u32ofInt (i : Int) : Nat :=
  (i % 4294967296).toNat

/-- Rust cast of an i32 value to i8 (truncation to the low 8 bits, signed). -/
def i8ofInt (i : Int) : Int :=
  (i + 128) % 256 - 128

/-- Rust cast of an i32/i16 value to usize (wrap into 64 bits). -/
def usizeOfInt (i : Int) : Nat :=
  (i % 18446744073709551616).toNat

/-- Rust cast of an i16 value to u16 (wrap into 16 bits). -/
def u16ofInt (i : Int) : Nat :=
  (i % 65536).toNat

/-- Modelled from the spec: LEB128 encoding of an unsigned value
(7 data bits per byte, high bit marks continuation).  The iteration bound 6
is not a truncation: every value below 2^32 (all values the 32-bit codec
ever emits) needs at most five bytes. -/
def encodeVarNatAux : Nat → Nat → List Nat
  | 0, _ => []
  | fuel + 1, v => if v < 128 then [v] else (v % 128 + 128) :: encodeVarNatAux fuel (v / 128)

def encodeVarNat (v : Nat) : List Nat := encodeVarNatAux 6 v

/-- Modelled from the spec: LEB128 decoding loop; at most five bytes are
consumed, mirroring the 32-bit VarInt reader. -/
def decodeVarNatAux : Nat → Nat → Nat → List Nat → Option (Nat × List Nat)
  | fuel + 1, mult, acc, b :: rest =>
      if b < 128 then some (acc + b * mult, rest)
      else decodeVarNatAux fuel (mult * 128) (acc + (b - 128) * mult) rest
  | _, _, _, _ => none

def decodeVarNat (bs : List Nat) : Option (Nat × List Nat) :=
  decodeVarNatAux 5 1 0 bs

/-- Modelled from the spec: a protocol VarInt carries a signed 32-bit value
encoded via the unsigned bit pattern. -/
def encodeVarInt (i : Int) : List Nat :=
  encodeVarNat (u32ofInt i)

theorem decodeVarNatAux_encode (fuelD : Nat) :
    ∀ (v mult acc : Nat) (rest : List Nat) (fuelE : Nat),
      v < 128 ^ fuelD → 0 < fuelD → fuelD ≤ fuelE →
      decodeVarNatAux fuelD mult acc (encodeVarNatAux fuelE v ++ rest) =
        some (acc + v * mult, rest) := by
  induction fuelD with
  | zero => intro v mult acc rest fuelE h hf _; omega
  | succ n ih =>
      intro v mult acc rest fuelE h hf hle
      obtain ⟨fe, rfl⟩ : ∃ fe, fuelE = fe + 1 := ⟨fuelE - 1, by omega⟩
      rw [encodeVarNatAux]
      by_cases hv : v < 128
      · simp [hv, decodeVarNatAux]
      · simp only [if_neg hv, List.cons_append]
        rw [decodeVarNatAux]
        have hb : ¬ v % 128 + 128 < 128 := by omega
        rw [if_neg hb]
        have hlt : v / 128 < 128 ^ n := by
          have : v < 128 * 128 ^ n := by
            have := pow_succ 128 n
            omega
          omega
        have hn0 : 0 < n := by
          rcases Nat.eq_zero_or_pos n with h0 | h0
          · subst h0; simp at hlt; omega
          · exact h0
        rw [ih (v / 128) (mult * 128) (acc + (v % 128 + 128 - 128) * mult) rest fe hlt hn0
          (by omega)]
        have hsub : v % 128 + 128 - 128 = v % 128 := by omega
        rw [hsub]
        have harith : acc + v % 128 * mult + v / 128 * (mult * 128) =
            acc + v * mult := by
          have hvv : v % 128 + 128 * (v / 128) = v := Nat.mod_add_div v 128
          calc acc + v % 128 * mult + v / 128 * (mult * 128)
              = acc + (v % 128 + 128 * (v / 128)) * mult := by ring
            _ = acc + v * mult := by rw [hvv]
        rw [harith]

theorem decodeVarNat_encode (v : Nat) (rest : List Nat) (h : v < 4294967296) :
    decodeVarNat (encodeVarNat v ++ rest) = some (v, rest) := by
  have h5 : v < 128 ^ 5 := by norm_num; omega
  have := decodeVarNatAux_encode 5 v 1 0 rest 6 h5 (by omega) (by omega)
  simpa [decodeVarNat, encodeVarNat] using this

theorem i32ofNat_u32ofInt (i : Int) (h1 : -2147483648 ≤ i) (h2 : i < 2147483648) :
    i32ofNat (u32ofInt i) = i := by
  unfold i32ofNat u32ofInt
  split <;> omega

theorem u32ofInt_lt (i : Int) : u32ofInt i < 4294967296 := by
  unfold u32ofInt
  omega

/-- The decomposed form of a VarInt round trip over a signed 32-bit value. -/
theorem decodeVarNat_encodeVarInt (i : Int) (rest : List Nat) :
    decodeVarNat (encodeVarInt i ++ rest) = some (u32ofInt i, rest) := by
  unfold encodeVarInt
  exact decodeVarNat_encode _ _ (u32ofInt_lt i)

/-- Decode failure taxonomy of the item codec: the recursion guard, the two
component-id rejections, and any malformed primitive field. -/
inductive DecErr : Type where
  | recursionLimit
  | invalidComponentId
  | unknownComponentId
  | malformed
deriving DecidableEq

/-- A decoder consumes a prefix of the byte stream and returns the value and
the remaining bytes, mirroring the Rust byte-cursor convention. -/
abbrev Dec (α : Type) : Type := List Nat → Except DecErr (α × List Nat)

theorem exbind_ok {α β : Type} (a : α × List Nat)
    (f : α × List Nat → Except DecErr (β × List Nat)) :
    (Except.ok a : Except DecErr (α × List Nat)) >>= f = f a := rfl

theorem exbind_error {α β : Type} (e : DecErr)
    (f : α × List Nat → Except DecErr (β × List Nat)) :
    (Except.error e : Except DecErr (α × List Nat)) >>= f =
      (Except.error e : Except DecErr (β × List Nat)) := rfl

theorem optbind_some {α β : Type} (a : α) (f : α → Option β) :
    (some a >>= f) = f a := rfl

/-- Modelled from the spec: decoding of a 32-bit VarInt. -/
def dVarInt : Dec Int := fun bs =>
  match decodeVarNat bs with
  | some (n, r) => .ok (i32ofNat (n % 4294967296), r)
  | none => .error .malformed

theorem dVarInt_enc (i : Int) (rest : List Nat)
    (h1 : -2147483648 ≤ i) (h2 : i < 2147483648) :
    dVarInt (encodeVarInt i ++ rest) = .ok (i, rest) := by
  unfold dVarInt
  rw [decodeVarNat_encodeVarInt]
  dsimp only
  rw [Nat.mod_eq_of_lt (u32ofInt_lt i), i32ofNat_u32ofInt i h1 h2]

/-- Modelled from the spec: boolean encoding as a single byte. -/
def encodeBool (b : Bool) : List Nat := [if b then 1 else 0]

/-- Modelled from the spec: boolean decoding; any byte other than 0 or 1 is
malformed. -/
def dBool : Dec Bool := fun bs =>
  match bs with
  | 0 :: r => .ok (false, r)
  | 1 :: r => .ok (true, r)
  | _ => .error .malformed

theorem dBool_enc (b : Bool) (rest : List Nat) :
    dBool (encodeBool b ++ rest) = .ok (b, rest) := by
  cases b <;> rfl

/-- Modelled from the spec: big-endian fixed-width unsigned encoding. -/
def encodeFixedBE : Nat → Nat → List Nat
  | 0, _ => []
  | w + 1, v => (v / 256 ^ w) % 256 :: encodeFixedBE w v

def dFixedBEAux : Nat → Nat → Dec Nat
  | 0, acc => fun bs => .ok (acc, bs)
  | w + 1, acc => fun bs =>
      match bs with
      | b :: r => dFixedBEAux w (acc * 256 + b) r
      | [] => .error .malformed

/-- Modelled from the spec: big-endian fixed-width unsigned decoding. -/
def dFixedBE (w : Nat) : Dec Nat := dFixedBEAux w 0

theorem dFixedBEAux_enc : ∀ (w acc v : Nat) (rest : List Nat),
    dFixedBEAux w acc (encodeFixedBE w v ++ rest) =
      .ok (acc * 256 ^ w + v % 256 ^ w, rest) := by
  intro w
  induction w with
  | zero => intro acc v rest; simp [dFixedBEAux, encodeFixedBE, Nat.mod_one]
  | succ n ih =>
      intro acc v rest
      simp only [encodeFixedBE, List.cons_append, dFixedBEAux]
      rw [ih]
      have hmul : v % (256 ^ n * 256) = v % 256 ^ n + 256 ^ n * (v / 256 ^ n % 256) :=
        Nat.mod_mul
      have hps : (256 : Nat) ^ (n + 1) = 256 ^ n * 256 := pow_succ 256 n
      rw [hps, hmul]
      congr 2
      ring

theorem dFixedBE_enc (w v : Nat) (rest : List Nat) (h : v < 256 ^ w) :
    dFixedBE w (encodeFixedBE w v ++ rest) = .ok (v, rest) := by
  unfold dFixedBE
  rw [dFixedBEAux_enc]
  rw [Nat.mod_eq_of_lt h]
  simp

/-- Modelled from the spec: length-prefixed string of raw bytes (the VarInt
length counts bytes). -/
def encodeString (s : List Nat) : List Nat :=
  encodeVarInt (s.length : Int) ++ s

/-- Modelled from the spec: string decoding takes the prefixed number of
bytes from the stream. -/
def dString : Dec (List Nat) := fun bs => do
  let (n, r) ← dVarInt bs
  if h : 0 ≤ n ∧ n.toNat ≤ r.length then
    .ok (r.take n.toNat, r.drop n.toNat)
  else .error .malformed

theorem dString_enc (s : List Nat) (rest : List Nat)
    (h : s.length < 2147483648) :
    dString (encodeString s ++ rest) = .ok (s, rest) := by
  unfold dString encodeString
  rw [List.append_assoc, dVarInt_enc (s.length : Int) (s ++ rest) (by omega) (by omega)]
  rw [exbind_ok]
  dsimp only
  have hc : (0 : Int) ≤ (s.length : Int) ∧ ((s.length : Int)).toNat ≤ (s ++ rest).length := by
    constructor
    · omega
    · simp
  rw [dif_pos hc]
  have ht : ((s.length : Int)).toNat = s.length := by omega
  rw [ht]
  rw [List.take_left, List.drop_left]

/-- Modelled from the spec: optional values carry a boolean presence flag. -/
def encodeOption (enc : α → Option (List Nat)) : Option α → Option (List Nat)
  | Option.none => some (encodeBool false)
  | some a => do
      let b ← enc a
      some (encodeBool true ++ b)

def dOption (d : Dec α) : Dec (Option α) := fun bs => do
  let (p, r) ← dBool bs
  if p then
    let (a, r2) ← d r
    .ok (some a, r2)
  else
    .ok (Option.none, r)

theorem dOption_enc_none (d : Dec α) (enc : α → Option (List Nat)) (rest : List Nat) :
    ∀ bytes, encodeOption enc Option.none = some bytes →
      dOption d (bytes ++ rest) = .ok ((Option.none : Option α), rest) := by
  intro bytes hb
  simp [encodeOption] at hb
  subst hb
  simp [dOption, encodeBool, dBool, exbind_ok]

theorem dOption_enc_some (d : Dec α) (enc : α → Option (List Nat)) (a : α)
    (rest : List Nat) (bytes inner : List Nat) (hi : enc a = some inner)
    (hd : ∀ r, d (inner ++ r) = .ok (a, r))
    (hb : encodeOption enc (some a) = some bytes) :
    dOption d (bytes ++ rest) = .ok (some a, rest) := by
  simp only [encodeOption, hi, optbind_some, Option.some.injEq] at hb
  subst hb
  unfold dOption
  simp only [encodeBool, if_true, List.cons_append, List.nil_append, List.append_assoc]
  have hdb : dBool (1 :: (inner ++ rest)) = .ok (true, inner ++ rest) := rfl
  rw [hdb, exbind_ok]
  dsimp only
  rw [if_pos rfl, hd rest, exbind_ok]

/-- Sequence a list of optional byte chunks, concatenating the results. -/
def encCat : List (Option (List Nat)) → Option (List Nat)
  | [] => some []
  | x :: xs => do
      let a ← x
      let b ← encCat xs
      some (a ++ b)

/-- Encode every element of a list (without a length prefix). -/
def encAll (enc : α → Option (List Nat)) (xs : List α) : Option (List Nat) :=
  encCat (xs.map enc)

/-- Modelled from the spec: a length-prefixed list (VarInt count, then the
elements in order). -/
def encodeVec (enc : α → Option (List Nat)) (xs : List α) : Option (List Nat) := do
  let body ← encAll enc xs
  some (encodeVarInt (xs.length : Int) ++ body)

/-- Run a decoder a fixed number of times, collecting the results. -/
def dLoop (d : Dec α) : Nat → Dec (List α)
  | 0 => fun bs => .ok ([], bs)
  | n + 1 => fun bs => do
      let (x, r) ← d bs
      let (xs, r2) ← dLoop d n r
      .ok (x :: xs, r2)

/-- Modelled from the spec: list decoding reads the VarInt count (cast to
usize as in Rust) and then that many elements. -/
def dVec (d : Dec α) : Dec (List α) := fun bs => do
  let (n, r) ← dVarInt bs
  dLoop d (usizeOfInt n) r

theorem dLoop_enc (d : Dec α) (enc : α → Option (List Nat)) :
    ∀ (xs : List α) (bytes : List Nat) (rest : List Nat),
      (∀ x ∈ xs, ∀ inner, enc x = some inner → ∀ r, d (inner ++ r) = .ok (x, r)) →
      encAll enc xs = some bytes →
      dLoop d xs.length (bytes ++ rest) = .ok (xs, rest) := by
  intro xs
  induction xs with
  | nil =>
      intro bytes rest _ hb
      simp [encAll, encCat] at hb
      subst hb
      simp [dLoop]
  | cons x xs ih =>
      intro bytes rest hall hb
      simp only [encAll, List.map_cons, encCat] at hb
      cases hx : enc x with
      | none => rw [hx] at hb; simp at hb
      | some bx =>
          rw [hx] at hb
          cases hxs : encCat (xs.map enc) with
          | none => rw [hxs] at hb; simp [optbind_some] at hb
          | some bxs =>
              rw [hxs] at hb
              simp only [optbind_some, Option.some.injEq] at hb
              subst hb
              simp only [List.length_cons, List.append_assoc]
              rw [dLoop]
              dsimp only
              rw [hall x (List.mem_cons_self x xs) bx hx (bxs ++ rest), exbind_ok]
              rw [ih bxs rest (fun y hy => hall y (List.mem_cons_of_mem x hy)) hxs,
                exbind_ok]

theorem usizeOfInt_ofNat (n : Nat) (h : n < 2147483648) :
    usizeOfInt (n : Int) = n := by
  unfold usizeOfInt
  omega

theorem dVec_enc (d : Dec α) (enc : α → Option (List Nat)) (xs : List α)
    (bytes : List Nat) (rest : List Nat)
    (hlen : xs.length < 2147483648)
    (hall : ∀ x ∈ xs, ∀ inner, enc x = some inner → ∀ r, d (inner ++ r) = .ok (x, r))
    (hb : encodeVec enc xs = some bytes) :
    dVec d (bytes ++ rest) = .ok (xs, rest) := by
  simp only [encodeVec] at hb
  cases hxs : encAll enc xs with
  | none => rw [hxs] at hb; simp at hb
  | some body =>
      rw [hxs] at hb
      simp only [optbind_some, Option.some.injEq] at hb
      subst hb
      rw [dVec, List.append_assoc,
        dVarInt_enc (xs.length : Int) (body ++ rest) (by omega) (by omega), exbind_ok]
      dsimp only
      rw [usizeOfInt_ofNat xs.length hlen]
      exact dLoop_enc d enc xs body rest hall hxs

/-- Modelled from the spec: fieldless enums (Rarity, DyeColor, animal
variants, ...) travel as the VarInt of their declaration index; the closed
variant sets are represented by Fin of the variant count.  An out-of-range
index is a malformed stream. -/
def encodeFin {n : Nat} (x : Fin n) : List Nat := encodeVarInt (x.val : Int)

def dFin (n : Nat) : Dec (Fin n) := fun bs => do
  let (v, r) ← dVarInt bs
  if h : 0 ≤ v ∧ v < (n : Int) then
    .ok (⟨v.toNat, by omega⟩, r)
  else .error .malformed

theorem dFin_enc {n : Nat} (x : Fin n) (rest : List Nat) (hn : n ≤ 2147483648) :
    dFin n (encodeFin x ++ rest) = .ok (x, rest) := by
  unfold dFin encodeFin
  have hx := x.isLt
  rw [dVarInt_enc (x.val : Int) rest (by omega) (by omega), exbind_ok]
  dsimp only
  have hc : (0 : Int) ≤ (x.val : Int) ∧ (x.val : Int) < (n : Int) := by omega
  rw [dif_pos hc]
  have ht : ((x.val : Int)).toNat = x.val := by omega
  simp [ht]

/-- Modelled from the spec: NBT compounds belong to the external NBT
collaborator, which is out of scope; they are represented as opaque blobs
delimited by the external codec. -/
structure Compound : Type where
  data : List Nat
deriving DecidableEq

def encodeCompound (c : Compound) : List Nat := encodeString c.data

def dCompound : Dec Compound := fun bs => do
  let (d, r) ← dString bs
  .ok (⟨d⟩, r)

def Compound.WF (c : Compound) : Prop := c.data.length < 2147483648

instance (c : Compound) : Decidable c.WF := by
  unfold Compound.WF; infer_instance

theorem dCompound_enc (c : Compound) (rest : List Nat) (h : c.WF) :
    dCompound (encodeCompound c ++ rest) = .ok (c, rest) := by
  unfold dCompound encodeCompound
  rw [dString_enc c.data rest h, exbind_ok]

/-- Modelled from the spec: a UUID is sixteen raw bytes (the 128-bit value
big-endian). -/
def encodeUuid (u : Nat) : List Nat := encodeFixedBE 16 u

def dUuid : Dec Nat := dFixedBE 16

theorem dUuid_enc (u : Nat) (rest : List Nat) (h : u < 256 ^ 16) :
    dUuid (encodeUuid u ++ rest) = .ok (u, rest) :=
  dFixedBE_enc 16 u rest h

/-- Modelled from the spec: f32 fields are carried as their four raw
big-endian bytes; the model keeps the 32-bit pattern (floating-point
semantics are outside the embedding, equality is bit equality). -/
def encodeF32 (v : Nat) : List Nat := encodeFixedBE 4 v

def dF32 : Dec Nat := dFixedBE 4

theorem dF32_enc (v : Nat) (rest : List Nat) (h : v < 4294967296) :
    dF32 (encodeF32 v ++ rest) = .ok (v, rest) :=
  dFixedBE_enc 4 v rest (by norm_num; omega)

/-- Modelled from the spec: f64 fields as their eight raw big-endian bytes. -/
def encodeF64 (v : Nat) : List Nat := encodeFixedBE 8 v

def dF64 : Dec Nat := dFixedBE 8

theorem dF64_enc (v : Nat) (rest : List Nat) (h : v < 18446744073709551616) :
    dF64 (encodeF64 v ++ rest) = .ok (v, rest) :=
  dFixedBE_enc 8 v rest (by norm_num; omega)

/-- Modelled from the spec: fixed 32-bit integer fields (hashes, RGB colors)
as four big-endian bytes of the two-complement pattern. -/
def encodeI32 (i : Int) : List Nat := encodeFixedBE 4 (u32ofInt i)

def dI32 : Dec Int := fun bs => do
  let (n, r) ← dFixedBE 4 bs
  .ok (i32ofNat n, r)

theorem dI32_enc (i : Int) (rest : List Nat)
    (h1 : -2147483648 ≤ i) (h2 : i < 2147483648) :
    dI32 (encodeI32 i ++ rest) = .ok (i, rest) := by
  unfold dI32 encodeI32
  rw [dFixedBE_enc 4 (u32ofInt i) rest (by have := u32ofInt_lt i; norm_num; omega),
    exbind_ok]
  dsimp only
  rw [i32ofNat_u32ofInt i h1 h2]

/-- The i32 range bound used across well-formedness conditions. -/
def I32Range (i : Int) : Prop := -2147483648 ≤ i ∧ i < 2147483648

instance (i : Int) : Decidable (I32Range i) := by
  unfold I32Range; infer_instance

/-- Protocol strings (and idents) are byte lists; the length prefix must fit
a VarInt. -/
def StringWF (s : List Nat) : Prop := s.length < 2147483648

instance (s : List Nat) : Decidable (StringWF s) := by
  unfold StringWF; infer_instance

/-- From valence_item components.rs: a placeholder for dynamic registry
references.  Its encoder sends VarInt 0 for the String form (dropping the
name) and the raw id for the Id form; its decoder always produces the Id
form. -/
inductive DynamicRegistryPlaceholder : Type where
  | string (s : List Nat)
  | id (v : Int)
deriving DecidableEq

def encodeDynamicRegistryPlaceholder : DynamicRegistryPlaceholder → List Nat
  | .string _ => encodeVarInt 0
  | .id v => encodeVarInt v

def dDynamicRegistryPlaceholder : Dec DynamicRegistryPlaceholder := fun bs => do
  let (v, r) ← dVarInt bs
  .ok (.id v, r)

/-- Only id-form placeholders in i32 range survive a round trip. -/
def DynamicRegistryPlaceholder.WF : DynamicRegistryPlaceholder → Prop
  | .string _ => False
  | .id v => I32Range v

instance (p : DynamicRegistryPlaceholder) : Decidable p.WF := by
  cases p <;> unfold DynamicRegistryPlaceholder.WF <;> infer_instance

theorem dDynamicRegistryPlaceholder_enc (p : DynamicRegistryPlaceholder)
    (rest : List Nat) (h : p.WF) :
    dDynamicRegistryPlaceholder (encodeDynamicRegistryPlaceholder p ++ rest) =
      .ok (p, rest) := by
  cases p with
  | string s => exact absurd h (by simp [DynamicRegistryPlaceholder.WF])
  | id v =>
      unfold dDynamicRegistryPlaceholder encodeDynamicRegistryPlaceholder
      obtain ⟨h1, h2⟩ := h
      rw [dVarInt_enc v rest h1 h2, exbind_ok]

/-- From valence_binary registry_id.rs: a registry id is a raw i32 carried
as a VarInt; decoding trusts the wire value. -/
def encodeRegistryId (v : Int) : List Nat := encodeVarInt v

def dRegistryId : Dec Int := dVarInt

theorem dRegistryId_enc (v : Int) (rest : List Nat) (h : I32Range v) :
    dRegistryId (encodeRegistryId v ++ rest) = .ok (v, rest) :=
  dVarInt_enc v rest h.1 h.2

/-- From valence_binary id_or.rs: either a registry id (sent as id + 1) or
an inline definition (sent behind a zero marker). -/
inductive IdOr (β : Type) : Type where
  | id (v : Int)
  | inline (b : β)
deriving DecidableEq

def encodeIdOr (encB : β → Option (List Nat)) : IdOr β → Option (List Nat)
  | .id v => some (encodeVarInt (v + 1))
  | .inline b => do
      let body ← encB b
      some (encodeVarInt 0 ++ body)

def dIdOr (dB : Dec β) : Dec (IdOr β) := fun bs => do
  let (v, r) ← dVarInt bs
  if v = 0 then
    let (b, r2) ← dB r
    .ok (.inline b, r2)
  else
    .ok (.id (v - 1), r)

def IdOrWF (wfB : β → Prop) : IdOr β → Prop
  | .id v => 0 ≤ v ∧ v + 1 < 2147483648
  | .inline b => wfB b

theorem dIdOr_enc (dB : Dec β) (encB : β → Option (List Nat)) (wfB : β → Prop)
    (x : IdOr β) (bytes rest : List Nat)
    (hx : IdOrWF wfB x)
    (hB : ∀ b, wfB b → ∀ inner, encB b = some inner →
      ∀ r, dB (inner ++ r) = .ok (b, r))
    (hb : encodeIdOr encB x = some bytes) :
    dIdOr dB (bytes ++ rest) = .ok (x, rest) := by
  cases x with
  | id v =>
      simp only [encodeIdOr, Option.some.injEq] at hb
      subst hb
      unfold dIdOr
      obtain ⟨h1, h2⟩ := hx
      rw [dVarInt_enc (v + 1) rest (by omega) (by omega), exbind_ok]
      dsimp only
      rw [if_neg (by omega)]
      have hsub : v + 1 - 1 = v := by omega
      rw [hsub]
  | inline b =>
      simp only [encodeIdOr] at hb
      cases hi : encB b with
      | none => rw [hi] at hb; simp at hb
      | some inner =>
          rw [hi] at hb
          simp only [optbind_some, Option.some.injEq] at hb
          subst hb
          unfold dIdOr
          rw [List.append_assoc, dVarInt_enc 0 (inner ++ rest) (by omega) (by omega),
            exbind_ok]
          dsimp only
          rw [if_pos rfl, hB b hx inner hi rest, exbind_ok]

/-- From valence_binary id_set.rs: a named tag set (marker 0 plus name) or
an inline list of ids (marker is length + 1). -/
inductive IDSet : Type where
  | namedSet (name : List Nat)
  | adHocSet (ids : List Int)
deriving DecidableEq

def encodeIDSet : IDSet → List Nat
  | .namedSet name => encodeVarInt 0 ++ encodeString name
  | .adHocSet ids =>
      encodeVarInt ((ids.length : Int) + 1) ++
        (ids.map encodeRegistryId).foldr (· ++ ·) []

def dIDSetLoop : Nat → Dec (List Int)
  | 0 => fun bs => .ok ([], bs)
  | n + 1 => fun bs => do
      let (v, r) ← dVarInt bs
      let (vs, r2) ← dIDSetLoop n r
      .ok (v :: vs, r2)

def dIDSet : Dec IDSet := fun bs => do
  let (tid, r) ← dVarInt bs
  if tid = 0 then
    let (name, r2) ← dString r
    .ok (.namedSet name, r2)
  else
    let (ids, r2) ← dIDSetLoop (i32ofNat (u32ofInt (tid - 1))).toNat r
    .ok (.adHocSet ids, r2)

def IDSet.WF : IDSet → Prop
  | .namedSet name => StringWF name
  | .adHocSet ids => (ids.length : Int) + 1 < 2147483648 ∧ ∀ v ∈ ids, I32Range v

theorem dIDSetLoop_enc : ∀ (ids : List Int) (rest : List Nat),
    (∀ v ∈ ids, I32Range v) →
    dIDSetLoop ids.length ((ids.map encodeRegistryId).foldr (· ++ ·) [] ++ rest) =
      .ok (ids, rest) := by
  intro ids
  induction ids with
  | nil => intro rest _; simp [dIDSetLoop]
  | cons v vs ih =>
      intro rest hall
      simp only [List.map_cons, List.foldr_cons, List.length_cons, List.append_assoc,
        encodeRegistryId]
      rw [dIDSetLoop]
      dsimp only
      have hv := hall v (List.mem_cons_self v vs)
      rw [dVarInt_enc v _ hv.1 hv.2, exbind_ok]
      rw [ih rest (fun y hy => hall y (List.mem_cons_of_mem v hy)), exbind_ok]

theorem dIDSet_enc (x : IDSet) (rest : List Nat) (h : x.WF) :
    dIDSet (encodeIDSet x ++ rest) = .ok (x, rest) := by
  cases x with
  | namedSet name =>
      unfold dIDSet encodeIDSet
      rw [List.append_assoc, dVarInt_enc 0 _ (by omega) (by omega), exbind_ok]
      dsimp only
      rw [if_pos rfl, dString_enc name rest h, exbind_ok]
  | adHocSet ids =>
      unfold dIDSet encodeIDSet
      obtain ⟨hlen, hall⟩ := h
      rw [List.append_assoc, dVarInt_enc ((ids.length : Int) + 1) _ (by omega) (by omega),
        exbind_ok]
      dsimp only
      rw [if_neg (by omega)]
      have harg : (i32ofNat (u32ofInt ((ids.length : Int) + 1 - 1))).toNat = ids.length := by
        unfold i32ofNat u32ofInt
        split <;> omega
      rw [harg, dIDSetLoop_enc ids rest hall, exbind_ok]

/-- From valence_item components.rs ModePair: a mode byte 0 or 1 followed by
the corresponding alternative. -/
inductive ModePair (α β : Type) : Type where
  | mode0 (a : α)
  | mode1 (b : β)
deriving DecidableEq

def encodeModePair (encA : α → Option (List Nat)) (encB : β → Option (List Nat)) :
    ModePair α β → Option (List Nat)
  | .mode0 a => do
      let body ← encA a
      some (0 :: body)
  | .mode1 b => do
      let body ← encB b
      some (1 :: body)

def dModePair (dA : Dec α) (dB : Dec β) : Dec (ModePair α β) := fun bs =>
  match bs with
  | 0 :: r => do
      let (a, r2) ← dA r
      .ok (.mode0 a, r2)
  | 1 :: r => do
      let (b, r2) ← dB r
      .ok (.mode1 b, r2)
  | _ => .error .malformed

def ModePairWF (wfA : α → Prop) (wfB : β → Prop) : ModePair α β → Prop
  | .mode0 a => wfA a
  | .mode1 b => wfB b

theorem dModePair_enc (dA : Dec α) (dB : Dec β)
    (encA : α → Option (List Nat)) (encB : β → Option (List Nat))
    (wfA : α → Prop) (wfB : β → Prop) (x : ModePair α β) (bytes rest : List Nat)
    (hx : ModePairWF wfA wfB x)
    (hA : ∀ a, wfA a → ∀ inner, encA a = some inner →
      ∀ r, dA (inner ++ r) = .ok (a, r))
    (hB : ∀ b, wfB b → ∀ inner, encB b = some inner →
      ∀ r, dB (inner ++ r) = .ok (b, r))
    (hb : encodeModePair encA encB x = some bytes) :
    dModePair dA dB (bytes ++ rest) = .ok (x, rest) := by
  cases x with
  | mode0 a =>
      simp only [encodeModePair] at hb
      cases hi : encA a with
      | none => rw [hi] at hb; simp at hb
      | some inner =>
          rw [hi] at hb
          simp only [optbind_some, Option.some.injEq] at hb
          subst hb
          simp only [List.cons_append]
          rw [dModePair]
          rw [hA a hx inner hi rest, exbind_ok]
  | mode1 b =>
      simp only [encodeModePair] at hb
      cases hi : encB b with
      | none => rw [hi] at hb; simp at hb
      | some inner =>
          rw [hi] at hb
          simp only [optbind_some, Option.some.injEq] at hb
          subst hb
          simp only [List.cons_append]
          rw [dModePair]
          rw [hB b hx inner hi rest, exbind_ok]

/-- Existence-style round trip for a length-prefixed list, derived from
dVec_enc and totality of the element encoder on well-formed elements. -/
theorem vecRT (d : Dec α) (enc : α → Option (List Nat)) (wf : α → Prop)
    (xs : List α) (hlen : xs.length < 2147483648) (hwf : ∀ x ∈ xs, wf x)
    (helem : ∀ x, wf x → ∃ b, enc x = some b ∧ ∀ r, d (b ++ r) = .ok (x, r)) :
    ∃ bytes, encodeVec enc xs = some bytes ∧
      ∀ r, dVec d (bytes ++ r) = .ok (xs, r) := by
  have htot : ∀ ys : List α, (∀ x ∈ ys, wf x) → ∃ body, encAll enc ys = some body := by
    intro ys
    induction ys with
    | nil => intro _; exact ⟨[], rfl⟩
    | cons y ys ih =>
        intro hys
        obtain ⟨by1, hby1, _⟩ := helem y (hys y (List.mem_cons_self y ys))
        obtain ⟨body, hbody⟩ := ih (fun z hz => hys z (List.mem_cons_of_mem y hz))
        refine ⟨by1 ++ body, ?_⟩
        simp only [encAll, List.map_cons, encCat, hby1, optbind_some]
        rw [show encCat (List.map enc ys) = some body from hbody]
        rfl
  obtain ⟨body, hbody⟩ := htot xs hwf
  refine ⟨encodeVarInt (xs.length : Int) ++ body, ?_, ?_⟩
  · simp [encodeVec, hbody]
  · intro r
    apply dVec_enc d enc xs _ r hlen _ _
    · intro x hx inner hinner r2
      obtain ⟨b, hb, hd⟩ := helem x (hwf x hx)
      rw [hinner] at hb
      injection hb with hb
      subst hb
      exact hd r2
    · simp [encodeVec, hbody]

/-- Existence-style round trip for optionals. -/
theorem optRT (d : Dec α) (enc : α → Option (List Nat)) (wf : α → Prop)
    (x : Option α) (hwf : ∀ a, x = some a → wf a)
    (helem : ∀ a, wf a → ∃ b, enc a = some b ∧ ∀ r, d (b ++ r) = .ok (a, r)) :
    ∃ bytes, encodeOption enc x = some bytes ∧
      ∀ r, dOption d (bytes ++ r) = .ok (x, r) := by
  cases x with
  | none =>
      refine ⟨encodeBool false, rfl, ?_⟩
      intro r
      exact dOption_enc_none d enc r _ rfl
  | some a =>
      obtain ⟨b, hb, hd⟩ := helem a (hwf a rfl)
      refine ⟨encodeBool true ++ b, ?_, ?_⟩
      · simp [encodeOption, hb]
      · intro r
        refine dOption_enc_some d enc a r _ b hb hd ?_
        simp [encodeOption, hb]

/-- From valence_binary text_component.rs: a text component is either a
plain string (NBT String tag 8, 16-bit big-endian length, raw bytes) or a
complex text payload (NBT Compound tag 10, external NBT codec).  The Text
payload itself lives in the external text/NBT collaborators and is kept
opaque; the lossy-UTF8 readback of a plain string is modelled as the
identity on its bytes. -/
inductive TextComponent : Type where
  | plain (s : List Nat)
  | compound (c : Compound)
deriving DecidableEq

def encodeTextComponent : TextComponent → Option (List Nat)
  | .plain s =>
      if s.length ≤ 65535 then some (8 :: (encodeFixedBE 2 s.length ++ s))
      else Option.none
  | .compound c => some (10 :: encodeCompound c)

def dTextComponent : Dec TextComponent := fun bs =>
  match bs with
  | 8 :: r => do
      let (len, r2) ← dFixedBE 2 r
      if len ≤ r2.length then
        .ok (.plain (r2.take len), r2.drop len)
      else .error .malformed
  | 10 :: r => do
      let (c, r2) ← dCompound r
      .ok (.compound c, r2)
  | _ => .error .malformed

def TextComponent.WF : TextComponent → Prop
  | .plain s => s.length ≤ 65535
  | .compound c => c.WF

theorem textComponentRT (x : TextComponent) (h : x.WF) :
    ∃ bytes, encodeTextComponent x = some bytes ∧
      ∀ r, dTextComponent (bytes ++ r) = .ok (x, r) := by
  cases x with
  | plain s =>
      have hlen : s.length ≤ 65535 := h
      refine ⟨8 :: (encodeFixedBE 2 s.length ++ s), ?_, ?_⟩
      · simp [encodeTextComponent, hlen]
      · intro r
        simp only [List.cons_append, List.append_assoc]
        rw [dTextComponent]
        rw [dFixedBE_enc 2 s.length (s ++ r) (by norm_num; omega), exbind_ok]
        dsimp only
        rw [if_pos (by simp)]
        rw [List.take_left, List.drop_left]
  | compound c =>
      refine ⟨10 :: encodeCompound c, rfl, ?_⟩
      intro r
      simp only [List.cons_append]
      rw [dTextComponent]
      rw [dCompound_enc c r h, exbind_ok]

/-- Modelled from the spec: the base item identity is an opaque registry
integer (Air is the zero id), carried as a VarInt. -/
abbrev ItemKind : Type := Nat

def ItemKind.Air : ItemKind := 0

def encodeItemKind (k : ItemKind) : List Nat := encodeVarInt (k : Int)

def dItemKind : Dec ItemKind := fun bs => do
  let (v, r) ← dVarInt bs
  if h : 0 ≤ v then .ok (v.toNat, r) else .error .malformed

def ItemKind.WF (k : ItemKind) : Prop := k < 2147483648

theorem dItemKind_enc (k : ItemKind) (rest : List Nat) (h : k.WF) :
    dItemKind (encodeItemKind k ++ rest) = .ok (k, rest) := by
  unfold dItemKind encodeItemKind
  rw [dVarInt_enc (k : Int) rest (by omega) (by exact_mod_cast h), exbind_ok]
  dsimp only
  rw [dif_pos (by omega)]
  simp

/-- The fieldless payload enums of valence_item components.rs, with their
variant counts: Rarity (4), MapPostProcessingType (2), ConsumableAnimation
(10), EquipSlot (7), AttributeSlot (10), DyeColor (16), FoxType (2),
SalmonScale (3), ParrotType (5), TropicalFishPattern (12), MooshroomType
(2), RabbitType (7), HorseColor (7), LlamaColor (4), AxolotlType (5), and
the generated EntityAttributeOperation (3). -/
abbrev Rarity : Type := Fin 4
abbrev MapPostProcessingType : Type := Fin 2
abbrev ConsumableAnimation : Type := Fin 10
abbrev EquipSlot : Type := Fin 7
abbrev AttributeSlot : Type := Fin 10
abbrev DyeColor : Type := Fin 16
abbrev FoxType : Type := Fin 2
abbrev SalmonScale : Type := Fin 3
abbrev ParrotType : Type := Fin 5
abbrev TropicalFishPattern : Type := Fin 12
abbrev MooshroomType : Type := Fin 2
abbrev RabbitType : Type := Fin 7
abbrev HorseColor : Type := Fin 7
abbrev LlamaColor : Type := Fin 4
abbrev AxolotlType : Type := Fin 5
abbrev EntityAttributeOperation : Type := Fin 3

theorem finRT {n : Nat} (x : Fin n) (hn : n ≤ 2147483648) :
    ∃ bytes, (some (encodeFin x) : Option (List Nat)) = some bytes ∧
      ∀ r, dFin n (bytes ++ r) = .ok (x, r) :=
  ⟨encodeFin x, rfl, fun r => dFin_enc x r hn⟩

/-- A UUID value (128-bit pattern). -/
abbrev Uuid : Type := Nat

def Uuid.WF (u : Uuid) : Prop := u < 256 ^ 16

/-- From components.rs PropertyValue: a boolean selects an exact value or a
min/max pair. -/
inductive PropertyValue : Type where
  | exact (v : List Nat)
  | minMax (mn mx : List Nat)
deriving DecidableEq

def encodePropertyValue : PropertyValue → List Nat
  | .exact v => encodeBool true ++ encodeString v
  | .minMax mn mx => encodeBool false ++ encodeString mn ++ encodeString mx

def dPropertyValue : Dec PropertyValue := fun bs => do
  let (isExact, r) ← dBool bs
  if isExact then
    let (v, r2) ← dString r
    .ok (.exact v, r2)
  else
    let (mn, r2) ← dString r
    let (mx, r3) ← dString r2
    .ok (.minMax mn mx, r3)

def PropertyValue.WF : PropertyValue → Prop
  | .exact v => StringWF v
  | .minMax mn mx => StringWF mn ∧ StringWF mx

theorem propertyValueRT (x : PropertyValue) (h : x.WF) (r : List Nat) :
    dPropertyValue (encodePropertyValue x ++ r) = .ok (x, r) := by
  cases x with
  | exact v =>
      unfold dPropertyValue encodePropertyValue
      simp only [List.append_assoc]
      rw [dBool_enc true _, exbind_ok]
      dsimp only
      rw [if_pos rfl, dString_enc v r h, exbind_ok]
  | minMax mn mx =>
      unfold dPropertyValue encodePropertyValue
      simp only [List.append_assoc]
      rw [dBool_enc false _, exbind_ok]
      dsimp only
      rw [if_neg (by simp), dString_enc mn _ h.1, exbind_ok,
        dString_enc mx _ h.2, exbind_ok]

/-- From components.rs Property: a block-state property name and value. -/
structure Property : Type where
  name : List Nat
  value : PropertyValue
deriving DecidableEq

def encodeProperty (p : Property) : List Nat :=
  encodeString p.name ++ encodePropertyValue p.value

def dProperty : Dec Property := fun bs => do
  let (name, r) ← dString bs
  let (value, r2) ← dPropertyValue r
  .ok (⟨name, value⟩, r2)

def Property.WF (p : Property) : Prop := StringWF p.name ∧ p.value.WF

theorem propertyRT (p : Property) (h : p.WF) (r : List Nat) :
    dProperty (encodeProperty p ++ r) = .ok (p, r) := by
  unfold dProperty encodeProperty
  rw [List.append_assoc, dString_enc p.name _ h.1, exbind_ok]
  dsimp only
  rw [propertyValueRT p.value h.2 r, exbind_ok]

/-- From components.rs PartialComponentMatcher: a component id and an NBT
predicate blob. -/
structure PartialComponentMatcher : Type where
  component_type : Int
  predicate : Compound
deriving DecidableEq

def encodePartialComponentMatcher (m : PartialComponentMatcher) : List Nat :=
  encodeVarInt m.component_type ++ encodeCompound m.predicate

def dPartialComponentMatcher : Dec PartialComponentMatcher := fun bs => do
  let (t, r) ← dVarInt bs
  let (p, r2) ← dCompound r
  .ok (⟨t, p⟩, r2)

def PartialComponentMatcher.WF (m : PartialComponentMatcher) : Prop :=
  I32Range m.component_type ∧ m.predicate.WF

theorem partialComponentMatcherRT (m : PartialComponentMatcher) (h : m.WF)
    (r : List Nat) :
    dPartialComponentMatcher (encodePartialComponentMatcher m ++ r) = .ok (m, r) := by
  unfold dPartialComponentMatcher encodePartialComponentMatcher
  rw [List.append_assoc, dVarInt_enc m.component_type _ h.1.1 h.1.2, exbind_ok]
  dsimp only
  rw [dCompound_enc m.predicate r h.2, exbind_ok]

/-- From components.rs AttributeModifier: registry id, modifier ident,
f64 amount, operation, and slot, concatenated in declaration order. -/
structure AttributeModifier : Type where
  attribute_id : Int
  modifier_id : List Nat
  value : Nat
  operation : EntityAttributeOperation
  slot : AttributeSlot
deriving DecidableEq

def encodeAttributeModifier (m : AttributeModifier) : List Nat :=
  encodeRegistryId m.attribute_id ++ encodeString m.modifier_id ++
    encodeF64 m.value ++ encodeFin m.operation ++ encodeFin m.slot

def dAttributeModifier : Dec AttributeModifier := fun bs => do
  let (aid, r) ← dRegistryId bs
  let (mid, r2) ← dString r
  let (v, r3) ← dF64 r2
  let (op, r4) ← dFin 3 r3
  let (slot, r5) ← dFin 10 r4
  .ok (⟨aid, mid, v, op, slot⟩, r5)

def AttributeModifier.WF (m : AttributeModifier) : Prop :=
  I32Range m.attribute_id ∧ StringWF m.modifier_id ∧ m.value < 18446744073709551616

theorem attributeModifierRT (m : AttributeModifier) (h : m.WF) (r : List Nat) :
    dAttributeModifier (encodeAttributeModifier m ++ r) = .ok (m, r) := by
  obtain ⟨h1, h2, h3⟩ := h
  unfold dAttributeModifier encodeAttributeModifier
  simp only [List.append_assoc]
  rw [dRegistryId_enc m.attribute_id _ h1, exbind_ok]
  dsimp only
  rw [dString_enc m.modifier_id _ h2, exbind_ok]
  dsimp only
  rw [dF64_enc m.value _ h3, exbind_ok]
  dsimp only
  rw [dFin_enc m.operation _ (by norm_num), exbind_ok]
  dsimp only
  rw [dFin_enc m.slot _ (by norm_num), exbind_ok]

/-- From components.rs ToolRule: a block id set, an optional speed override
and an optional correct-drop flag. -/
structure ToolRule : Type where
  blocks : IDSet
  speed : Option Nat
  correct_drop_for_blocks : Option Bool
deriving DecidableEq

def encodeToolRule (t : ToolRule) : Option (List Nat) := do
  let sp ← encodeOption (fun v => some (encodeF32 v)) t.speed
  let cd ← encodeOption (fun b => some (encodeBool b)) t.correct_drop_for_blocks
  some (encodeIDSet t.blocks ++ sp ++ cd)

def dToolRule : Dec ToolRule := fun bs => do
  let (blocks, r) ← dIDSet bs
  let (speed, r2) ← dOption dF32 r
  let (cd, r3) ← dOption dBool r2
  .ok (⟨blocks, speed, cd⟩, r3)

def ToolRule.WF (t : ToolRule) : Prop :=
  t.blocks.WF ∧ (∀ v, t.speed = some v → v < 4294967296)

theorem toolRuleRT (t : ToolRule) (h : t.WF) :
    ∃ bytes, encodeToolRule t = some bytes ∧
      ∀ r, dToolRule (bytes ++ r) = .ok (t, r) := by
  obtain ⟨h1, h2⟩ := h
  obtain ⟨bsp, hsp, hdsp⟩ := optRT dF32 (fun v => some (encodeF32 v)) (fun v => v < 4294967296)
    t.speed h2 (fun v hv => ⟨encodeF32 v, rfl, fun r => dF32_enc v r hv⟩)
  obtain ⟨bcd, hcd, hdcd⟩ := optRT dBool (fun b => some (encodeBool b)) (fun _ => True)
    t.correct_drop_for_blocks (fun _ _ => trivial)
    (fun b _ => ⟨encodeBool b, rfl, fun r => dBool_enc b r⟩)
  refine ⟨encodeIDSet t.blocks ++ bsp ++ bcd, ?_, ?_⟩
  · simp [encodeToolRule, hsp, hcd]
  · intro r
    unfold dToolRule
    simp only [List.append_assoc]
    rw [dIDSet_enc t.blocks _ h1, exbind_ok]
    dsimp only
    rw [hdsp, exbind_ok]
    dsimp only
    rw [hdcd, exbind_ok]

/-- From components.rs LodestoneTarget: dimension ident plus three VarInt
coordinates. -/
structure LodestoneTarget : Type where
  dimension : List Nat
  position : Int × Int × Int
deriving DecidableEq

def encodeLodestoneTarget (t : LodestoneTarget) : List Nat :=
  encodeString t.dimension ++ encodeVarInt t.position.1 ++
    encodeVarInt t.position.2.1 ++ encodeVarInt t.position.2.2

def dLodestoneTarget : Dec LodestoneTarget := fun bs => do
  let (dim, r) ← dString bs
  let (x, r2) ← dVarInt r
  let (y, r3) ← dVarInt r2
  let (z, r4) ← dVarInt r3
  .ok (⟨dim, (x, y, z)⟩, r4)

def LodestoneTarget.WF (t : LodestoneTarget) : Prop :=
  StringWF t.dimension ∧ I32Range t.position.1 ∧ I32Range t.position.2.1 ∧
    I32Range t.position.2.2

theorem lodestoneTargetRT (t : LodestoneTarget) (h : t.WF) (r : List Nat) :
    dLodestoneTarget (encodeLodestoneTarget t ++ r) = .ok (t, r) := by
  obtain ⟨h1, h2, h3, h4⟩ := h
  unfold dLodestoneTarget encodeLodestoneTarget
  simp only [List.append_assoc]
  rw [dString_enc t.dimension _ h1, exbind_ok]
  dsimp only
  rw [dVarInt_enc t.position.1 _ h2.1 h2.2, exbind_ok]
  dsimp only
  rw [dVarInt_enc t.position.2.1 _ h3.1 h3.2, exbind_ok]
  dsimp only
  rw [dVarInt_enc t.position.2.2 _ h4.1 h4.2, exbind_ok]

/-- From components.rs SoundEventDefinition: a sound reference (string name
or registry id behind a mode byte) plus an optional fixed range. -/
structure SoundEventDefinition : Type where
  sound : ModePair (List Nat) Int
  range : Option Nat
deriving DecidableEq

def encodeSoundEventDefinition (s : SoundEventDefinition) : Option (List Nat) := do
  let ms ← encodeModePair (fun v => some (encodeString v))
    (fun v => some (encodeRegistryId v)) s.sound
  let rg ← encodeOption (fun v => some (encodeF32 v)) s.range
  some (ms ++ rg)

def dSoundEventDefinition : Dec SoundEventDefinition := fun bs => do
  let (snd, r) ← dModePair dString dRegistryId bs
  let (rg, r2) ← dOption dF32 r
  .ok (⟨snd, rg⟩, r2)

def SoundEventDefinition.WF (s : SoundEventDefinition) : Prop :=
  ModePairWF StringWF I32Range s.sound ∧ (∀ v, s.range = some v → v < 4294967296)

theorem soundEventDefinitionRT (s : SoundEventDefinition) (h : s.WF) :
    ∃ bytes, encodeSoundEventDefinition s = some bytes ∧
      ∀ r, dSoundEventDefinition (bytes ++ r) = .ok (s, r) := by
  obtain ⟨h1, h2⟩ := h
  have hms : ∃ bms, encodeModePair (fun v => some (encodeString v))
      (fun v => some (encodeRegistryId v)) s.sound = some bms ∧
      ∀ r, dModePair dString dRegistryId (bms ++ r) = .ok (s.sound, r) := by
    cases hx : s.sound with
    | mode0 a =>
        refine ⟨0 :: encodeString a, by simp [encodeModePair], ?_⟩
        intro r
        have hwf : StringWF a := by rw [hx] at h1; exact h1
        simp only [List.cons_append]
        rw [dModePair]
        rw [dString_enc a r hwf, exbind_ok]
    | mode1 b =>
        refine ⟨1 :: encodeRegistryId b, by simp [encodeModePair], ?_⟩
        intro r
        have hwf : I32Range b := by rw [hx] at h1; exact h1
        simp only [List.cons_append]
        rw [dModePair]
        rw [dRegistryId_enc b r hwf, exbind_ok]
  obtain ⟨bms, hbms, hdms⟩ := hms
  obtain ⟨brg, hbrg, hdrg⟩ := optRT dF32 (fun v => some (encodeF32 v))
    (fun v => v < 4294967296) s.range h2
    (fun v hv => ⟨encodeF32 v, rfl, fun r => dF32_enc v r hv⟩)
  refine ⟨bms ++ brg, ?_, ?_⟩
  · simp [encodeSoundEventDefinition, hbms, hbrg]
  · intro r
    unfold dSoundEventDefinition
    simp only [List.append_assoc]
    rw [hdms, exbind_ok]
    dsimp only
    rw [hdrg, exbind_ok]

/-- Existence-style round trip for IdOr values. -/
theorem idOrRT (dB : Dec β) (encB : β → Option (List Nat)) (wfB : β → Prop)
    (x : IdOr β) (hx : IdOrWF wfB x)
    (hB : ∀ b, wfB b → ∃ bb, encB b = some bb ∧ ∀ r, dB (bb ++ r) = .ok (b, r)) :
    ∃ bytes, encodeIdOr encB x = some bytes ∧
      ∀ r, dIdOr dB (bytes ++ r) = .ok (x, r) := by
  cases x with
  | id v =>
      refine ⟨encodeVarInt (v + 1), rfl, ?_⟩
      intro r
      exact dIdOr_enc dB encB wfB (.id v) _ r hx
        (fun b hb inner hinner r2 => by
          obtain ⟨bb, hbb, hd⟩ := hB b hb
          rw [hinner] at hbb
          injection hbb with hbb
          subst hbb
          exact hd r2) rfl
  | inline b =>
      obtain ⟨bb, hbb, hd⟩ := hB b hx
      refine ⟨encodeVarInt 0 ++ bb, by simp [encodeIdOr, hbb], ?_⟩
      intro r
      refine dIdOr_enc dB encB wfB (.inline b) _ r hx
        (fun b2 hb2 inner hinner r2 => by
          obtain ⟨bb2, hbb2, hd2⟩ := hB b2 hb2
          rw [hinner] at hbb2
          injection hbb2 with hbb2
          subst hbb2
          exact hd2 r2) (by simp [encodeIdOr, hbb])

/-- Existence-style round trip for ModePair values. -/
theorem modePairRT (dA : Dec α) (dB : Dec β)
    (encA : α → Option (List Nat)) (encB : β → Option (List Nat))
    (wfA : α → Prop) (wfB : β → Prop) (x : ModePair α β)
    (hx : ModePairWF wfA wfB x)
    (hA : ∀ a, wfA a → ∃ ba, encA a = some ba ∧ ∀ r, dA (ba ++ r) = .ok (a, r))
    (hB : ∀ b, wfB b → ∃ bb, encB b = some bb ∧ ∀ r, dB (bb ++ r) = .ok (b, r)) :
    ∃ bytes, encodeModePair encA encB x = some bytes ∧
      ∀ r, dModePair dA dB (bytes ++ r) = .ok (x, r) := by
  cases x with
  | mode0 a =>
      obtain ⟨ba, hba, hd⟩ := hA a hx
      refine ⟨0 :: ba, by simp [encodeModePair, hba], ?_⟩
      intro r
      simp only [List.cons_append]
      rw [dModePair]
      rw [hd r, exbind_ok]
  | mode1 b =>
      obtain ⟨bb, hbb, hd⟩ := hB b hx
      refine ⟨1 :: bb, by simp [encodeModePair, hbb], ?_⟩
      intro r
      simp only [List.cons_append]
      rw [dModePair]
      rw [hd r, exbind_ok]

/-- The IdOr instantiation used throughout the components: registry sound id
or inline sound event definition. -/
def encodeIdOrSound : IdOr SoundEventDefinition → Option (List Nat) :=
  encodeIdOr encodeSoundEventDefinition

def dIdOrSound : Dec (IdOr SoundEventDefinition) := dIdOr dSoundEventDefinition

def IdOrSoundWF : IdOr SoundEventDefinition → Prop := IdOrWF SoundEventDefinition.WF

theorem idOrSoundRT (x : IdOr SoundEventDefinition) (h : IdOrSoundWF x) :
    ∃ bytes, encodeIdOrSound x = some bytes ∧
      ∀ r, dIdOrSound (bytes ++ r) = .ok (x, r) :=
  idOrRT dSoundEventDefinition encodeSoundEventDefinition SoundEventDefinition.WF x h
    soundEventDefinitionRT

/-- From components.rs TrimMaterial: asset name, per-material overrides and
a tooltip description. -/
structure TrimMaterial : Type where
  asset_name : List Nat
  overrides : List (List Nat × List Nat)
  description : TextComponent
deriving DecidableEq

def encodeStringPair (p : List Nat × List Nat) : Option (List Nat) :=
  some (encodeString p.1 ++ encodeString p.2)

def dStringPair : Dec (List Nat × List Nat) := fun bs => do
  let (a, r) ← dString bs
  let (b, r2) ← dString r
  .ok ((a, b), r2)

def StringPairWF (p : List Nat × List Nat) : Prop := StringWF p.1 ∧ StringWF p.2

theorem stringPairRT (p : List Nat × List Nat) (h : StringPairWF p) :
    ∃ bytes, encodeStringPair p = some bytes ∧
      ∀ r, dStringPair (bytes ++ r) = .ok (p, r) := by
  refine ⟨encodeString p.1 ++ encodeString p.2, rfl, ?_⟩
  intro r
  unfold dStringPair
  simp only [List.append_assoc]
  rw [dString_enc p.1 _ h.1, exbind_ok]
  dsimp only
  rw [dString_enc p.2 _ h.2, exbind_ok]

def encodeTrimMaterial (t : TrimMaterial) : Option (List Nat) := do
  let ov ← encodeVec encodeStringPair t.overrides
  let d ← encodeTextComponent t.description
  some (encodeString t.asset_name ++ ov ++ d)

def dTrimMaterial : Dec TrimMaterial := fun bs => do
  let (an, r) ← dString bs
  let (ov, r2) ← dVec dStringPair r
  let (d, r3) ← dTextComponent r2
  .ok (⟨an, ov, d⟩, r3)

def TrimMaterial.WF (t : TrimMaterial) : Prop :=
  StringWF t.asset_name ∧ t.overrides.length < 2147483648 ∧
    (∀ p ∈ t.overrides, StringPairWF p) ∧ t.description.WF

theorem trimMaterialRT (t : TrimMaterial) (h : t.WF) :
    ∃ bytes, encodeTrimMaterial t = some bytes ∧
      ∀ r, dTrimMaterial (bytes ++ r) = .ok (t, r) := by
  obtain ⟨h1, h2, h3, h4⟩ := h
  obtain ⟨bov, hbov, hdov⟩ := vecRT dStringPair encodeStringPair StringPairWF
    t.overrides h2 h3 stringPairRT
  obtain ⟨bd, hbd, hdd⟩ := textComponentRT t.description h4
  refine ⟨encodeString t.asset_name ++ bov ++ bd, ?_, ?_⟩
  · simp [encodeTrimMaterial, hbov, hbd]
  · intro r
    unfold dTrimMaterial
    simp only [List.append_assoc]
    rw [dString_enc t.asset_name _ h1, exbind_ok]
    dsimp only
    rw [hdov, exbind_ok]
    dsimp only
    rw [hdd, exbind_ok]

/-- From components.rs TrimPattern. -/
structure TrimPattern : Type where
  asset_id : List Nat
  template_item : Int
  description : TextComponent
  decal : Bool
deriving DecidableEq

def encodeTrimPattern (t : TrimPattern) : Option (List Nat) := do
  let d ← encodeTextComponent t.description
  some (encodeString t.asset_id ++ encodeRegistryId t.template_item ++ d ++
    encodeBool t.decal)

def dTrimPattern : Dec TrimPattern := fun bs => do
  let (aid, r) ← dString bs
  let (ti, r2) ← dRegistryId r
  let (d, r3) ← dTextComponent r2
  let (dc, r4) ← dBool r3
  .ok (⟨aid, ti, d, dc⟩, r4)

def TrimPattern.WF (t : TrimPattern) : Prop :=
  StringWF t.asset_id ∧ I32Range t.template_item ∧ t.description.WF

theorem trimPatternRT (t : TrimPattern) (h : t.WF) :
    ∃ bytes, encodeTrimPattern t = some bytes ∧
      ∀ r, dTrimPattern (bytes ++ r) = .ok (t, r) := by
  obtain ⟨h1, h2, h3⟩ := h
  obtain ⟨bd, hbd, hdd⟩ := textComponentRT t.description h3
  refine ⟨encodeString t.asset_id ++ encodeRegistryId t.template_item ++ bd ++
    encodeBool t.decal, ?_, ?_⟩
  · simp [encodeTrimPattern, hbd]
  · intro r
    unfold dTrimPattern
    simp only [List.append_assoc]
    rw [dString_enc t.asset_id _ h1, exbind_ok]
    dsimp only
    rw [dRegistryId_enc t.template_item _ h2, exbind_ok]
    dsimp only
    rw [hdd, exbind_ok]
    dsimp only
    rw [dBool_enc t.decal _, exbind_ok]

/-- From components.rs InstrumentDefinition. -/
structure InstrumentDefinition : Type where
  sound_event : IdOr SoundEventDefinition
  use_duration : Nat
  range : Nat
  description : TextComponent
deriving DecidableEq

def encodeInstrumentDefinition (t : InstrumentDefinition) : Option (List Nat) := do
  let se ← encodeIdOrSound t.sound_event
  let d ← encodeTextComponent t.description
  some (se ++ encodeF32 t.use_duration ++ encodeF32 t.range ++ d)

def dInstrumentDefinition : Dec InstrumentDefinition := fun bs => do
  let (se, r) ← dIdOrSound bs
  let (ud, r2) ← dF32 r
  let (rg, r3) ← dF32 r2
  let (d, r4) ← dTextComponent r3
  .ok (⟨se, ud, rg, d⟩, r4)

def InstrumentDefinition.WF (t : InstrumentDefinition) : Prop :=
  IdOrSoundWF t.sound_event ∧ t.use_duration < 4294967296 ∧
    t.range < 4294967296 ∧ t.description.WF

theorem instrumentDefinitionRT (t : InstrumentDefinition) (h : t.WF) :
    ∃ bytes, encodeInstrumentDefinition t = some bytes ∧
      ∀ r, dInstrumentDefinition (bytes ++ r) = .ok (t, r) := by
  obtain ⟨h1, h2, h3, h4⟩ := h
  obtain ⟨bse, hbse, hdse⟩ := idOrSoundRT t.sound_event h1
  obtain ⟨bd, hbd, hdd⟩ := textComponentRT t.description h4
  refine ⟨bse ++ encodeF32 t.use_duration ++ encodeF32 t.range ++ bd, ?_, ?_⟩
  · simp [encodeInstrumentDefinition, hbse, hbd]
  · intro r
    unfold dInstrumentDefinition
    simp only [List.append_assoc]
    rw [hdse, exbind_ok]
    dsimp only
    rw [dF32_enc t.use_duration _ h2, exbind_ok]
    dsimp only
    rw [dF32_enc t.range _ h3, exbind_ok]
    dsimp only
    rw [hdd, exbind_ok]

/-- From components.rs JukeboxSong; its description is a Text payload of the
external NBT codec. -/
structure JukeboxSong : Type where
  sound_event : IdOr SoundEventDefinition
  description : Compound
  length_seconds : Nat
  comparator_output : Int
deriving DecidableEq

def encodeJukeboxSong (t : JukeboxSong) : Option (List Nat) := do
  let se ← encodeIdOrSound t.sound_event
  some (se ++ encodeCompound t.description ++ encodeF32 t.length_seconds ++
    encodeVarInt t.comparator_output)

def dJukeboxSong : Dec JukeboxSong := fun bs => do
  let (se, r) ← dIdOrSound bs
  let (d, r2) ← dCompound r
  let (ls, r3) ← dF32 r2
  let (co, r4) ← dVarInt r3
  .ok (⟨se, d, ls, co⟩, r4)

def JukeboxSong.WF (t : JukeboxSong) : Prop :=
  IdOrSoundWF t.sound_event ∧ t.description.WF ∧ t.length_seconds < 4294967296 ∧
    I32Range t.comparator_output

theorem jukeboxSongRT (t : JukeboxSong) (h : t.WF) :
    ∃ bytes, encodeJukeboxSong t = some bytes ∧
      ∀ r, dJukeboxSong (bytes ++ r) = .ok (t, r) := by
  obtain ⟨h1, h2, h3, h4⟩ := h
  obtain ⟨bse, hbse, hdse⟩ := idOrSoundRT t.sound_event h1
  refine ⟨bse ++ encodeCompound t.description ++ encodeF32 t.length_seconds ++
    encodeVarInt t.comparator_output, ?_, ?_⟩
  · simp [encodeJukeboxSong, hbse]
  · intro r
    unfold dJukeboxSong
    simp only [List.append_assoc]
    rw [hdse, exbind_ok]
    dsimp only
    rw [dCompound_enc t.description _ h2, exbind_ok]
    dsimp only
    rw [dF32_enc t.length_seconds _ h3, exbind_ok]
    dsimp only
    rw [dVarInt_enc t.comparator_output _ h4.1 h4.2, exbind_ok]

/-- From components.rs PaintingVariantDefinition. -/
structure PaintingVariantDefinition : Type where
  asset_id : List Nat
  width : Int
  height : Int
deriving DecidableEq

def encodePaintingVariantDefinition (t : PaintingVariantDefinition) : List Nat :=
  encodeString t.asset_id ++ encodeVarInt t.width ++ encodeVarInt t.height

def dPaintingVariantDefinition : Dec PaintingVariantDefinition := fun bs => do
  let (aid, r) ← dString bs
  let (w, r2) ← dVarInt r
  let (hgt, r3) ← dVarInt r2
  .ok (⟨aid, w, hgt⟩, r3)

def PaintingVariantDefinition.WF (t : PaintingVariantDefinition) : Prop :=
  StringWF t.asset_id ∧ I32Range t.width ∧ I32Range t.height

theorem paintingVariantDefinitionRT (t : PaintingVariantDefinition) (h : t.WF) :
    ∃ bytes, (some (encodePaintingVariantDefinition t) : Option (List Nat)) = some bytes ∧
      ∀ r, dPaintingVariantDefinition (bytes ++ r) = .ok (t, r) := by
  obtain ⟨h1, h2, h3⟩ := h
  refine ⟨encodePaintingVariantDefinition t, rfl, ?_⟩
  intro r
  unfold dPaintingVariantDefinition encodePaintingVariantDefinition
  simp only [List.append_assoc]
  rw [dString_enc t.asset_id _ h1, exbind_ok]
  dsimp only
  rw [dVarInt_enc t.width _ h2.1 h2.2, exbind_ok]
  dsimp only
  rw [dVarInt_enc t.height _ h3.1 h3.2, exbind_ok]

/-- From components.rs FireworkExplosionData. -/
structure FireworkExplosionData : Type where
  shape : Int
  colors : List Int
  fade_colors : List Int
  has_trail : Bool
  has_twinkle : Bool
deriving DecidableEq

def encodeI32Elem (i : Int) : Option (List Nat) := some (encodeI32 i)

theorem i32ElemRT (i : Int) (h : I32Range i) :
    ∃ b, encodeI32Elem i = some b ∧ ∀ r, dI32 (b ++ r) = .ok (i, r) :=
  ⟨encodeI32 i, rfl, fun r => dI32_enc i r h.1 h.2⟩

def encodeFireworkExplosionData (t : FireworkExplosionData) : Option (List Nat) := do
  let cs ← encodeVec encodeI32Elem t.colors
  let fcs ← encodeVec encodeI32Elem t.fade_colors
  some (encodeVarInt t.shape ++ cs ++ fcs ++ encodeBool t.has_trail ++
    encodeBool t.has_twinkle)

def dFireworkExplosionData : Dec FireworkExplosionData := fun bs => do
  let (sh, r) ← dVarInt bs
  let (cs, r2) ← dVec dI32 r
  let (fcs, r3) ← dVec dI32 r2
  let (ht, r4) ← dBool r3
  let (hw, r5) ← dBool r4
  .ok (⟨sh, cs, fcs, ht, hw⟩, r5)

def FireworkExplosionData.WF (t : FireworkExplosionData) : Prop :=
  I32Range t.shape ∧ t.colors.length < 2147483648 ∧ (∀ c ∈ t.colors, I32Range c) ∧
    t.fade_colors.length < 2147483648 ∧ (∀ c ∈ t.fade_colors, I32Range c)

theorem fireworkExplosionDataRT (t : FireworkExplosionData) (h : t.WF) :
    ∃ bytes, encodeFireworkExplosionData t = some bytes ∧
      ∀ r, dFireworkExplosionData (bytes ++ r) = .ok (t, r) := by
  obtain ⟨h1, h2, h3, h4, h5⟩ := h
  obtain ⟨bcs, hbcs, hdcs⟩ := vecRT dI32 encodeI32Elem I32Range t.colors h2 h3 i32ElemRT
  obtain ⟨bfcs, hbfcs, hdfcs⟩ := vecRT dI32 encodeI32Elem I32Range t.fade_colors h4 h5
    i32ElemRT
  refine ⟨encodeVarInt t.shape ++ bcs ++ bfcs ++ encodeBool t.has_trail ++
    encodeBool t.has_twinkle, ?_, ?_⟩
  · simp [encodeFireworkExplosionData, hbcs, hbfcs]
  · intro r
    unfold dFireworkExplosionData
    simp only [List.append_assoc]
    rw [dVarInt_enc t.shape _ h1.1 h1.2, exbind_ok]
    dsimp only
    rw [hdcs, exbind_ok]
    dsimp only
    rw [hdfcs, exbind_ok]
    dsimp only
    rw [dBool_enc t.has_trail _, exbind_ok]
    dsimp only
    rw [dBool_enc t.has_twinkle _, exbind_ok]

/-- From components.rs BannerPattern. -/
structure BannerPattern : Type where
  asset_id : List Nat
  translation_key : List Nat
deriving DecidableEq

def encodeBannerPattern (t : BannerPattern) : List Nat :=
  encodeString t.asset_id ++ encodeString t.translation_key

def dBannerPattern : Dec BannerPattern := fun bs => do
  let (a, r) ← dString bs
  let (k, r2) ← dString r
  .ok (⟨a, k⟩, r2)

def BannerPattern.WF (t : BannerPattern) : Prop :=
  StringWF t.asset_id ∧ StringWF t.translation_key

theorem bannerPatternRT (t : BannerPattern) (h : t.WF) :
    ∃ bytes, (some (encodeBannerPattern t) : Option (List Nat)) = some bytes ∧
      ∀ r, dBannerPattern (bytes ++ r) = .ok (t, r) := by
  refine ⟨encodeBannerPattern t, rfl, ?_⟩
  intro r
  unfold dBannerPattern encodeBannerPattern
  simp only [List.append_assoc]
  rw [dString_enc t.asset_id _ h.1, exbind_ok]
  dsimp only
  rw [dString_enc t.translation_key _ h.2, exbind_ok]

/-- From components.rs BannerLayer. -/
structure BannerLayer : Type where
  pattern : IdOr BannerPattern
  color : DyeColor
deriving DecidableEq

def encodeBannerLayer (t : BannerLayer) : Option (List Nat) := do
  let p ← encodeIdOr (fun b => some (encodeBannerPattern b)) t.pattern
  some (p ++ encodeFin t.color)

def dBannerLayer : Dec BannerLayer := fun bs => do
  let (p, r) ← dIdOr dBannerPattern bs
  let (c, r2) ← dFin 16 r
  .ok (⟨p, c⟩, r2)

def BannerLayer.WF (t : BannerLayer) : Prop := IdOrWF BannerPattern.WF t.pattern

theorem bannerLayerRT (t : BannerLayer) (h : t.WF) :
    ∃ bytes, encodeBannerLayer t = some bytes ∧
      ∀ r, dBannerLayer (bytes ++ r) = .ok (t, r) := by
  obtain ⟨bp, hbp, hdp⟩ := idOrRT dBannerPattern (fun b => some (encodeBannerPattern b))
    BannerPattern.WF t.pattern h bannerPatternRT
  refine ⟨bp ++ encodeFin t.color, ?_, ?_⟩
  · simp [encodeBannerLayer, hbp]
  · intro r
    unfold dBannerLayer
    simp only [List.append_assoc]
    rw [hdp, exbind_ok]
    dsimp only
    rw [dFin_enc t.color _ (by norm_num), exbind_ok]

/-- From components.rs WritablePage. -/
structure WritablePage : Type where
  raw : List Nat
  filtered : Option (List Nat)
deriving DecidableEq

def encodeWritablePage (t : WritablePage) : Option (List Nat) := do
  let f ← encodeOption (fun s => some (encodeString s)) t.filtered
  some (encodeString t.raw ++ f)

def dWritablePage : Dec WritablePage := fun bs => do
  let (raw, r) ← dString bs
  let (f, r2) ← dOption dString r
  .ok (⟨raw, f⟩, r2)

def WritablePage.WF (t : WritablePage) : Prop :=
  StringWF t.raw ∧ ∀ s, t.filtered = some s → StringWF s

theorem writablePageRT (t : WritablePage) (h : t.WF) :
    ∃ bytes, encodeWritablePage t = some bytes ∧
      ∀ r, dWritablePage (bytes ++ r) = .ok (t, r) := by
  obtain ⟨bf, hbf, hdf⟩ := optRT dString (fun s => some (encodeString s)) StringWF
    t.filtered h.2 (fun s hs => ⟨encodeString s, rfl, fun r => dString_enc s r hs⟩)
  refine ⟨encodeString t.raw ++ bf, ?_, ?_⟩
  · simp [encodeWritablePage, hbf]
  · intro r
    unfold dWritablePage
    simp only [List.append_assoc]
    rw [dString_enc t.raw _ h.1, exbind_ok]
    dsimp only
    rw [hdf, exbind_ok]

/-- From components.rs WrittenPage. -/
structure WrittenPage : Type where
  raw : TextComponent
  filtered : Option TextComponent
deriving DecidableEq

def encodeWrittenPage (t : WrittenPage) : Option (List Nat) := do
  let raw ← encodeTextComponent t.raw
  let f ← encodeOption encodeTextComponent t.filtered
  some (raw ++ f)

def dWrittenPage : Dec WrittenPage := fun bs => do
  let (raw, r) ← dTextComponent bs
  let (f, r2) ← dOption dTextComponent r
  .ok (⟨raw, f⟩, r2)

def WrittenPage.WF (t : WrittenPage) : Prop :=
  t.raw.WF ∧ ∀ s, t.filtered = some s → s.WF

theorem writtenPageRT (t : WrittenPage) (h : t.WF) :
    ∃ bytes, encodeWrittenPage t = some bytes ∧
      ∀ r, dWrittenPage (bytes ++ r) = .ok (t, r) := by
  obtain ⟨braw, hbraw, hdraw⟩ := textComponentRT t.raw h.1
  obtain ⟨bf, hbf, hdf⟩ := optRT dTextComponent encodeTextComponent TextComponent.WF
    t.filtered h.2 textComponentRT
  refine ⟨braw ++ bf, ?_, ?_⟩
  · simp [encodeWrittenPage, hbraw, hbf]
  · intro r
    unfold dWrittenPage
    simp only [List.append_assoc]
    rw [hdraw, exbind_ok]
    dsimp only
    rw [hdf, exbind_ok]

/-- From components.rs ProfileProperty. -/
structure ProfileProperty : Type where
  name : List Nat
  value : List Nat
  signature : Option (List Nat)
deriving DecidableEq

def encodeProfileProperty (t : ProfileProperty) : Option (List Nat) := do
  let s ← encodeOption (fun s => some (encodeString s)) t.signature
  some (encodeString t.name ++ encodeString t.value ++ s)

def dProfileProperty : Dec ProfileProperty := fun bs => do
  let (n, r) ← dString bs
  let (v, r2) ← dString r
  let (s, r3) ← dOption dString r2
  .ok (⟨n, v, s⟩, r3)

def ProfileProperty.WF (t : ProfileProperty) : Prop :=
  StringWF t.name ∧ StringWF t.value ∧ ∀ s, t.signature = some s → StringWF s

theorem profilePropertyRT (t : ProfileProperty) (h : t.WF) :
    ∃ bytes, encodeProfileProperty t = some bytes ∧
      ∀ r, dProfileProperty (bytes ++ r) = .ok (t, r) := by
  obtain ⟨h1, h2, h3⟩ := h
  obtain ⟨bsg, hbsg, hdsg⟩ := optRT dString (fun s => some (encodeString s)) StringWF
    t.signature h3 (fun s hs => ⟨encodeString s, rfl, fun r => dString_enc s r hs⟩)
  refine ⟨encodeString t.name ++ encodeString t.value ++ bsg, ?_, ?_⟩
  · simp [encodeProfileProperty, hbsg]
  · intro r
    unfold dProfileProperty
    simp only [List.append_assoc]
    rw [dString_enc t.name _ h1, exbind_ok]
    dsimp only
    rw [dString_enc t.value _ h2, exbind_ok]
    dsimp only
    rw [hdsg, exbind_ok]

/-- From components.rs ResolvableProfile. -/
structure ResolvableProfile : Type where
  name : Option (List Nat)
  id : Option Uuid
  properties : List ProfileProperty
deriving DecidableEq

def encodeResolvableProfile (t : ResolvableProfile) : Option (List Nat) := do
  let n ← encodeOption (fun s => some (encodeString s)) t.name
  let i ← encodeOption (fun u => some (encodeUuid u)) t.id
  let ps ← encodeVec encodeProfileProperty t.properties
  some (n ++ i ++ ps)

def dResolvableProfile : Dec ResolvableProfile := fun bs => do
  let (n, r) ← dOption dString bs
  let (i, r2) ← dOption dUuid r
  let (ps, r3) ← dVec dProfileProperty r2
  .ok (⟨n, i, ps⟩, r3)

def ResolvableProfile.WF (t : ResolvableProfile) : Prop :=
  (∀ s, t.name = some s → StringWF s) ∧ (∀ u, t.id = some u → u.WF) ∧
    t.properties.length < 2147483648 ∧ ∀ p ∈ t.properties, p.WF

theorem resolvableProfileRT (t : ResolvableProfile) (h : t.WF) :
    ∃ bytes, encodeResolvableProfile t = some bytes ∧
      ∀ r, dResolvableProfile (bytes ++ r) = .ok (t, r) := by
  obtain ⟨h1, h2, h3, h4⟩ := h
  obtain ⟨bn, hbn, hdn⟩ := optRT dString (fun s => some (encodeString s)) StringWF
    t.name h1 (fun s hs => ⟨encodeString s, rfl, fun r => dString_enc s r hs⟩)
  obtain ⟨bi, hbi, hdi⟩ := optRT dUuid (fun u => some (encodeUuid u)) Uuid.WF
    t.id h2 (fun u hu => ⟨encodeUuid u, rfl, fun r => dUuid_enc u r hu⟩)
  obtain ⟨bps, hbps, hdps⟩ := vecRT dProfileProperty encodeProfileProperty ProfileProperty.WF
    t.properties h3 h4 profilePropertyRT
  refine ⟨bn ++ bi ++ bps, ?_, ?_⟩
  · simp [encodeResolvableProfile, hbn, hbi, hbps]
  · intro r
    unfold dResolvableProfile
    simp only [List.append_assoc]
    rw [hdn, exbind_ok]
    dsimp only
    rw [hdi, exbind_ok]
    dsimp only
    rw [hdps, exbind_ok]

/-- From components.rs BeeData. -/
structure BeeData : Type where
  entity_data : Compound
  ticks_in_hive : Int
  min_ticks_in_hive : Int
deriving DecidableEq

def encodeBeeData (t : BeeData) : List Nat :=
  encodeCompound t.entity_data ++ encodeVarInt t.ticks_in_hive ++
    encodeVarInt t.min_ticks_in_hive

def dBeeData : Dec BeeData := fun bs => do
  let (e, r) ← dCompound bs
  let (ti, r2) ← dVarInt r
  let (mt, r3) ← dVarInt r2
  .ok (⟨e, ti, mt⟩, r3)

def BeeData.WF (t : BeeData) : Prop :=
  t.entity_data.WF ∧ I32Range t.ticks_in_hive ∧ I32Range t.min_ticks_in_hive

theorem beeDataRT (t : BeeData) (h : t.WF) :
    ∃ bytes, (some (encodeBeeData t) : Option (List Nat)) = some bytes ∧
      ∀ r, dBeeData (bytes ++ r) = .ok (t, r) := by
  obtain ⟨h1, h2, h3⟩ := h
  refine ⟨encodeBeeData t, rfl, ?_⟩
  intro r
  unfold dBeeData encodeBeeData
  simp only [List.append_assoc]
  rw [dCompound_enc t.entity_data _ h1, exbind_ok]
  dsimp only
  rw [dVarInt_enc t.ticks_in_hive _ h2.1 h2.2, exbind_ok]
  dsimp only
  rw [dVarInt_enc t.min_ticks_in_hive _ h3.1 h3.2, exbind_ok]

/-- From components.rs PotionEffect. -/
structure PotionEffect : Type where
  id : Int
  amplifier : Int
  duration : Int
  ambient : Bool
  show_particles : Bool
  show_icon : Bool
deriving DecidableEq

def encodePotionEffect (t : PotionEffect) : List Nat :=
  encodeRegistryId t.id ++ encodeVarInt t.amplifier ++ encodeVarInt t.duration ++
    encodeBool t.ambient ++ encodeBool t.show_particles ++ encodeBool t.show_icon

def dPotionEffect : Dec PotionEffect := fun bs => do
  let (i, r) ← dRegistryId bs
  let (a, r2) ← dVarInt r
  let (d, r3) ← dVarInt r2
  let (am, r4) ← dBool r3
  let (sp, r5) ← dBool r4
  let (si, r6) ← dBool r5
  .ok (⟨i, a, d, am, sp, si⟩, r6)

def PotionEffect.WF (t : PotionEffect) : Prop :=
  I32Range t.id ∧ I32Range t.amplifier ∧ I32Range t.duration

theorem potionEffectRT (t : PotionEffect) (h : t.WF) :
    ∃ bytes, (some (encodePotionEffect t) : Option (List Nat)) = some bytes ∧
      ∀ r, dPotionEffect (bytes ++ r) = .ok (t, r) := by
  obtain ⟨h1, h2, h3⟩ := h
  refine ⟨encodePotionEffect t, rfl, ?_⟩
  intro r
  unfold dPotionEffect encodePotionEffect
  simp only [List.append_assoc]
  rw [dRegistryId_enc t.id _ h1, exbind_ok]
  dsimp only
  rw [dVarInt_enc t.amplifier _ h2.1 h2.2, exbind_ok]
  dsimp only
  rw [dVarInt_enc t.duration _ h3.1 h3.2, exbind_ok]
  dsimp only
  rw [dBool_enc t.ambient _, exbind_ok]
  dsimp only
  rw [dBool_enc t.show_particles _, exbind_ok]
  dsimp only
  rw [dBool_enc t.show_icon _, exbind_ok]

/-- From components.rs DamageReduction. -/
structure DamageReduction : Type where
  horizontal_blocking_angle : Nat
  damage_type : Option IDSet
  base : Nat
  factor : Nat
deriving DecidableEq

def encodeDamageReduction (t : DamageReduction) : Option (List Nat) := do
  let dt ← encodeOption (fun s => some (encodeIDSet s)) t.damage_type
  some (encodeF32 t.horizontal_blocking_angle ++ dt ++ encodeF32 t.base ++
    encodeF32 t.factor)

def dDamageReduction : Dec DamageReduction := fun bs => do
  let (hba, r) ← dF32 bs
  let (dt, r2) ← dOption dIDSet r
  let (b, r3) ← dF32 r2
  let (f, r4) ← dF32 r3
  .ok (⟨hba, dt, b, f⟩, r4)

def DamageReduction.WF (t : DamageReduction) : Prop :=
  t.horizontal_blocking_angle < 4294967296 ∧
    (∀ s, t.damage_type = some s → s.WF) ∧
    t.base < 4294967296 ∧ t.factor < 4294967296

theorem damageReductionRT (t : DamageReduction) (h : t.WF) :
    ∃ bytes, encodeDamageReduction t = some bytes ∧
      ∀ r, dDamageReduction (bytes ++ r) = .ok (t, r) := by
  obtain ⟨h1, h2, h3, h4⟩ := h
  obtain ⟨bdt, hbdt, hddt⟩ := optRT dIDSet (fun s => some (encodeIDSet s)) IDSet.WF
    t.damage_type h2 (fun s hs => ⟨encodeIDSet s, rfl, fun r => dIDSet_enc s r hs⟩)
  refine ⟨encodeF32 t.horizontal_blocking_angle ++ bdt ++ encodeF32 t.base ++
    encodeF32 t.factor, ?_, ?_⟩
  · simp [encodeDamageReduction, hbdt]
  · intro r
    unfold dDamageReduction
    simp only [List.append_assoc]
    rw [dF32_enc t.horizontal_blocking_angle _ h1, exbind_ok]
    dsimp only
    rw [hddt, exbind_ok]
    dsimp only
    rw [dF32_enc t.base _ h3, exbind_ok]
    dsimp only
    rw [dF32_enc t.factor _ h4, exbind_ok]

/-- From components.rs ConsumeEffectData: a five-variant enum dispatched on
a VarInt discriminant. -/
inductive ConsumeEffectData : Type where
  | applyEffects (effects : List PotionEffect) (probability : Nat)
  | removeEffects (s : IDSet)
  | clearAllEffects
  | teleportRandomly (diameter : Nat)
  | playSound (s : IdOr SoundEventDefinition)
deriving DecidableEq

def encodePotionEffectElem (p : PotionEffect) : Option (List Nat) :=
  some (encodePotionEffect p)

def encodeConsumeEffectData : ConsumeEffectData → Option (List Nat)
  | .applyEffects effects probability => do
      let es ← encodeVec encodePotionEffectElem effects
      some (encodeVarInt 0 ++ es ++ encodeF32 probability)
  | .removeEffects s => some (encodeVarInt 1 ++ encodeIDSet s)
  | .clearAllEffects => some (encodeVarInt 2)
  | .teleportRandomly diameter => some (encodeVarInt 3 ++ encodeF32 diameter)
  | .playSound s => do
      let b ← encodeIdOrSound s
      some (encodeVarInt 4 ++ b)

def dConsumeEffectData : Dec ConsumeEffectData := fun bs => do
  let (v, r) ← dVarInt bs
  if v = 0 then
    let (es, r2) ← dVec dPotionEffect r
    let (p, r3) ← dF32 r2
    .ok (.applyEffects es p, r3)
  else if v = 1 then
    let (s, r2) ← dIDSet r
    .ok (.removeEffects s, r2)
  else if v = 2 then
    .ok (.clearAllEffects, r)
  else if v = 3 then
    let (d, r2) ← dF32 r
    .ok (.teleportRandomly d, r2)
  else if v = 4 then
    let (s, r2) ← dIdOrSound r
    .ok (.playSound s, r2)
  else .error .malformed

def ConsumeEffectData.WF : ConsumeEffectData → Prop
  | .applyEffects effects probability =>
      effects.length < 2147483648 ∧ (∀ e ∈ effects, e.WF) ∧ probability < 4294967296
  | .removeEffects s => s.WF
  | .clearAllEffects => True
  | .teleportRandomly diameter => diameter < 4294967296
  | .playSound s => IdOrSoundWF s

theorem consumeEffectDataRT (t : ConsumeEffectData) (h : t.WF) :
    ∃ bytes, encodeConsumeEffectData t = some bytes ∧
      ∀ r, dConsumeEffectData (bytes ++ r) = .ok (t, r) := by
  cases t with
  | applyEffects effects probability =>
      obtain ⟨h1, h2, h3⟩ := h
      obtain ⟨bes, hbes, hdes⟩ := vecRT dPotionEffect encodePotionEffectElem PotionEffect.WF
        effects h1 h2 (fun p hp => potionEffectRT p hp)
      refine ⟨encodeVarInt 0 ++ bes ++ encodeF32 probability, ?_, ?_⟩
      · simp [encodeConsumeEffectData, hbes]
      · intro r
        unfold dConsumeEffectData
        simp only [List.append_assoc]
        rw [dVarInt_enc 0 _ (by omega) (by omega), exbind_ok]
        dsimp only
        rw [if_pos rfl, hdes, exbind_ok]
        dsimp only
        rw [dF32_enc probability _ h3, exbind_ok]
  | removeEffects s =>
      refine ⟨encodeVarInt 1 ++ encodeIDSet s, rfl, ?_⟩
      intro r
      unfold dConsumeEffectData
      simp only [List.append_assoc]
      rw [dVarInt_enc 1 _ (by omega) (by omega), exbind_ok]
      dsimp only
      rw [if_neg (by omega), if_pos rfl, dIDSet_enc s _ h, exbind_ok]
  | clearAllEffects =>
      refine ⟨encodeVarInt 2, rfl, ?_⟩
      intro r
      unfold dConsumeEffectData
      rw [dVarInt_enc 2 _ (by omega) (by omega), exbind_ok]
      dsimp only
      rw [if_neg (by omega), if_neg (by omega), if_pos rfl]
  | teleportRandomly diameter =>
      refine ⟨encodeVarInt 3 ++ encodeF32 diameter, rfl, ?_⟩
      intro r
      unfold dConsumeEffectData
      simp only [List.append_assoc]
      rw [dVarInt_enc 3 _ (by omega) (by omega), exbind_ok]
      dsimp only
      rw [if_neg (by omega), if_neg (by omega), if_neg (by omega), if_pos rfl,
        dF32_enc diameter _ h, exbind_ok]
  | playSound s =>
      obtain ⟨bb, hbb, hdb⟩ := idOrSoundRT s h
      refine ⟨encodeVarInt 4 ++ bb, ?_, ?_⟩
      · simp [encodeConsumeEffectData, hbb]
      · intro r
        unfold dConsumeEffectData
        simp only [List.append_assoc]
        rw [dVarInt_enc 4 _ (by omega) (by omega), exbind_ok]
        dsimp only
        rw [if_neg (by omega), if_neg (by omega), if_neg (by omega), if_neg (by omega),
          if_pos rfl, hdb, exbind_ok]

/-- From components.rs ConsumeEffect: a wrapper around the effect data. -/
structure ConsumeEffect : Type where
  data : ConsumeEffectData
deriving DecidableEq

def encodeConsumeEffect (t : ConsumeEffect) : Option (List Nat) :=
  encodeConsumeEffectData t.data

def dConsumeEffect : Dec ConsumeEffect := fun bs => do
  let (d, r) ← dConsumeEffectData bs
  .ok (⟨d⟩, r)

def ConsumeEffect.WF (t : ConsumeEffect) : Prop := t.data.WF

theorem consumeEffectRT (t : ConsumeEffect) (h : t.WF) :
    ∃ bytes, encodeConsumeEffect t = some bytes ∧
      ∀ r, dConsumeEffect (bytes ++ r) = .ok (t, r) := by
  obtain ⟨bd, hbd, hdd⟩ := consumeEffectDataRT t.data h
  refine ⟨bd, hbd, ?_⟩
  intro r
  unfold dConsumeEffect
  rw [hdd, exbind_ok]

/-- From components.rs: the four-state patch cell.  Added carries the value
together with its content hash (the source stores the pair (T, i32)). -/
inductive Patchable (α : Type) : Type where
  | Default (v : α)
  | Added (v : α) (hash : Int)
  | Removed
  | None
deriving DecidableEq

/-- From components.rs Patchable::as_option / to_option. -/
def Patchable.as_option {α : Type} : Patchable α → Option α
  | .Default v => some v
  | .Added v _ => some v
  | _ => Option.none

/-- The number of item component kinds (valence_item lib.rs). -/
def NUM_ITEM_COMPONENTS : Nat := 96

/-- The decode/encode recursion bound (valence_item lib.rs). -/
def MAX_RECURSION_DEPTH : Nat := 16

mutual

/-- From components.rs ItemComponent: the closed 96-variant payload union,
in declaration order (the declaration index is the wire id). -/
inductive ItemComponent : Type where
  | CustomData (v : Compound)
  | MaxStackSize (v : Int)
  | MaxDamage (v : Int)
  | Damage (v : Int)
  | Unbreakable
  | CustomName (v : TextComponent)
  | ItemName (v : TextComponent)
  | ItemModel (v : List Nat)
  | Lore (v : List TextComponent)
  | Rarity (v : Rarity)
  | Enchantments (v : List (DynamicRegistryPlaceholder × Int))
  | CanPlaceOn (v : List BlockPredicate)
  | CanBreak (v : List BlockPredicate)
  | AttributeModifiers (modifiers : List AttributeModifier)
  | CustomModelData (floats : List Nat) (flags : List Bool)
      (strings : List (List Nat)) (colors : List Int)
  | TooltipDisplay (hide_tooltip : Bool) (hidden_components : List Int)
  | RepairCost (v : Int)
  | CreativeSlotLock
  | EnchantmentGlintOverride (v : Bool)
  | IntangibleProjectile (v : Compound)
  | Food (nutrition : Int) (saturation_modifier : Nat) (can_always_eat : Bool)
  | Consumable (consume_seconds : Nat) (animation : ConsumableAnimation)
      (sound : IdOr SoundEventDefinition) (has_consume_particles : Bool)
      (effects : List ConsumeEffect)
  | UseRemainder (v : ItemStack)
  | UseCooldown (seconds : Nat) (cooldown_group : Option (List Nat))
  | DamageResistant (v : List Nat)
  | Tool (rules : List ToolRule) (default_mining_speed : Nat)
      (damage_per_block : Int) (can_destroy_blocks_in_creative : Bool)
  | Weapon (damage_per_attack : Int) (disable_blocking_for_seconds : Nat)
  | Enchantable (v : Int)
  | Equippable (slot : EquipSlot) (equip_sound : IdOr SoundEventDefinition)
      (model : Option (List Nat)) (camera_overlay : Option (List Nat))
      (allowed_entities : Option IDSet) (dispensable : Bool) (swappable : Bool)
      (damage_on_hurt : Bool)
  | Repairable (v : IDSet)
  | Glider
  | TooltipStyle (v : List Nat)
  | DeathProtection (v : List ConsumeEffect)
  | BlocksAttacks (block_delay_seconds : Nat) (disable_cooldown_scale : Nat)
      (damage_reductions : List DamageReduction) (item_damage_threshold : Nat)
      (item_damage_base : Nat) (item_damage_factor : Nat)
      (bypassed_by : Option (List Nat))
      (block_sound : Option (IdOr SoundEventDefinition))
      (disable_sound : Option (IdOr SoundEventDefinition))
  | StoredEnchantments (enchantments : List (DynamicRegistryPlaceholder × Int))
      (show_in_tooltip : Bool)
  | DyedColor (color : Int) (show_in_tooltip : Bool)
  | MapColor (v : Int)
  | MapId (v : Int)
  | MapDecorations (v : Compound)
  | MapPostProcessing (v : MapPostProcessingType)
  | ChargedProjectiles (v : List ItemStack)
  | BundleContents (v : List ItemStack)
  | PotionContents (potion_id : Option Int) (custom_color : Option Int)
      (custom_effects : List PotionEffect) (custom_name : Option (List Nat))
  | PotionDurationScale (v : Nat)
  | SuspiciousStewEffects (v : List (Int × Int))
  | WritableBookContent (pages : List WritablePage)
  | WrittenBookContent (raw_title : List Nat) (filtered_title : Option (List Nat))
      (author : List Nat) (generation : Int) (pages : List WrittenPage)
      (resolved : Bool)
  | Trim (material : IdOr TrimMaterial) (pattern : IdOr TrimPattern)
      (show_in_tooltip : Bool)
  | DebugStickState (v : Compound)
  | EntityData (id : Int) (data : Compound)
  | BucketEntityData (v : Compound)
  | BlockEntityData (id : Int) (data : Compound)
  | Instrument (v : IdOr InstrumentDefinition)
  | ProvidesTrimMaterial (v : ModePair (List Nat) (IdOr TrimMaterial))
  | OminousBottleAmplifier (v : Int)
  | JukeboxPlayable (song : ModePair (List Nat) (IdOr JukeboxSong))
      (show_in_tooltip : Bool)
  | ProvidesBannerPatterns (v : List Nat)
  | Recipes (v : Compound)
  | LodestoneTracker (target : Option LodestoneTarget) (tracked : Bool)
  | FireworkExplosion (v : FireworkExplosionData)
  | Fireworks (flight_duration : Int) (explosions : List FireworkExplosionData)
  | Profile (v : ResolvableProfile)
  | NoteBlockSound (v : List Nat)
  | BannerPatterns (v : List BannerLayer)
  | BaseColor (v : Int)
  | PotDecorations (v : List Int)
  | Container (v : List ItemStack)
  | BlockState (v : List (List Nat × List Nat))
  | Bees (v : List BeeData)
  | Lock (v : List Nat)
  | ContainerLoot (v : Compound)
  | BreakSound (v : IdOr SoundEventDefinition)
  | VillagerVariant (v : DynamicRegistryPlaceholder)
  | WolfVariant (v : DynamicRegistryPlaceholder)
  | WolfSoundVariant (v : DynamicRegistryPlaceholder)
  | WolfCollar (v : DyeColor)
  | FoxVariant (v : FoxType)
  | SalmonSize (v : SalmonScale)
  | ParrotVariant (v : ParrotType)
  | TropicalFishPatternComp (v : TropicalFishPattern)
  | TropicalFishBaseColor (v : DyeColor)
  | TropicalFishPatternColor (v : DyeColor)
  | MooshroomVariant (v : MooshroomType)
  | RabbitVariant (v : RabbitType)
  | PigVariant (v : DynamicRegistryPlaceholder)
  | CowVariant (v : DynamicRegistryPlaceholder)
  | ChickenVariant (v : ModePair (List Nat) Int)
  | FrogVariant (v : DynamicRegistryPlaceholder)
  | HorseVariant (v : HorseColor)
  | PaintingVariant (v : IdOr PaintingVariantDefinition)
  | LlamaVariant (v : LlamaColor)
  | AxolotlVariant (v : AxolotlType)
  | CatVariant (v : DynamicRegistryPlaceholder)
  | CatCollar (v : DyeColor)
  | SheepColor (v : DyeColor)
  | ShulkerColor (v : DyeColor)

/-- From components.rs BlockPredicate. -/
inductive BlockPredicate : Type where
  | mk (blocks : Option IDSet) (properties : Option (List Property))
      (nbt : Option Compound) (exact_components : List ExactComponentMatcher)
      (partial_components : List PartialComponentMatcher)

/-- From components.rs ExactComponentMatcher: a component id with the full
payload it must match. -/
inductive ExactComponentMatcher : Type where
  | mk (component_type : Int) (component_data : ItemComponent)

/-- From stack.rs ItemStack: base kind, signed 8-bit count, and the 96-cell
patch array (represented as a list of length 96). -/
inductive ItemStack : Type where
  | mk (item : ItemKind) (count : Int) (components : List (Patchable ItemComponent))

end

mutual

def ItemComponent.beqArmCustomData (x1 : Compound) : ItemComponent → Bool
  | .CustomData y1 => decide (x1 = y1)
  | _ => false

def ItemComponent.beqArmMaxStackSize (x1 : Int) : ItemComponent → Bool
  | .MaxStackSize y1 => decide (x1 = y1)
  | _ => false

def ItemComponent.beqArmMaxDamage (x1 : Int) : ItemComponent → Bool
  | .MaxDamage y1 => decide (x1 = y1)
  | _ => false

def ItemComponent.beqArmDamage (x1 : Int) : ItemComponent → Bool
  | .Damage y1 => decide (x1 = y1)
  | _ => false

def ItemComponent.beqArmUnbreakable : ItemComponent → Bool
  | .Unbreakable => true
  | _ => false

def ItemComponent.beqArmCustomName (x1 : TextComponent) : ItemComponent → Bool
  | .CustomName y1 => decide (x1 = y1)
  | _ => false

def ItemComponent.beqArmItemName (x1 : TextComponent) : ItemComponent → Bool
  | .ItemName y1 => decide (x1 = y1)
  | _ => false

def ItemComponent.beqArmItemModel (x1 : List Nat) : ItemComponent → Bool
  | .ItemModel y1 => decide (x1 = y1)
  | _ => false

def ItemComponent.beqArmLore (x1 : List TextComponent) : ItemComponent → Bool
  | .Lore y1 => decide (x1 = y1)
  | _ => false

def ItemComponent.beqArmRarity (x1 : Rarity) : ItemComponent → Bool
  | .Rarity y1 => decide (x1 = y1)
  | _ => false

def ItemComponent.beqArmEnchantments (x1 : List (DynamicRegistryPlaceholder × Int)) : ItemComponent → Bool
  | .Enchantments y1 => decide (x1 = y1)
  | _ => false

def ItemComponent.beqArmCanPlaceOn (x1 : List BlockPredicate) : ItemComponent → Bool
  | .CanPlaceOn y1 => BlockPredicate.beqList x1 y1
  | _ => false

def ItemComponent.beqArmCanBreak (x1 : List BlockPredicate) : ItemComponent → Bool
  | .CanBreak y1 => BlockPredicate.beqList x1 y1
  | _ => false

def ItemComponent.beqArmAttributeModifiers (x1 : List AttributeModifier) : ItemComponent → Bool
  | .AttributeModifiers y1 => decide (x1 = y1)
  | _ => false

def ItemComponent.beqArmCustomModelData (x1 : List Nat) (x2 : List Bool) (x3 : List (List Nat)) (x4 : List Int) : ItemComponent → Bool
  | .CustomModelData y1 y2 y3 y4 => decide (x1 = y1) && decide (x2 = y2) && decide (x3 = y3) && decide (x4 = y4)
  | _ => false

def ItemComponent.beqArmTooltipDisplay (x1 : Bool) (x2 : List Int) : ItemComponent → Bool
  | .TooltipDisplay y1 y2 => decide (x1 = y1) && decide (x2 = y2)
  | _ => false

def ItemComponent.beqArmRepairCost (x1 : Int) : ItemComponent → Bool
  | .RepairCost y1 => decide (x1 = y1)
  | _ => false

def ItemComponent.beqArmCreativeSlotLock : ItemComponent → Bool
  | .CreativeSlotLock => true
  | _ => false

def ItemComponent.beqArmEnchantmentGlintOverride (x1 : Bool) : ItemComponent → Bool
  | .EnchantmentGlintOverride y1 => decide (x1 = y1)
  | _ => false

def ItemComponent.beqArmIntangibleProjectile (x1 : Compound) : ItemComponent → Bool
  | .IntangibleProjectile y1 => decide (x1 = y1)
  | _ => false

def ItemComponent.beqArmFood (x1 : Int) (x2 : Nat) (x3 : Bool) : ItemComponent → Bool
  | .Food y1 y2 y3 => decide (x1 = y1) && decide (x2 = y2) && decide (x3 = y3)
  | _ => false

def ItemComponent.beqArmConsumable (x1 : Nat) (x2 : ConsumableAnimation) (x3 : IdOr SoundEventDefinition) (x4 : Bool) (x5 : List ConsumeEffect) : ItemComponent → Bool
  | .Consumable y1 y2 y3 y4 y5 => decide (x1 = y1) && decide (x2 = y2) && decide (x3 = y3) && decide (x4 = y4) && decide (x5 = y5)
  | _ => false

def ItemComponent.beqArmUseRemainder (x1 : ItemStack) : ItemComponent → Bool
  | .UseRemainder y1 => ItemStack.beq x1 y1
  | _ => false

def ItemComponent.beqArmUseCooldown (x1 : Nat) (x2 : Option (List Nat)) : ItemComponent → Bool
  | .UseCooldown y1 y2 => decide (x1 = y1) && decide (x2 = y2)
  | _ => false

def ItemComponent.beqArmDamageResistant (x1 : List Nat) : ItemComponent → Bool
  | .DamageResistant y1 => decide (x1 = y1)
  | _ => false

def ItemComponent.beqArmTool (x1 : List ToolRule) (x2 : Nat) (x3 : Int) (x4 : Bool) : ItemComponent → Bool
  | .Tool y1 y2 y3 y4 => decide (x1 = y1) && decide (x2 = y2) && decide (x3 = y3) && decide (x4 = y4)
  | _ => false

def ItemComponent.beqArmWeapon (x1 : Int) (x2 : Nat) : ItemComponent → Bool
  | .Weapon y1 y2 => decide (x1 = y1) && decide (x2 = y2)
  | _ => false

def ItemComponent.beqArmEnchantable (x1 : Int) : ItemComponent → Bool
  | .Enchantable y1 => decide (x1 = y1)
  | _ => false

def ItemComponent.beqArmEquippable (x1 : EquipSlot) (x2 : IdOr SoundEventDefinition) (x3 : Option (List Nat)) (x4 : Option (List Nat)) (x5 : Option IDSet) (x6 : Bool) (x7 : Bool) (x8 : Bool) : ItemComponent → Bool
  | .Equippable y1 y2 y3 y4 y5 y6 y7 y8 => decide (x1 = y1) && decide (x2 = y2) && decide (x3 = y3) && decide (x4 = y4) && decide (x5 = y5) && decide (x6 = y6) && decide (x7 = y7) && decide (x8 = y8)
  | _ => false

def ItemComponent.beqArmRepairable (x1 : IDSet) : ItemComponent → Bool
  | .Repairable y1 => decide (x1 = y1)
  | _ => false

def ItemComponent.beqArmGlider : ItemComponent → Bool
  | .Glider => true
  | _ => false

def ItemComponent.beqArmTooltipStyle (x1 : List Nat) : ItemComponent → Bool
  | .TooltipStyle y1 => decide (x1 = y1)
  | _ => false

def ItemComponent.beqArmDeathProtection (x1 : List ConsumeEffect) : ItemComponent → Bool
  | .DeathProtection y1 => decide (x1 = y1)
  | _ => false

def ItemComponent.beqArmBlocksAttacks (x1 : Nat) (x2 : Nat) (x3 : List DamageReduction) (x4 : Nat) (x5 : Nat) (x6 : Nat) (x7 : Option (List Nat)) (x8 : Option (IdOr SoundEventDefinition)) (x9 : Option (IdOr SoundEventDefinition)) : ItemComponent → Bool
  | .BlocksAttacks y1 y2 y3 y4 y5 y6 y7 y8 y9 => decide (x1 = y1) && decide (x2 = y2) && decide (x3 = y3) && decide (x4 = y4) && decide (x5 = y5) && decide (x6 = y6) && decide (x7 = y7) && decide (x8 = y8) && decide (x9 = y9)
  | _ => false

def ItemComponent.beqArmStoredEnchantments (x1 : List (DynamicRegistryPlaceholder × Int)) (x2 : Bool) : ItemComponent → Bool
  | .StoredEnchantments y1 y2 => decide (x1 = y1) && decide (x2 = y2)
  | _ => false

def ItemComponent.beqArmDyedColor (x1 : Int) (x2 : Bool) : ItemComponent → Bool
  | .DyedColor y1 y2 => decide (x1 = y1) && decide (x2 = y2)
  | _ => false

def ItemComponent.beqArmMapColor (x1 : Int) : ItemComponent → Bool
  | .MapColor y1 => decide (x1 = y1)
  | _ => false

def ItemComponent.beqArmMapId (x1 : Int) : ItemComponent → Bool
  | .MapId y1 => decide (x1 = y1)
  | _ => false

def ItemComponent.beqArmMapDecorations (x1 : Compound) : ItemComponent → Bool
  | .MapDecorations y1 => decide (x1 = y1)
  | _ => false

def ItemComponent.beqArmMapPostProcessing (x1 : MapPostProcessingType) : ItemComponent → Bool
  | .MapPostProcessing y1 => decide (x1 = y1)
  | _ => false

def ItemComponent.beqArmChargedProjectiles (x1 : List ItemStack) : ItemComponent → Bool
  | .ChargedProjectiles y1 => ItemStack.beqList x1 y1
  | _ => false

def ItemComponent.beqArmBundleContents (x1 : List ItemStack) : ItemComponent → Bool
  | .BundleContents y1 => ItemStack.beqList x1 y1
  | _ => false

def ItemComponent.beqArmPotionContents (x1 : Option Int) (x2 : Option Int) (x3 : List PotionEffect) (x4 : Option (List Nat)) : ItemComponent → Bool
  | .PotionContents y1 y2 y3 y4 => decide (x1 = y1) && decide (x2 = y2) && decide (x3 = y3) && decide (x4 = y4)
  | _ => false

def ItemComponent.beqArmPotionDurationScale (x1 : Nat) : ItemComponent → Bool
  | .PotionDurationScale y1 => decide (x1 = y1)
  | _ => false

def ItemComponent.beqArmSuspiciousStewEffects (x1 : List (Int × Int)) : ItemComponent → Bool
  | .SuspiciousStewEffects y1 => decide (x1 = y1)
  | _ => false

def ItemComponent.beqArmWritableBookContent (x1 : List WritablePage) : ItemComponent → Bool
  | .WritableBookContent y1 => decide (x1 = y1)
  | _ => false

def ItemComponent.beqArmWrittenBookContent (x1 : List Nat) (x2 : Option (List Nat)) (x3 : List Nat) (x4 : Int) (x5 : List WrittenPage) (x6 : Bool) : ItemComponent → Bool
  | .WrittenBookContent y1 y2 y3 y4 y5 y6 => decide (x1 = y1) && decide (x2 = y2) && decide (x3 = y3) && decide (x4 = y4) && decide (x5 = y5) && decide (x6 = y6)
  | _ => false

def ItemComponent.beqArmTrim (x1 : IdOr TrimMaterial) (x2 : IdOr TrimPattern) (x3 : Bool) : ItemComponent → Bool
  | .Trim y1 y2 y3 => decide (x1 = y1) && decide (x2 = y2) && decide (x3 = y3)
  | _ => false

def ItemComponent.beqArmDebugStickState (x1 : Compound) : ItemComponent → Bool
  | .DebugStickState y1 => decide (x1 = y1)
  | _ => false

def ItemComponent.beqArmEntityData (x1 : Int) (x2 : Compound) : ItemComponent → Bool
  | .EntityData y1 y2 => decide (x1 = y1) && decide (x2 = y2)
  | _ => false

def ItemComponent.beqArmBucketEntityData (x1 : Compound) : ItemComponent → Bool
  | .BucketEntityData y1 => decide (x1 = y1)
  | _ => false

def ItemComponent.beqArmBlockEntityData (x1 : Int) (x2 : Compound) : ItemComponent → Bool
  | .BlockEntityData y1 y2 => decide (x1 = y1) && decide (x2 = y2)
  | _ => false

def ItemComponent.beqArmInstrument (x1 : IdOr InstrumentDefinition) : ItemComponent → Bool
  | .Instrument y1 => decide (x1 = y1)
  | _ => false

def ItemComponent.beqArmProvidesTrimMaterial (x1 : ModePair (List Nat) (IdOr TrimMaterial)) : ItemComponent → Bool
  | .ProvidesTrimMaterial y1 => decide (x1 = y1)
  | _ => false

def ItemComponent.beqArmOminousBottleAmplifier (x1 : Int) : ItemComponent → Bool
  | .OminousBottleAmplifier y1 => decide (x1 = y1)
  | _ => false

def ItemComponent.beqArmJukeboxPlayable (x1 : ModePair (List Nat) (IdOr JukeboxSong)) (x2 : Bool) : ItemComponent → Bool
  | .JukeboxPlayable y1 y2 => decide (x1 = y1) && decide (x2 = y2)
  | _ => false

def ItemComponent.beqArmProvidesBannerPatterns (x1 : List Nat) : ItemComponent → Bool
  | .ProvidesBannerPatterns y1 => decide (x1 = y1)
  | _ => false

def ItemComponent.beqArmRecipes (x1 : Compound) : ItemComponent → Bool
  | .Recipes y1 => decide (x1 = y1)
  | _ => false

def ItemComponent.beqArmLodestoneTracker (x1 : Option LodestoneTarget) (x2 : Bool) : ItemComponent → Bool
  | .LodestoneTracker y1 y2 => decide (x1 = y1) && decide (x2 = y2)
  | _ => false

def ItemComponent.beqArmFireworkExplosion (x1 : FireworkExplosionData) : ItemComponent → Bool
  | .FireworkExplosion y1 => decide (x1 = y1)
  | _ => false

def ItemComponent.beqArmFireworks (x1 : Int) (x2 : List FireworkExplosionData) : ItemComponent → Bool
  | .Fireworks y1 y2 => decide (x1 = y1) && decide (x2 = y2)
  | _ => false

def ItemComponent.beqArmProfile (x1 : ResolvableProfile) : ItemComponent → Bool
  | .Profile y1 => decide (x1 = y1)
  | _ => false

def ItemComponent.beqArmNoteBlockSound (x1 : List Nat) : ItemComponent → Bool
  | .NoteBlockSound y1 => decide (x1 = y1)
  | _ => false

def ItemComponent.beqArmBannerPatterns (x1 : List BannerLayer) : ItemComponent → Bool
  | .BannerPatterns y1 => decide (x1 = y1)
  | _ => false

def ItemComponent.beqArmBaseColor (x1 : Int) : ItemComponent → Bool
  | .BaseColor y1 => decide (x1 = y1)
  | _ => false

def ItemComponent.beqArmPotDecorations (x1 : List Int) : ItemComponent → Bool
  | .PotDecorations y1 => decide (x1 = y1)
  | _ => false

def ItemComponent.beqArmContainer (x1 : List ItemStack) : ItemComponent → Bool
  | .Container y1 => ItemStack.beqList x1 y1
  | _ => false

def ItemComponent.beqArmBlockState (x1 : List (List Nat × List Nat)) : ItemComponent → Bool
  | .BlockState y1 => decide (x1 = y1)
  | _ => false

def ItemComponent.beqArmBees (x1 : List BeeData) : ItemComponent → Bool
  | .Bees y1 => decide (x1 = y1)
  | _ => false

def ItemComponent.beqArmLock (x1 : List Nat) : ItemComponent → Bool
  | .Lock y1 => decide (x1 = y1)
  | _ => false

def ItemComponent.beqArmContainerLoot (x1 : Compound) : ItemComponent → Bool
  | .ContainerLoot y1 => decide (x1 = y1)
  | _ => false

def ItemComponent.beqArmBreakSound (x1 : IdOr SoundEventDefinition) : ItemComponent → Bool
  | .BreakSound y1 => decide (x1 = y1)
  | _ => false

def ItemComponent.beqArmVillagerVariant (x1 : DynamicRegistryPlaceholder) : ItemComponent → Bool
  | .VillagerVariant y1 => decide (x1 = y1)
  | _ => false

def ItemComponent.beqArmWolfVariant (x1 : DynamicRegistryPlaceholder) : ItemComponent → Bool
  | .WolfVariant y1 => decide (x1 = y1)
  | _ => false

def ItemComponent.beqArmWolfSoundVariant (x1 : DynamicRegistryPlaceholder) : ItemComponent → Bool
  | .WolfSoundVariant y1 => decide (x1 = y1)
  | _ => false

def ItemComponent.beqArmWolfCollar (x1 : DyeColor) : ItemComponent → Bool
  | .WolfCollar y1 => decide (x1 = y1)
  | _ => false

def ItemComponent.beqArmFoxVariant (x1 : FoxType) : ItemComponent → Bool
  | .FoxVariant y1 => decide (x1 = y1)
  | _ => false

def ItemComponent.beqArmSalmonSize (x1 : SalmonScale) : ItemComponent → Bool
  | .SalmonSize y1 => decide (x1 = y1)
  | _ => false

def ItemComponent.beqArmParrotVariant (x1 : ParrotType) : ItemComponent → Bool
  | .ParrotVariant y1 => decide (x1 = y1)
  | _ => false

def ItemComponent.beqArmTropicalFishPatternComp (x1 : TropicalFishPattern) : ItemComponent → Bool
  | .TropicalFishPatternComp y1 => decide (x1 = y1)
  | _ => false

def ItemComponent.beqArmTropicalFishBaseColor (x1 : DyeColor) : ItemComponent → Bool
  | .TropicalFishBaseColor y1 => decide (x1 = y1)
  | _ => false

def ItemComponent.beqArmTropicalFishPatternColor (x1 : DyeColor) : ItemComponent → Bool
  | .TropicalFishPatternColor y1 => decide (x1 = y1)
  | _ => false

def ItemComponent.beqArmMooshroomVariant (x1 : MooshroomType) : ItemComponent → Bool
  | .MooshroomVariant y1 => decide (x1 = y1)
  | _ => false

def ItemComponent.beqArmRabbitVariant (x1 : RabbitType) : ItemComponent → Bool
  | .RabbitVariant y1 => decide (x1 = y1)
  | _ => false

def ItemComponent.beqArmPigVariant (x1 : DynamicRegistryPlaceholder) : ItemComponent → Bool
  | .PigVariant y1 => decide (x1 = y1)
  | _ => false

def ItemComponent.beqArmCowVariant (x1 : DynamicRegistryPlaceholder) : ItemComponent → Bool
  | .CowVariant y1 => decide (x1 = y1)
  | _ => false

def ItemComponent.beqArmChickenVariant (x1 : ModePair (List Nat) Int) : ItemComponent → Bool
  | .ChickenVariant y1 => decide (x1 = y1)
  | _ => false

def ItemComponent.beqArmFrogVariant (x1 : DynamicRegistryPlaceholder) : ItemComponent → Bool
  | .FrogVariant y1 => decide (x1 = y1)
  | _ => false

def ItemComponent.beqArmHorseVariant (x1 : HorseColor) : ItemComponent → Bool
  | .HorseVariant y1 => decide (x1 = y1)
  | _ => false

def ItemComponent.beqArmPaintingVariant (x1 : IdOr PaintingVariantDefinition) : ItemComponent → Bool
  | .PaintingVariant y1 => decide (x1 = y1)
  | _ => false

def ItemComponent.beqArmLlamaVariant (x1 : LlamaColor) : ItemComponent → Bool
  | .LlamaVariant y1 => decide (x1 = y1)
  | _ => false

def ItemComponent.beqArmAxolotlVariant (x1 : AxolotlType) : ItemComponent → Bool
  | .AxolotlVariant y1 => decide (x1 = y1)
  | _ => false

def ItemComponent.beqArmCatVariant (x1 : DynamicRegistryPlaceholder) : ItemComponent → Bool
  | .CatVariant y1 => decide (x1 = y1)
  | _ => false

def ItemComponent.beqArmCatCollar (x1 : DyeColor) : ItemComponent → Bool
  | .CatCollar y1 => decide (x1 = y1)
  | _ => false

def ItemComponent.beqArmSheepColor (x1 : DyeColor) : ItemComponent → Bool
  | .SheepColor y1 => decide (x1 = y1)
  | _ => false

def ItemComponent.beqArmShulkerColor (x1 : DyeColor) : ItemComponent → Bool
  | .ShulkerColor y1 => decide (x1 = y1)
  | _ => false


/-- Structural equality on components: the translation of the derived
PartialEq.  Leaf payloads compare by decidable equality, recursive payloads
elementwise via the sibling functions. -/
def ItemComponent.beq : ItemComponent → ItemComponent → Bool
  | .CustomData x1, b => ItemComponent.beqArmCustomData x1 b
  | .MaxStackSize x1, b => ItemComponent.beqArmMaxStackSize x1 b
  | .MaxDamage x1, b => ItemComponent.beqArmMaxDamage x1 b
  | .Damage x1, b => ItemComponent.beqArmDamage x1 b
  | .Unbreakable, b => ItemComponent.beqArmUnbreakable b
  | .CustomName x1, b => ItemComponent.beqArmCustomName x1 b
  | .ItemName x1, b => ItemComponent.beqArmItemName x1 b
  | .ItemModel x1, b => ItemComponent.beqArmItemModel x1 b
  | .Lore x1, b => ItemComponent.beqArmLore x1 b
  | .Rarity x1, b => ItemComponent.beqArmRarity x1 b
  | .Enchantments x1, b => ItemComponent.beqArmEnchantments x1 b
  | .CanPlaceOn x1, b => ItemComponent.beqArmCanPlaceOn x1 b
  | .CanBreak x1, b => ItemComponent.beqArmCanBreak x1 b
  | .AttributeModifiers x1, b => ItemComponent.beqArmAttributeModifiers x1 b
  | .CustomModelData x1 x2 x3 x4, b => ItemComponent.beqArmCustomModelData x1 x2 x3 x4 b
  | .TooltipDisplay x1 x2, b => ItemComponent.beqArmTooltipDisplay x1 x2 b
  | .RepairCost x1, b => ItemComponent.beqArmRepairCost x1 b
  | .CreativeSlotLock, b => ItemComponent.beqArmCreativeSlotLock b
  | .EnchantmentGlintOverride x1, b => ItemComponent.beqArmEnchantmentGlintOverride x1 b
  | .IntangibleProjectile x1, b => ItemComponent.beqArmIntangibleProjectile x1 b
  | .Food x1 x2 x3, b => ItemComponent.beqArmFood x1 x2 x3 b
  | .Consumable x1 x2 x3 x4 x5, b => ItemComponent.beqArmConsumable x1 x2 x3 x4 x5 b
  | .UseRemainder x1, b => ItemComponent.beqArmUseRemainder x1 b
  | .UseCooldown x1 x2, b => ItemComponent.beqArmUseCooldown x1 x2 b
  | .DamageResistant x1, b => ItemComponent.beqArmDamageResistant x1 b
  | .Tool x1 x2 x3 x4, b => ItemComponent.beqArmTool x1 x2 x3 x4 b
  | .Weapon x1 x2, b => ItemComponent.beqArmWeapon x1 x2 b
  | .Enchantable x1, b => ItemComponent.beqArmEnchantable x1 b
  | .Equippable x1 x2 x3 x4 x5 x6 x7 x8, b => ItemComponent.beqArmEquippable x1 x2 x3 x4 x5 x6 x7 x8 b
  | .Repairable x1, b => ItemComponent.beqArmRepairable x1 b
  | .Glider, b => ItemComponent.beqArmGlider b
  | .TooltipStyle x1, b => ItemComponent.beqArmTooltipStyle x1 b
  | .DeathProtection x1, b => ItemComponent.beqArmDeathProtection x1 b
  | .BlocksAttacks x1 x2 x3 x4 x5 x6 x7 x8 x9, b => ItemComponent.beqArmBlocksAttacks x1 x2 x3 x4 x5 x6 x7 x8 x9 b
  | .StoredEnchantments x1 x2, b => ItemComponent.beqArmStoredEnchantments x1 x2 b
  | .DyedColor x1 x2, b => ItemComponent.beqArmDyedColor x1 x2 b
  | .MapColor x1, b => ItemComponent.beqArmMapColor x1 b
  | .MapId x1, b => ItemComponent.beqArmMapId x1 b
  | .MapDecorations x1, b => ItemComponent.beqArmMapDecorations x1 b
  | .MapPostProcessing x1, b => ItemComponent.beqArmMapPostProcessing x1 b
  | .ChargedProjectiles x1, b => ItemComponent.beqArmChargedProjectiles x1 b
  | .BundleContents x1, b => ItemComponent.beqArmBundleContents x1 b
  | .PotionContents x1 x2 x3 x4, b => ItemComponent.beqArmPotionContents x1 x2 x3 x4 b
  | .PotionDurationScale x1, b => ItemComponent.beqArmPotionDurationScale x1 b
  | .SuspiciousStewEffects x1, b => ItemComponent.beqArmSuspiciousStewEffects x1 b
  | .WritableBookContent x1, b => ItemComponent.beqArmWritableBookContent x1 b
  | .WrittenBookContent x1 x2 x3 x4 x5 x6, b => ItemComponent.beqArmWrittenBookContent x1 x2 x3 x4 x5 x6 b
  | .Trim x1 x2 x3, b => ItemComponent.beqArmTrim x1 x2 x3 b
  | .DebugStickState x1, b => ItemComponent.beqArmDebugStickState x1 b
  | .EntityData x1 x2, b => ItemComponent.beqArmEntityData x1 x2 b
  | .BucketEntityData x1, b => ItemComponent.beqArmBucketEntityData x1 b
  | .BlockEntityData x1 x2, b => ItemComponent.beqArmBlockEntityData x1 x2 b
  | .Instrument x1, b => ItemComponent.beqArmInstrument x1 b
  | .ProvidesTrimMaterial x1, b => ItemComponent.beqArmProvidesTrimMaterial x1 b
  | .OminousBottleAmplifier x1, b => ItemComponent.beqArmOminousBottleAmplifier x1 b
  | .JukeboxPlayable x1 x2, b => ItemComponent.beqArmJukeboxPlayable x1 x2 b
  | .ProvidesBannerPatterns x1, b => ItemComponent.beqArmProvidesBannerPatterns x1 b
  | .Recipes x1, b => ItemComponent.beqArmRecipes x1 b
  | .LodestoneTracker x1 x2, b => ItemComponent.beqArmLodestoneTracker x1 x2 b
  | .FireworkExplosion x1, b => ItemComponent.beqArmFireworkExplosion x1 b
  | .Fireworks x1 x2, b => ItemComponent.beqArmFireworks x1 x2 b
  | .Profile x1, b => ItemComponent.beqArmProfile x1 b
  | .NoteBlockSound x1, b => ItemComponent.beqArmNoteBlockSound x1 b
  | .BannerPatterns x1, b => ItemComponent.beqArmBannerPatterns x1 b
  | .BaseColor x1, b => ItemComponent.beqArmBaseColor x1 b
  | .PotDecorations x1, b => ItemComponent.beqArmPotDecorations x1 b
  | .Container x1, b => ItemComponent.beqArmContainer x1 b
  | .BlockState x1, b => ItemComponent.beqArmBlockState x1 b
  | .Bees x1, b => ItemComponent.beqArmBees x1 b
  | .Lock x1, b => ItemComponent.beqArmLock x1 b
  | .ContainerLoot x1, b => ItemComponent.beqArmContainerLoot x1 b
  | .BreakSound x1, b => ItemComponent.beqArmBreakSound x1 b
  | .VillagerVariant x1, b => ItemComponent.beqArmVillagerVariant x1 b
  | .WolfVariant x1, b => ItemComponent.beqArmWolfVariant x1 b
  | .WolfSoundVariant x1, b => ItemComponent.beqArmWolfSoundVariant x1 b
  | .WolfCollar x1, b => ItemComponent.beqArmWolfCollar x1 b
  | .FoxVariant x1, b => ItemComponent.beqArmFoxVariant x1 b
  | .SalmonSize x1, b => ItemComponent.beqArmSalmonSize x1 b
  | .ParrotVariant x1, b => ItemComponent.beqArmParrotVariant x1 b
  | .TropicalFishPatternComp x1, b => ItemComponent.beqArmTropicalFishPatternComp x1 b
  | .TropicalFishBaseColor x1, b => ItemComponent.beqArmTropicalFishBaseColor x1 b
  | .TropicalFishPatternColor x1, b => ItemComponent.beqArmTropicalFishPatternColor x1 b
  | .MooshroomVariant x1, b => ItemComponent.beqArmMooshroomVariant x1 b
  | .RabbitVariant x1, b => ItemComponent.beqArmRabbitVariant x1 b
  | .PigVariant x1, b => ItemComponent.beqArmPigVariant x1 b
  | .CowVariant x1, b => ItemComponent.beqArmCowVariant x1 b
  | .ChickenVariant x1, b => ItemComponent.beqArmChickenVariant x1 b
  | .FrogVariant x1, b => ItemComponent.beqArmFrogVariant x1 b
  | .HorseVariant x1, b => ItemComponent.beqArmHorseVariant x1 b
  | .PaintingVariant x1, b => ItemComponent.beqArmPaintingVariant x1 b
  | .LlamaVariant x1, b => ItemComponent.beqArmLlamaVariant x1 b
  | .AxolotlVariant x1, b => ItemComponent.beqArmAxolotlVariant x1 b
  | .CatVariant x1, b => ItemComponent.beqArmCatVariant x1 b
  | .CatCollar x1, b => ItemComponent.beqArmCatCollar x1 b
  | .SheepColor x1, b => ItemComponent.beqArmSheepColor x1 b
  | .ShulkerColor x1, b => ItemComponent.beqArmShulkerColor x1 b

def ItemStack.beq : ItemStack → ItemStack → Bool
  | .mk i1 c1 comps1, .mk i2 c2 comps2 =>
      decide (i1 = i2) && decide (c1 = c2) && Patchable.beqList comps1 comps2

def ItemStack.beqList : List ItemStack → List ItemStack → Bool
  | [], [] => true
  | _ :: _, [] => false
  | [], _ :: _ => false
  | x :: xs, y :: ys => ItemStack.beq x y && ItemStack.beqList xs ys

def Patchable.beqComp : Patchable ItemComponent → Patchable ItemComponent → Bool
  | .Default a, .Default b => ItemComponent.beq a b
  | .Added a ha, .Added b hb => ItemComponent.beq a b && decide (ha = hb)
  | .Removed, .Removed => true
  | .None, .None => true
  | _, _ => false

def Patchable.beqList :
    List (Patchable ItemComponent) → List (Patchable ItemComponent) → Bool
  | [], [] => true
  | _ :: _, [] => false
  | [], _ :: _ => false
  | x :: xs, y :: ys => Patchable.beqComp x y && Patchable.beqList xs ys

def BlockPredicate.beq : BlockPredicate → BlockPredicate → Bool
  | .mk a1 a2 a3 a4 a5, .mk b1 b2 b3 b4 b5 =>
      decide (a1 = b1) && decide (a2 = b2) && decide (a3 = b3) &&
        ExactComponentMatcher.beqList a4 b4 && decide (a5 = b5)

def BlockPredicate.beqList : List BlockPredicate → List BlockPredicate → Bool
  | [], [] => true
  | _ :: _, [] => false
  | [], _ :: _ => false
  | x :: xs, y :: ys => BlockPredicate.beq x y && BlockPredicate.beqList xs ys

def ExactComponentMatcher.beq : ExactComponentMatcher → ExactComponentMatcher → Bool
  | .mk t1 d1, .mk t2 d2 => decide (t1 = t2) && ItemComponent.beq d1 d2

def ExactComponentMatcher.beqList :
    List ExactComponentMatcher → List ExactComponentMatcher → Bool
  | [], [] => true
  | _ :: _, [] => false
  | [], _ :: _ => false
  | x :: xs, y :: ys => ExactComponentMatcher.beq x y && ExactComponentMatcher.beqList xs ys

end

set_option maxHeartbeats 3200000 in
mutual

theorem itemComponentBeqIff : ∀ a b : ItemComponent, ItemComponent.beq a b = true ↔ a = b
  | a, b => by
    cases a with
    | CustomData x1 =>
        rw [ItemComponent.beq, ItemComponent.beqArmCustomData.eq_def]; split
        · simp [and_assoc]
        · rename_i hnm; refine iff_of_false (fun h => nomatch h) fun he => ?_; subst he; apply hnm; rfl
    | MaxStackSize x1 =>
        rw [ItemComponent.beq, ItemComponent.beqArmMaxStackSize.eq_def]; split
        · simp [and_assoc]
        · rename_i hnm; refine iff_of_false (fun h => nomatch h) fun he => ?_; subst he; apply hnm; rfl
    | MaxDamage x1 =>
        rw [ItemComponent.beq, ItemComponent.beqArmMaxDamage.eq_def]; split
        · simp [and_assoc]
        · rename_i hnm; refine iff_of_false (fun h => nomatch h) fun he => ?_; subst he; apply hnm; rfl
    | Damage x1 =>
        rw [ItemComponent.beq, ItemComponent.beqArmDamage.eq_def]; split
        · simp [and_assoc]
        · rename_i hnm; refine iff_of_false (fun h => nomatch h) fun he => ?_; subst he; apply hnm; rfl
    | Unbreakable =>
        rw [ItemComponent.beq, ItemComponent.beqArmUnbreakable.eq_def]; split
        · simp [and_assoc]
        · rename_i hnm; refine iff_of_false (fun h => nomatch h) fun he => ?_; subst he; apply hnm; rfl
    | CustomName x1 =>
        rw [ItemComponent.beq, ItemComponent.beqArmCustomName.eq_def]; split
        · simp [and_assoc]
        · rename_i hnm; refine iff_of_false (fun h => nomatch h) fun he => ?_; subst he; apply hnm; rfl
    | ItemName x1 =>
        rw [ItemComponent.beq, ItemComponent.beqArmItemName.eq_def]; split
        · simp [and_assoc]
        · rename_i hnm; refine iff_of_false (fun h => nomatch h) fun he => ?_; subst he; apply hnm; rfl
    | ItemModel x1 =>
        rw [ItemComponent.beq, ItemComponent.beqArmItemModel.eq_def]; split
        · simp [and_assoc]
        · rename_i hnm; refine iff_of_false (fun h => nomatch h) fun he => ?_; subst he; apply hnm; rfl
    | Lore x1 =>
        rw [ItemComponent.beq, ItemComponent.beqArmLore.eq_def]; split
        · simp [and_assoc]
        · rename_i hnm; refine iff_of_false (fun h => nomatch h) fun he => ?_; subst he; apply hnm; rfl
    | Rarity x1 =>
        rw [ItemComponent.beq, ItemComponent.beqArmRarity.eq_def]; split
        · simp [and_assoc]
        · rename_i hnm; refine iff_of_false (fun h => nomatch h) fun he => ?_; subst he; apply hnm; rfl
    | Enchantments x1 =>
        rw [ItemComponent.beq, ItemComponent.beqArmEnchantments.eq_def]; split
        · simp [and_assoc]
        · rename_i hnm; refine iff_of_false (fun h => nomatch h) fun he => ?_; subst he; apply hnm; rfl
    | CanPlaceOn x1 =>
        rw [ItemComponent.beq, ItemComponent.beqArmCanPlaceOn.eq_def]; split
        · rw [blockPredicateBeqListIff]; simp
        · rename_i hnm; refine iff_of_false (fun h => nomatch h) fun he => ?_; subst he; apply hnm; rfl
    | CanBreak x1 =>
        rw [ItemComponent.beq, ItemComponent.beqArmCanBreak.eq_def]; split
        · rw [blockPredicateBeqListIff]; simp
        · rename_i hnm; refine iff_of_false (fun h => nomatch h) fun he => ?_; subst he; apply hnm; rfl
    | AttributeModifiers x1 =>
        rw [ItemComponent.beq, ItemComponent.beqArmAttributeModifiers.eq_def]; split
        · simp [and_assoc]
        · rename_i hnm; refine iff_of_false (fun h => nomatch h) fun he => ?_; subst he; apply hnm; rfl
    | CustomModelData x1 x2 x3 x4 =>
        rw [ItemComponent.beq, ItemComponent.beqArmCustomModelData.eq_def]; split
        · simp [and_assoc]
        · rename_i hnm; refine iff_of_false (fun h => nomatch h) fun he => ?_; subst he; apply hnm; rfl
    | TooltipDisplay x1 x2 =>
        rw [ItemComponent.beq, ItemComponent.beqArmTooltipDisplay.eq_def]; split
        · simp [and_assoc]
        · rename_i hnm; refine iff_of_false (fun h => nomatch h) fun he => ?_; subst he; apply hnm; rfl
    | RepairCost x1 =>
        rw [ItemComponent.beq, ItemComponent.beqArmRepairCost.eq_def]; split
        · simp [and_assoc]
        · rename_i hnm; refine iff_of_false (fun h => nomatch h) fun he => ?_; subst he; apply hnm; rfl
    | CreativeSlotLock =>
        rw [ItemComponent.beq, ItemComponent.beqArmCreativeSlotLock.eq_def]; split
        · simp [and_assoc]
        · rename_i hnm; refine iff_of_false (fun h => nomatch h) fun he => ?_; subst he; apply hnm; rfl
    | EnchantmentGlintOverride x1 =>
        rw [ItemComponent.beq, ItemComponent.beqArmEnchantmentGlintOverride.eq_def]; split
        · simp [and_assoc]
        · rename_i hnm; refine iff_of_false (fun h => nomatch h) fun he => ?_; subst he; apply hnm; rfl
    | IntangibleProjectile x1 =>
        rw [ItemComponent.beq, ItemComponent.beqArmIntangibleProjectile.eq_def]; split
        · simp [and_assoc]
        · rename_i hnm; refine iff_of_false (fun h => nomatch h) fun he => ?_; subst he; apply hnm; rfl
    | Food x1 x2 x3 =>
        rw [ItemComponent.beq, ItemComponent.beqArmFood.eq_def]; split
        · simp [and_assoc]
        · rename_i hnm; refine iff_of_false (fun h => nomatch h) fun he => ?_; subst he; apply hnm; rfl
    | Consumable x1 x2 x3 x4 x5 =>
        rw [ItemComponent.beq, ItemComponent.beqArmConsumable.eq_def]; split
        · simp [and_assoc]
        · rename_i hnm; refine iff_of_false (fun h => nomatch h) fun he => ?_; subst he; apply hnm; rfl
    | UseRemainder x1 =>
        rw [ItemComponent.beq, ItemComponent.beqArmUseRemainder.eq_def]; split
        · rw [itemStackBeqIff]; simp
        · rename_i hnm; refine iff_of_false (fun h => nomatch h) fun he => ?_; subst he; apply hnm; rfl
    | UseCooldown x1 x2 =>
        rw [ItemComponent.beq, ItemComponent.beqArmUseCooldown.eq_def]; split
        · simp [and_assoc]
        · rename_i hnm; refine iff_of_false (fun h => nomatch h) fun he => ?_; subst he; apply hnm; rfl
    | DamageResistant x1 =>
        rw [ItemComponent.beq, ItemComponent.beqArmDamageResistant.eq_def]; split
        · simp [and_assoc]
        · rename_i hnm; refine iff_of_false (fun h => nomatch h) fun he => ?_; subst he; apply hnm; rfl
    | Tool x1 x2 x3 x4 =>
        rw [ItemComponent.beq, ItemComponent.beqArmTool.eq_def]; split
        · simp [and_assoc]
        · rename_i hnm; refine iff_of_false (fun h => nomatch h) fun he => ?_; subst he; apply hnm; rfl
    | Weapon x1 x2 =>
        rw [ItemComponent.beq, ItemComponent.beqArmWeapon.eq_def]; split
        · simp [and_assoc]
        · rename_i hnm; refine iff_of_false (fun h => nomatch h) fun he => ?_; subst he; apply hnm; rfl
    | Enchantable x1 =>
        rw [ItemComponent.beq, ItemComponent.beqArmEnchantable.eq_def]; split
        · simp [and_assoc]
        · rename_i hnm; refine iff_of_false (fun h => nomatch h) fun he => ?_; subst he; apply hnm; rfl
    | Equippable x1 x2 x3 x4 x5 x6 x7 x8 =>
        rw [ItemComponent.beq, ItemComponent.beqArmEquippable.eq_def]; split
        · simp [and_assoc]
        · rename_i hnm; refine iff_of_false (fun h => nomatch h) fun he => ?_; subst he; apply hnm; rfl
    | Repairable x1 =>
        rw [ItemComponent.beq, ItemComponent.beqArmRepairable.eq_def]; split
        · simp [and_assoc]
        · rename_i hnm; refine iff_of_false (fun h => nomatch h) fun he => ?_; subst he; apply hnm; rfl
    | Glider =>
        rw [ItemComponent.beq, ItemComponent.beqArmGlider.eq_def]; split
        · simp [and_assoc]
        · rename_i hnm; refine iff_of_false (fun h => nomatch h) fun he => ?_; subst he; apply hnm; rfl
    | TooltipStyle x1 =>
        rw [ItemComponent.beq, ItemComponent.beqArmTooltipStyle.eq_def]; split
        · simp [and_assoc]
        · rename_i hnm; refine iff_of_false (fun h => nomatch h) fun he => ?_; subst he; apply hnm; rfl
    | DeathProtection x1 =>
        rw [ItemComponent.beq, ItemComponent.beqArmDeathProtection.eq_def]; split
        · simp [and_assoc]
        · rename_i hnm; refine iff_of_false (fun h => nomatch h) fun he => ?_; subst he; apply hnm; rfl
    | BlocksAttacks x1 x2 x3 x4 x5 x6 x7 x8 x9 =>
        rw [ItemComponent.beq, ItemComponent.beqArmBlocksAttacks.eq_def]; split
        · simp [and_assoc]
        · rename_i hnm; refine iff_of_false (fun h => nomatch h) fun he => ?_; subst he; apply hnm; rfl
    | StoredEnchantments x1 x2 =>
        rw [ItemComponent.beq, ItemComponent.beqArmStoredEnchantments.eq_def]; split
        · simp [and_assoc]
        · rename_i hnm; refine iff_of_false (fun h => nomatch h) fun he => ?_; subst he; apply hnm; rfl
    | DyedColor x1 x2 =>
        rw [ItemComponent.beq, ItemComponent.beqArmDyedColor.eq_def]; split
        · simp [and_assoc]
        · rename_i hnm; refine iff_of_false (fun h => nomatch h) fun he => ?_; subst he; apply hnm; rfl
    | MapColor x1 =>
        rw [ItemComponent.beq, ItemComponent.beqArmMapColor.eq_def]; split
        · simp [and_assoc]
        · rename_i hnm; refine iff_of_false (fun h => nomatch h) fun he => ?_; subst he; apply hnm; rfl
    | MapId x1 =>
        rw [ItemComponent.beq, ItemComponent.beqArmMapId.eq_def]; split
        · simp [and_assoc]
        · rename_i hnm; refine iff_of_false (fun h => nomatch h) fun he => ?_; subst he; apply hnm; rfl
    | MapDecorations x1 =>
        rw [ItemComponent.beq, ItemComponent.beqArmMapDecorations.eq_def]; split
        · simp [and_assoc]
        · rename_i hnm; refine iff_of_false (fun h => nomatch h) fun he => ?_; subst he; apply hnm; rfl
    | MapPostProcessing x1 =>
        rw [ItemComponent.beq, ItemComponent.beqArmMapPostProcessing.eq_def]; split
        · simp [and_assoc]
        · rename_i hnm; refine iff_of_false (fun h => nomatch h) fun he => ?_; subst he; apply hnm; rfl
    | ChargedProjectiles x1 =>
        rw [ItemComponent.beq, ItemComponent.beqArmChargedProjectiles.eq_def]; split
        · rw [itemStackBeqListIff]; simp
        · rename_i hnm; refine iff_of_false (fun h => nomatch h) fun he => ?_; subst he; apply hnm; rfl
    | BundleContents x1 =>
        rw [ItemComponent.beq, ItemComponent.beqArmBundleContents.eq_def]; split
        · rw [itemStackBeqListIff]; simp
        · rename_i hnm; refine iff_of_false (fun h => nomatch h) fun he => ?_; subst he; apply hnm; rfl
    | PotionContents x1 x2 x3 x4 =>
        rw [ItemComponent.beq, ItemComponent.beqArmPotionContents.eq_def]; split
        · simp [and_assoc]
        · rename_i hnm; refine iff_of_false (fun h => nomatch h) fun he => ?_; subst he; apply hnm; rfl
    | PotionDurationScale x1 =>
        rw [ItemComponent.beq, ItemComponent.beqArmPotionDurationScale.eq_def]; split
        · simp [and_assoc]
        · rename_i hnm; refine iff_of_false (fun h => nomatch h) fun he => ?_; subst he; apply hnm; rfl
    | SuspiciousStewEffects x1 =>
        rw [ItemComponent.beq, ItemComponent.beqArmSuspiciousStewEffects.eq_def]; split
        · simp [and_assoc]
        · rename_i hnm; refine iff_of_false (fun h => nomatch h) fun he => ?_; subst he; apply hnm; rfl
    | WritableBookContent x1 =>
        rw [ItemComponent.beq, ItemComponent.beqArmWritableBookContent.eq_def]; split
        · simp [and_assoc]
        · rename_i hnm; refine iff_of_false (fun h => nomatch h) fun he => ?_; subst he; apply hnm; rfl
    | WrittenBookContent x1 x2 x3 x4 x5 x6 =>
        rw [ItemComponent.beq, ItemComponent.beqArmWrittenBookContent.eq_def]; split
        · simp [and_assoc]
        · rename_i hnm; refine iff_of_false (fun h => nomatch h) fun he => ?_; subst he; apply hnm; rfl
    | Trim x1 x2 x3 =>
        rw [ItemComponent.beq, ItemComponent.beqArmTrim.eq_def]; split
        · simp [and_assoc]
        · rename_i hnm; refine iff_of_false (fun h => nomatch h) fun he => ?_; subst he; apply hnm; rfl
    | DebugStickState x1 =>
        rw [ItemComponent.beq, ItemComponent.beqArmDebugStickState.eq_def]; split
        · simp [and_assoc]
        · rename_i hnm; refine iff_of_false (fun h => nomatch h) fun he => ?_; subst he; apply hnm; rfl
    | EntityData x1 x2 =>
        rw [ItemComponent.beq, ItemComponent.beqArmEntityData.eq_def]; split
        · simp [and_assoc]
        · rename_i hnm; refine iff_of_false (fun h => nomatch h) fun he => ?_; subst he; apply hnm; rfl
    | BucketEntityData x1 =>
        rw [ItemComponent.beq, ItemComponent.beqArmBucketEntityData.eq_def]; split
        · simp [and_assoc]
        · rename_i hnm; refine iff_of_false (fun h => nomatch h) fun he => ?_; subst he; apply hnm; rfl
    | BlockEntityData x1 x2 =>
        rw [ItemComponent.beq, ItemComponent.beqArmBlockEntityData.eq_def]; split
        · simp [and_assoc]
        · rename_i hnm; refine iff_of_false (fun h => nomatch h) fun he => ?_; subst he; apply hnm; rfl
    | Instrument x1 =>
        rw [ItemComponent.beq, ItemComponent.beqArmInstrument.eq_def]; split
        · simp [and_assoc]
        · rename_i hnm; refine iff_of_false (fun h => nomatch h) fun he => ?_; subst he; apply hnm; rfl
    | ProvidesTrimMaterial x1 =>
        rw [ItemComponent.beq, ItemComponent.beqArmProvidesTrimMaterial.eq_def]; split
        · simp [and_assoc]
        · rename_i hnm; refine iff_of_false (fun h => nomatch h) fun he => ?_; subst he; apply hnm; rfl
    | OminousBottleAmplifier x1 =>
        rw [ItemComponent.beq, ItemComponent.beqArmOminousBottleAmplifier.eq_def]; split
        · simp [and_assoc]
        · rename_i hnm; refine iff_of_false (fun h => nomatch h) fun he => ?_; subst he; apply hnm; rfl
    | JukeboxPlayable x1 x2 =>
        rw [ItemComponent.beq, ItemComponent.beqArmJukeboxPlayable.eq_def]; split
        · simp [and_assoc]
        · rename_i hnm; refine iff_of_false (fun h => nomatch h) fun he => ?_; subst he; apply hnm; rfl
    | ProvidesBannerPatterns x1 =>
        rw [ItemComponent.beq, ItemComponent.beqArmProvidesBannerPatterns.eq_def]; split
        · simp [and_assoc]
        · rename_i hnm; refine iff_of_false (fun h => nomatch h) fun he => ?_; subst he; apply hnm; rfl
    | Recipes x1 =>
        rw [ItemComponent.beq, ItemComponent.beqArmRecipes.eq_def]; split
        · simp [and_assoc]
        · rename_i hnm; refine iff_of_false (fun h => nomatch h) fun he => ?_; subst he; apply hnm; rfl
    | LodestoneTracker x1 x2 =>
        rw [ItemComponent.beq, ItemComponent.beqArmLodestoneTracker.eq_def]; split
        · simp [and_assoc]
        · rename_i hnm; refine iff_of_false (fun h => nomatch h) fun he => ?_; subst he; apply hnm; rfl
    | FireworkExplosion x1 =>
        rw [ItemComponent.beq, ItemComponent.beqArmFireworkExplosion.eq_def]; split
        · simp [and_assoc]
        · rename_i hnm; refine iff_of_false (fun h => nomatch h) fun he => ?_; subst he; apply hnm; rfl
    | Fireworks x1 x2 =>
        rw [ItemComponent.beq, ItemComponent.beqArmFireworks.eq_def]; split
        · simp [and_assoc]
        · rename_i hnm; refine iff_of_false (fun h => nomatch h) fun he => ?_; subst he; apply hnm; rfl
    | Profile x1 =>
        rw [ItemComponent.beq, ItemComponent.beqArmProfile.eq_def]; split
        · simp [and_assoc]
        · rename_i hnm; refine iff_of_false (fun h => nomatch h) fun he => ?_; subst he; apply hnm; rfl
    | NoteBlockSound x1 =>
        rw [ItemComponent.beq, ItemComponent.beqArmNoteBlockSound.eq_def]; split
        · simp [and_assoc]
        · rename_i hnm; refine iff_of_false (fun h => nomatch h) fun he => ?_; subst he; apply hnm; rfl
    | BannerPatterns x1 =>
        rw [ItemComponent.beq, ItemComponent.beqArmBannerPatterns.eq_def]; split
        · simp [and_assoc]
        · rename_i hnm; refine iff_of_false (fun h => nomatch h) fun he => ?_; subst he; apply hnm; rfl
    | BaseColor x1 =>
        rw [ItemComponent.beq, ItemComponent.beqArmBaseColor.eq_def]; split
        · simp [and_assoc]
        · rename_i hnm; refine iff_of_false (fun h => nomatch h) fun he => ?_; subst he; apply hnm; rfl
    | PotDecorations x1 =>
        rw [ItemComponent.beq, ItemComponent.beqArmPotDecorations.eq_def]; split
        · simp [and_assoc]
        · rename_i hnm; refine iff_of_false (fun h => nomatch h) fun he => ?_; subst he; apply hnm; rfl
    | Container x1 =>
        rw [ItemComponent.beq, ItemComponent.beqArmContainer.eq_def]; split
        · rw [itemStackBeqListIff]; simp
        · rename_i hnm; refine iff_of_false (fun h => nomatch h) fun he => ?_; subst he; apply hnm; rfl
    | BlockState x1 =>
        rw [ItemComponent.beq, ItemComponent.beqArmBlockState.eq_def]; split
        · simp [and_assoc]
        · rename_i hnm; refine iff_of_false (fun h => nomatch h) fun he => ?_; subst he; apply hnm; rfl
    | Bees x1 =>
        rw [ItemComponent.beq, ItemComponent.beqArmBees.eq_def]; split
        · simp [and_assoc]
        · rename_i hnm; refine iff_of_false (fun h => nomatch h) fun he => ?_; subst he; apply hnm; rfl
    | Lock x1 =>
        rw [ItemComponent.beq, ItemComponent.beqArmLock.eq_def]; split
        · simp [and_assoc]
        · rename_i hnm; refine iff_of_false (fun h => nomatch h) fun he => ?_; subst he; apply hnm; rfl
    | ContainerLoot x1 =>
        rw [ItemComponent.beq, ItemComponent.beqArmContainerLoot.eq_def]; split
        · simp [and_assoc]
        · rename_i hnm; refine iff_of_false (fun h => nomatch h) fun he => ?_; subst he; apply hnm; rfl
    | BreakSound x1 =>
        rw [ItemComponent.beq, ItemComponent.beqArmBreakSound.eq_def]; split
        · simp [and_assoc]
        · rename_i hnm; refine iff_of_false (fun h => nomatch h) fun he => ?_; subst he; apply hnm; rfl
    | VillagerVariant x1 =>
        rw [ItemComponent.beq, ItemComponent.beqArmVillagerVariant.eq_def]; split
        · simp [and_assoc]
        · rename_i hnm; refine iff_of_false (fun h => nomatch h) fun he => ?_; subst he; apply hnm; rfl
    | WolfVariant x1 =>
        rw [ItemComponent.beq, ItemComponent.beqArmWolfVariant.eq_def]; split
        · simp [and_assoc]
        · rename_i hnm; refine iff_of_false (fun h => nomatch h) fun he => ?_; subst he; apply hnm; rfl
    | WolfSoundVariant x1 =>
        rw [ItemComponent.beq, ItemComponent.beqArmWolfSoundVariant.eq_def]; split
        · simp [and_assoc]
        · rename_i hnm; refine iff_of_false (fun h => nomatch h) fun he => ?_; subst he; apply hnm; rfl
    | WolfCollar x1 =>
        rw [ItemComponent.beq, ItemComponent.beqArmWolfCollar.eq_def]; split
        · simp [and_assoc]
        · rename_i hnm; refine iff_of_false (fun h => nomatch h) fun he => ?_; subst he; apply hnm; rfl
    | FoxVariant x1 =>
        rw [ItemComponent.beq, ItemComponent.beqArmFoxVariant.eq_def]; split
        · simp [and_assoc]
        · rename_i hnm; refine iff_of_false (fun h => nomatch h) fun he => ?_; subst he; apply hnm; rfl
    | SalmonSize x1 =>
        rw [ItemComponent.beq, ItemComponent.beqArmSalmonSize.eq_def]; split
        · simp [and_assoc]
        · rename_i hnm; refine iff_of_false (fun h => nomatch h) fun he => ?_; subst he; apply hnm; rfl
    | ParrotVariant x1 =>
        rw [ItemComponent.beq, ItemComponent.beqArmParrotVariant.eq_def]; split
        · simp [and_assoc]
        · rename_i hnm; refine iff_of_false (fun h => nomatch h) fun he => ?_; subst he; apply hnm; rfl
    | TropicalFishPatternComp x1 =>
        rw [ItemComponent.beq, ItemComponent.beqArmTropicalFishPatternComp.eq_def]; split
        · simp [and_assoc]
        · rename_i hnm; refine iff_of_false (fun h => nomatch h) fun he => ?_; subst he; apply hnm; rfl
    | TropicalFishBaseColor x1 =>
        rw [ItemComponent.beq, ItemComponent.beqArmTropicalFishBaseColor.eq_def]; split
        · simp [and_assoc]
        · rename_i hnm; refine iff_of_false (fun h => nomatch h) fun he => ?_; subst he; apply hnm; rfl
    | TropicalFishPatternColor x1 =>
        rw [ItemComponent.beq, ItemComponent.beqArmTropicalFishPatternColor.eq_def]; split
        · simp [and_assoc]
        · rename_i hnm; refine iff_of_false (fun h => nomatch h) fun he => ?_; subst he; apply hnm; rfl
    | MooshroomVariant x1 =>
        rw [ItemComponent.beq, ItemComponent.beqArmMooshroomVariant.eq_def]; split
        · simp [and_assoc]
        · rename_i hnm; refine iff_of_false (fun h => nomatch h) fun he => ?_; subst he; apply hnm; rfl
    | RabbitVariant x1 =>
        rw [ItemComponent.beq, ItemComponent.beqArmRabbitVariant.eq_def]; split
        · simp [and_assoc]
        · rename_i hnm; refine iff_of_false (fun h => nomatch h) fun he => ?_; subst he; apply hnm; rfl
    | PigVariant x1 =>
        rw [ItemComponent.beq, ItemComponent.beqArmPigVariant.eq_def]; split
        · simp [and_assoc]
        · rename_i hnm; refine iff_of_false (fun h => nomatch h) fun he => ?_; subst he; apply hnm; rfl
    | CowVariant x1 =>
        rw [ItemComponent.beq, ItemComponent.beqArmCowVariant.eq_def]; split
        · simp [and_assoc]
        · rename_i hnm; refine iff_of_false (fun h => nomatch h) fun he => ?_; subst he; apply hnm; rfl
    | ChickenVariant x1 =>
        rw [ItemComponent.beq, ItemComponent.beqArmChickenVariant.eq_def]; split
        · simp [and_assoc]
        · rename_i hnm; refine iff_of_false (fun h => nomatch h) fun he => ?_; subst he; apply hnm; rfl
    | FrogVariant x1 =>
        rw [ItemComponent.beq, ItemComponent.beqArmFrogVariant.eq_def]; split
        · simp [and_assoc]
        · rename_i hnm; refine iff_of_false (fun h => nomatch h) fun he => ?_; subst he; apply hnm; rfl
    | HorseVariant x1 =>
        rw [ItemComponent.beq, ItemComponent.beqArmHorseVariant.eq_def]; split
        · simp [and_assoc]
        · rename_i hnm; refine iff_of_false (fun h => nomatch h) fun he => ?_; subst he; apply hnm; rfl
    | PaintingVariant x1 =>
        rw [ItemComponent.beq, ItemComponent.beqArmPaintingVariant.eq_def]; split
        · simp [and_assoc]
        · rename_i hnm; refine iff_of_false (fun h => nomatch h) fun he => ?_; subst he; apply hnm; rfl
    | LlamaVariant x1 =>
        rw [ItemComponent.beq, ItemComponent.beqArmLlamaVariant.eq_def]; split
        · simp [and_assoc]
        · rename_i hnm; refine iff_of_false (fun h => nomatch h) fun he => ?_; subst he; apply hnm; rfl
    | AxolotlVariant x1 =>
        rw [ItemComponent.beq, ItemComponent.beqArmAxolotlVariant.eq_def]; split
        · simp [and_assoc]
        · rename_i hnm; refine iff_of_false (fun h => nomatch h) fun he => ?_; subst he; apply hnm; rfl
    | CatVariant x1 =>
        rw [ItemComponent.beq, ItemComponent.beqArmCatVariant.eq_def]; split
        · simp [and_assoc]
        · rename_i hnm; refine iff_of_false (fun h => nomatch h) fun he => ?_; subst he; apply hnm; rfl
    | CatCollar x1 =>
        rw [ItemComponent.beq, ItemComponent.beqArmCatCollar.eq_def]; split
        · simp [and_assoc]
        · rename_i hnm; refine iff_of_false (fun h => nomatch h) fun he => ?_; subst he; apply hnm; rfl
    | SheepColor x1 =>
        rw [ItemComponent.beq, ItemComponent.beqArmSheepColor.eq_def]; split
        · simp [and_assoc]
        · rename_i hnm; refine iff_of_false (fun h => nomatch h) fun he => ?_; subst he; apply hnm; rfl
    | ShulkerColor x1 =>
        rw [ItemComponent.beq, ItemComponent.beqArmShulkerColor.eq_def]; split
        · simp [and_assoc]
        · rename_i hnm; refine iff_of_false (fun h => nomatch h) fun he => ?_; subst he; apply hnm; rfl

theorem itemStackBeqIff : ∀ a b : ItemStack, ItemStack.beq a b = true ↔ a = b
  | a, b => by
    cases a with
    | mk i1 c1 comps1 =>
        cases b with
        | mk i2 c2 comps2 =>
            rw [ItemStack.beq, Bool.and_eq_true, Bool.and_eq_true,
              patchableBeqListIff comps1 comps2]
            simp [and_assoc]

theorem itemStackBeqListIff :
    ∀ a b : List ItemStack, ItemStack.beqList a b = true ↔ a = b
  | a, b => by
    cases a with
    | nil => cases b with
        | nil => simp [ItemStack.beqList]
        | cons y ys => simp [ItemStack.beqList]
    | cons x xs =>
        cases b with
        | nil => simp [ItemStack.beqList]
        | cons y ys =>
            rw [ItemStack.beqList, Bool.and_eq_true, itemStackBeqIff x y,
              itemStackBeqListIff xs ys]
            simp

theorem Patchable.beqComp_iff :
    ∀ a b : Patchable ItemComponent, Patchable.beqComp a b = true ↔ a = b
  | a, b => by
    cases a with
    | Default v =>
        cases b with
        | Default w => rw [Patchable.beqComp, itemComponentBeqIff v w]; simp
        | Added w hw => simp [Patchable.beqComp]
        | Removed => simp [Patchable.beqComp]
        | None => simp [Patchable.beqComp]
    | Added v hv =>
        cases b with
        | Default w => simp [Patchable.beqComp]
        | Added w hw =>
            rw [Patchable.beqComp, Bool.and_eq_true, itemComponentBeqIff v w]
            simp
        | Removed => simp [Patchable.beqComp]
        | None => simp [Patchable.beqComp]
    | Removed =>
        cases b with
        | Default w => simp [Patchable.beqComp]
        | Added w hw => simp [Patchable.beqComp]
        | Removed => simp [Patchable.beqComp]
        | None => simp [Patchable.beqComp]
    | None =>
        cases b with
        | Default w => simp [Patchable.beqComp]
        | Added w hw => simp [Patchable.beqComp]
        | Removed => simp [Patchable.beqComp]
        | None => simp [Patchable.beqComp]

theorem patchableBeqListIff :
    ∀ a b : List (Patchable ItemComponent), Patchable.beqList a b = true ↔ a = b
  | a, b => by
    cases a with
    | nil => cases b with
        | nil => simp [Patchable.beqList]
        | cons y ys => simp [Patchable.beqList]
    | cons x xs =>
        cases b with
        | nil => simp [Patchable.beqList]
        | cons y ys =>
            rw [Patchable.beqList, Bool.and_eq_true, Patchable.beqComp_iff x y,
              patchableBeqListIff xs ys]
            simp

theorem blockPredicateBeqIff :
    ∀ a b : BlockPredicate, BlockPredicate.beq a b = true ↔ a = b
  | a, b => by
    cases a with
    | mk a1 a2 a3 a4 a5 =>
        cases b with
        | mk b1 b2 b3 b4 b5 =>
            rw [BlockPredicate.beq, Bool.and_eq_true, Bool.and_eq_true,
              Bool.and_eq_true, Bool.and_eq_true,
              exactMatcherBeqListIff a4 b4]
            simp [and_assoc]

theorem blockPredicateBeqListIff :
    ∀ a b : List BlockPredicate, BlockPredicate.beqList a b = true ↔ a = b
  | a, b => by
    cases a with
    | nil => cases b with
        | nil => simp [BlockPredicate.beqList]
        | cons y ys => simp [BlockPredicate.beqList]
    | cons x xs =>
        cases b with
        | nil => simp [BlockPredicate.beqList]
        | cons y ys =>
            rw [BlockPredicate.beqList, Bool.and_eq_true, blockPredicateBeqIff x y,
              blockPredicateBeqListIff xs ys]
            simp

theorem exactMatcherBeqIff :
    ∀ a b : ExactComponentMatcher, ExactComponentMatcher.beq a b = true ↔ a = b
  | a, b => by
    cases a with
    | mk t1 d1 =>
        cases b with
        | mk t2 d2 =>
            rw [ExactComponentMatcher.beq, Bool.and_eq_true, itemComponentBeqIff d1 d2]
            simp

theorem exactMatcherBeqListIff :
    ∀ a b : List ExactComponentMatcher, ExactComponentMatcher.beqList a b = true ↔ a = b
  | a, b => by
    cases a with
    | nil => cases b with
        | nil => simp [ExactComponentMatcher.beqList]
        | cons y ys => simp [ExactComponentMatcher.beqList]
    | cons x xs =>
        cases b with
        | nil => simp [ExactComponentMatcher.beqList]
        | cons y ys =>
            rw [ExactComponentMatcher.beqList, Bool.and_eq_true,
              exactMatcherBeqIff x y, exactMatcherBeqListIff xs ys]
            simp

end


/-- Element codecs for the list-typed component fields. -/
def encVarIntElem (i : Int) : Option (List Nat) := some (encodeVarInt i)

def encStringElem (s : List Nat) : Option (List Nat) := some (encodeString s)

def encBoolElem (b : Bool) : Option (List Nat) := some (encodeBool b)

def encF32Elem (v : Nat) : Option (List Nat) := some (encodeF32 v)

/-- A (DynamicRegistryPlaceholder, VarInt) pair, used by enchantment lists. -/
def encDrpPair (p : DynamicRegistryPlaceholder × Int) : Option (List Nat) :=
  some (encodeDynamicRegistryPlaceholder p.1 ++ encodeVarInt p.2)

def dDrpPair : Dec (DynamicRegistryPlaceholder × Int) := fun bs => do
  let (d, r) ← dDynamicRegistryPlaceholder bs
  let (v, r2) ← dVarInt r
  .ok ((d, v), r2)

def DrpPairWF (p : DynamicRegistryPlaceholder × Int) : Prop := p.1.WF ∧ I32Range p.2

theorem drpPairRT (p : DynamicRegistryPlaceholder × Int) (h : DrpPairWF p) :
    ∃ b, encDrpPair p = some b ∧ ∀ r, dDrpPair (b ++ r) = .ok (p, r) := by
  refine ⟨encodeDynamicRegistryPlaceholder p.1 ++ encodeVarInt p.2, rfl, ?_⟩
  intro r
  unfold dDrpPair
  rw [List.append_assoc, dDynamicRegistryPlaceholder_enc p.1 _ h.1, exbind_ok]
  dsimp only
  rw [dVarInt_enc p.2 _ h.2.1 h.2.2, exbind_ok]

/-- An (id, level) pair of VarInts (suspicious stew effects). -/
def encIntPair (p : Int × Int) : Option (List Nat) :=
  some (encodeVarInt p.1 ++ encodeVarInt p.2)

def dIntPair : Dec (Int × Int) := fun bs => do
  let (a, r) ← dVarInt bs
  let (b, r2) ← dVarInt r
  .ok ((a, b), r2)

def IntPairWF (p : Int × Int) : Prop := I32Range p.1 ∧ I32Range p.2

theorem intPairRT (p : Int × Int) (h : IntPairWF p) :
    ∃ b, encIntPair p = some b ∧ ∀ r, dIntPair (b ++ r) = .ok (p, r) := by
  refine ⟨encodeVarInt p.1 ++ encodeVarInt p.2, rfl, ?_⟩
  intro r
  unfold dIntPair
  rw [List.append_assoc, dVarInt_enc p.1 _ h.1.1 h.1.2, exbind_ok]
  dsimp only
  rw [dVarInt_enc p.2 _ h.2.1 h.2.2, exbind_ok]

def encAttributeModifierElem (m : AttributeModifier) : Option (List Nat) :=
  some (encodeAttributeModifier m)

def encToolRuleElem : ToolRule → Option (List Nat) := encodeToolRule

def encDamageReductionElem : DamageReduction → Option (List Nat) := encodeDamageReduction

def encConsumeEffectElem : ConsumeEffect → Option (List Nat) := encodeConsumeEffect

def encWritablePageElem : WritablePage → Option (List Nat) := encodeWritablePage

def encWrittenPageElem : WrittenPage → Option (List Nat) := encodeWrittenPage

def encFireworkExplosionElem : FireworkExplosionData → Option (List Nat) :=
  encodeFireworkExplosionData

def encBannerLayerElem : BannerLayer → Option (List Nat) := encodeBannerLayer

def encBeeDataElem (b : BeeData) : Option (List Nat) := some (encodeBeeData b)

/-- From stack.rs: the field accessors of ItemStack. -/
def ItemStack.item : ItemStack → ItemKind
  | .mk i _ _ => i

def ItemStack.count : ItemStack → Int
  | .mk _ c _ => c

def ItemStack.components : ItemStack → List (Patchable ItemComponent)
  | .mk _ _ cs => cs

/-- From stack.rs ItemStack::is_empty: the item is Air or the count is not
positive. -/
def ItemStack.is_empty (s : ItemStack) : Bool :=
  decide (s.item = ItemKind.Air) || decide (s.count ≤ 0)

/-- From stack.rs ItemStack::EMPTY: Air, zero count, all cells None. -/
def ItemStack.EMPTY : ItemStack :=
  .mk ItemKind.Air 0 (List.replicate NUM_ITEM_COMPONENTS Patchable.None)

/-- From stack.rs ItemStack::new: a stack without any components. -/
def ItemStack.new (item : ItemKind) (count : Int) : ItemStack :=
  .mk item count (List.replicate NUM_ITEM_COMPONENTS Patchable.None)

/-- From components.rs ItemComponent::hash: the source is a stub that always
returns zero. -/
def ItemComponent.hash (_ : ItemComponent) : Int := 0

/-- From components.rs: the stable wire id of each component kind. -/
def ItemComponent.id : ItemComponent → Nat
  | .CustomData .. => 0
  | .MaxStackSize .. => 1
  | .MaxDamage .. => 2
  | .Damage .. => 3
  | .Unbreakable => 4
  | .CustomName .. => 5
  | .ItemName .. => 6
  | .ItemModel .. => 7
  | .Lore .. => 8
  | .Rarity .. => 9
  | .Enchantments .. => 10
  | .CanPlaceOn .. => 11
  | .CanBreak .. => 12
  | .AttributeModifiers .. => 13
  | .CustomModelData .. => 14
  | .TooltipDisplay .. => 15
  | .RepairCost .. => 16
  | .CreativeSlotLock => 17
  | .EnchantmentGlintOverride .. => 18
  | .IntangibleProjectile .. => 19
  | .Food .. => 20
  | .Consumable .. => 21
  | .UseRemainder .. => 22
  | .UseCooldown .. => 23
  | .DamageResistant .. => 24
  | .Tool .. => 25
  | .Weapon .. => 26
  | .Enchantable .. => 27
  | .Equippable .. => 28
  | .Repairable .. => 29
  | .Glider => 30
  | .TooltipStyle .. => 31
  | .DeathProtection .. => 32
  | .BlocksAttacks .. => 33
  | .StoredEnchantments .. => 34
  | .DyedColor .. => 35
  | .MapColor .. => 36
  | .MapId .. => 37
  | .MapDecorations .. => 38
  | .MapPostProcessing .. => 39
  | .ChargedProjectiles .. => 40
  | .BundleContents .. => 41
  | .PotionContents .. => 42
  | .PotionDurationScale .. => 43
  | .SuspiciousStewEffects .. => 44
  | .WritableBookContent .. => 45
  | .WrittenBookContent .. => 46
  | .Trim .. => 47
  | .DebugStickState .. => 48
  | .EntityData .. => 49
  | .BucketEntityData .. => 50
  | .BlockEntityData .. => 51
  | .Instrument .. => 52
  | .ProvidesTrimMaterial .. => 53
  | .OminousBottleAmplifier .. => 54
  | .JukeboxPlayable .. => 55
  | .ProvidesBannerPatterns .. => 56
  | .Recipes .. => 57
  | .LodestoneTracker .. => 58
  | .FireworkExplosion .. => 59
  | .Fireworks .. => 60
  | .Profile .. => 61
  | .NoteBlockSound .. => 62
  | .BannerPatterns .. => 63
  | .BaseColor .. => 64
  | .PotDecorations .. => 65
  | .Container .. => 66
  | .BlockState .. => 67
  | .Bees .. => 68
  | .Lock .. => 69
  | .ContainerLoot .. => 70
  | .BreakSound .. => 71
  | .VillagerVariant .. => 72
  | .WolfVariant .. => 73
  | .WolfSoundVariant .. => 74
  | .WolfCollar .. => 75
  | .FoxVariant .. => 76
  | .SalmonSize .. => 77
  | .ParrotVariant .. => 78
  | .TropicalFishPatternComp .. => 79
  | .TropicalFishBaseColor .. => 80
  | .TropicalFishPatternColor .. => 81
  | .MooshroomVariant .. => 82
  | .RabbitVariant .. => 83
  | .PigVariant .. => 84
  | .CowVariant .. => 85
  | .ChickenVariant .. => 86
  | .FrogVariant .. => 87
  | .HorseVariant .. => 88
  | .PaintingVariant .. => 89
  | .LlamaVariant .. => 90
  | .AxolotlVariant .. => 91
  | .CatVariant .. => 92
  | .CatCollar .. => 93
  | .SheepColor .. => 94
  | .ShulkerColor .. => 95

/-- From vanilla_components.rs: the compiled per-kind default component
table is currently all None for every item kind. -/
def ItemKind.default_components (_ : ItemKind) : List (Patchable ItemComponent) :=
  List.replicate NUM_ITEM_COMPONENTS Patchable.None

/-- From stack.rs ItemStack::insert_component: no-op when the cell already
holds an equal Default payload, otherwise the cell becomes Added together
with the content hash. -/
def ItemStack.insert_component (s : ItemStack) (c : ItemComponent) : ItemStack :=
  match s.components.getD c.id Patchable.None with
  | .Default d =>
      if ItemComponent.beq d c then s
      else .mk s.item s.count (s.components.set c.id (.Added c c.hash))
  | _ => .mk s.item s.count (s.components.set c.id (.Added c c.hash))

/-- The indices of the Removed cells, in index order (the enumerate loop of
stack.rs encode_recursive). -/
def collectRemoved (i : Nat) : List (Patchable ItemComponent) → List Nat
  | [] => []
  | .Removed :: rest => i :: collectRemoved (i + 1) rest
  | _ :: rest => collectRemoved (i + 1) rest

/-- The (index, payload) pairs of the Added cells, in index order; the
stored hash is not written to the wire. -/
def collectAdded (i : Nat) : List (Patchable ItemComponent) → List (Nat × ItemComponent)
  | [] => []
  | .Added c _ :: rest => (i, c) :: collectAdded (i + 1) rest
  | _ :: rest => collectAdded (i + 1) rest

def encodeRemovedIds (ids : List Nat) : List Nat :=
  (ids.map (fun i => encodeVarInt (i : Int))).foldr (· ++ ·) []

mutual

/-- From impls.rs Encode for ItemComponent: each payload is the
concatenation of its fields in declaration order. -/
def ItemComponent.encode : ItemComponent → Option (List Nat)
  | .CustomData x1 => some ((encodeCompound x1))
  | .MaxStackSize x1 => some ((encodeVarInt x1))
  | .MaxDamage x1 => some ((encodeVarInt x1))
  | .Damage x1 => some ((encodeVarInt x1))
  | .Unbreakable => some []
  | .CustomName x1 => do
      let b1 ← encodeTextComponent x1
      some (b1)
  | .ItemName x1 => do
      let b1 ← encodeTextComponent x1
      some (b1)
  | .ItemModel x1 => some ((encodeString x1))
  | .Lore x1 => do
      let b1 ← encodeVec encodeTextComponent x1
      some (b1)
  | .Rarity x1 => some ((encodeFin x1))
  | .Enchantments x1 => do
      let b1 ← encodeVec encDrpPair x1
      some (b1)
  | .CanPlaceOn v => do
      let body ← encodePredList v
      some (encodeVarInt (v.length : Int) ++ body)
  | .CanBreak v => do
      let body ← encodePredList v
      some (encodeVarInt (v.length : Int) ++ body)
  | .AttributeModifiers x1 => do
      let b1 ← encodeVec encAttributeModifierElem x1
      some (b1)
  | .CustomModelData x1 x2 x3 x4 => do
      let b1 ← encodeVec encF32Elem x1
      let b2 ← encodeVec encBoolElem x2
      let b3 ← encodeVec encStringElem x3
      let b4 ← encodeVec encodeI32Elem x4
      some (b1 ++ b2 ++ b3 ++ b4)
  | .TooltipDisplay x1 x2 => do
      let b2 ← encodeVec encVarIntElem x2
      some ((encodeBool x1) ++ b2)
  | .RepairCost x1 => some ((encodeVarInt x1))
  | .CreativeSlotLock => some []
  | .EnchantmentGlintOverride x1 => some ((encodeBool x1))
  | .IntangibleProjectile x1 => some ((encodeCompound x1))
  | .Food x1 x2 x3 => some ((encodeVarInt x1) ++ (encodeF32 x2) ++ (encodeBool x3))
  | .Consumable x1 x2 x3 x4 x5 => do
      let b3 ← encodeIdOrSound x3
      let b5 ← encodeVec encConsumeEffectElem x5
      some ((encodeF32 x1) ++ (encodeFin x2) ++ b3 ++ (encodeBool x4) ++ b5)
  | .UseRemainder v => ItemStack.encode_recursive v false
  | .UseCooldown x1 x2 => do
      let b2 ← encodeOption encStringElem x2
      some ((encodeF32 x1) ++ b2)
  | .DamageResistant x1 => some ((encodeString x1))
  | .Tool x1 x2 x3 x4 => do
      let b1 ← encodeVec encToolRuleElem x1
      some (b1 ++ (encodeF32 x2) ++ (encodeVarInt x3) ++ (encodeBool x4))
  | .Weapon x1 x2 => some ((encodeVarInt x1) ++ (encodeF32 x2))
  | .Enchantable x1 => some ((encodeVarInt x1))
  | .Equippable x1 x2 x3 x4 x5 x6 x7 x8 => do
      let b2 ← encodeIdOrSound x2
      let b3 ← encodeOption encStringElem x3
      let b4 ← encodeOption encStringElem x4
      let b5 ← encodeOption (fun s => some (encodeIDSet s)) x5
      some ((encodeFin x1) ++ b2 ++ b3 ++ b4 ++ b5 ++ (encodeBool x6) ++ (encodeBool x7) ++ (encodeBool x8))
  | .Repairable x1 => some ((encodeIDSet x1))
  | .Glider => some []
  | .TooltipStyle x1 => some ((encodeString x1))
  | .DeathProtection x1 => do
      let b1 ← encodeVec encConsumeEffectElem x1
      some (b1)
  | .BlocksAttacks x1 x2 x3 x4 x5 x6 x7 x8 x9 => do
      let b3 ← encodeVec encDamageReductionElem x3
      let b7 ← encodeOption encStringElem x7
      let b8 ← encodeOption encodeIdOrSound x8
      let b9 ← encodeOption encodeIdOrSound x9
      some ((encodeF32 x1) ++ (encodeF32 x2) ++ b3 ++ (encodeF32 x4) ++ (encodeF32 x5) ++ (encodeF32 x6) ++ b7 ++ b8 ++ b9)
  | .StoredEnchantments x1 x2 => do
      let b1 ← encodeVec encDrpPair x1
      some (b1 ++ (encodeBool x2))
  | .DyedColor x1 x2 => some ((encodeI32 x1) ++ (encodeBool x2))
  | .MapColor x1 => some ((encodeI32 x1))
  | .MapId x1 => some ((encodeVarInt x1))
  | .MapDecorations x1 => some ((encodeCompound x1))
  | .MapPostProcessing x1 => some ((encodeFin x1))
  | .ChargedProjectiles v => do
      let body ← encodeStackList v
      some (encodeVarInt (v.length : Int) ++ body)
  | .BundleContents v => do
      let body ← encodeStackList v
      some (encodeVarInt (v.length : Int) ++ body)
  | .PotionContents x1 x2 x3 x4 => do
      let b1 ← encodeOption encVarIntElem x1
      let b2 ← encodeOption encodeI32Elem x2
      let b3 ← encodeVec encodePotionEffectElem x3
      let b4 ← encodeOption encStringElem x4
      some (b1 ++ b2 ++ b3 ++ b4)
  | .PotionDurationScale x1 => some ((encodeF32 x1))
  | .SuspiciousStewEffects x1 => do
      let b1 ← encodeVec encIntPair x1
      some (b1)
  | .WritableBookContent x1 => do
      let b1 ← encodeVec encWritablePageElem x1
      some (b1)
  | .WrittenBookContent x1 x2 x3 x4 x5 x6 => do
      let b2 ← encodeOption encStringElem x2
      let b5 ← encodeVec encWrittenPageElem x5
      some ((encodeString x1) ++ b2 ++ (encodeString x3) ++ (encodeVarInt x4) ++ b5 ++ (encodeBool x6))
  | .Trim x1 x2 x3 => do
      let b1 ← encodeIdOr encodeTrimMaterial x1
      let b2 ← encodeIdOr encodeTrimPattern x2
      some (b1 ++ b2 ++ (encodeBool x3))
  | .DebugStickState x1 => some ((encodeCompound x1))
  | .EntityData x1 x2 => some ((encodeVarInt x1) ++ (encodeCompound x2))
  | .BucketEntityData x1 => some ((encodeCompound x1))
  | .BlockEntityData x1 x2 => some ((encodeVarInt x1) ++ (encodeCompound x2))
  | .Instrument x1 => do
      let b1 ← encodeIdOr encodeInstrumentDefinition x1
      some (b1)
  | .ProvidesTrimMaterial x1 => do
      let b1 ← encodeModePair encStringElem (encodeIdOr encodeTrimMaterial) x1
      some (b1)
  | .OminousBottleAmplifier x1 => some ((encodeVarInt x1))
  | .JukeboxPlayable x1 x2 => do
      let b1 ← encodeModePair encStringElem (encodeIdOr encodeJukeboxSong) x1
      some (b1 ++ (encodeBool x2))
  | .ProvidesBannerPatterns x1 => some ((encodeString x1))
  | .Recipes x1 => some ((encodeCompound x1))
  | .LodestoneTracker x1 x2 => do
      let b1 ← encodeOption (fun t => some (encodeLodestoneTarget t)) x1
      some (b1 ++ (encodeBool x2))
  | .FireworkExplosion x1 => do
      let b1 ← encodeFireworkExplosionData x1
      some (b1)
  | .Fireworks x1 x2 => do
      let b2 ← encodeVec encFireworkExplosionElem x2
      some ((encodeVarInt x1) ++ b2)
  | .Profile x1 => do
      let b1 ← encodeResolvableProfile x1
      some (b1)
  | .NoteBlockSound x1 => some ((encodeString x1))
  | .BannerPatterns x1 => do
      let b1 ← encodeVec encBannerLayerElem x1
      some (b1)
  | .BaseColor x1 => some ((encodeVarInt x1))
  | .PotDecorations x1 => do
      let b1 ← encodeVec encVarIntElem x1
      some (b1)
  | .Container v => do
      let body ← encodeStackList v
      some (encodeVarInt (v.length : Int) ++ body)
  | .BlockState x1 => do
      let b1 ← encodeVec encodeStringPair x1
      some (b1)
  | .Bees x1 => do
      let b1 ← encodeVec encBeeDataElem x1
      some (b1)
  | .Lock x1 => some ((encodeString x1))
  | .ContainerLoot x1 => some ((encodeCompound x1))
  | .BreakSound x1 => do
      let b1 ← encodeIdOrSound x1
      some (b1)
  | .VillagerVariant x1 => some ((encodeDynamicRegistryPlaceholder x1))
  | .WolfVariant x1 => some ((encodeDynamicRegistryPlaceholder x1))
  | .WolfSoundVariant x1 => some ((encodeDynamicRegistryPlaceholder x1))
  | .WolfCollar x1 => some ((encodeFin x1))
  | .FoxVariant x1 => some ((encodeFin x1))
  | .SalmonSize x1 => some ((encodeFin x1))
  | .ParrotVariant x1 => some ((encodeFin x1))
  | .TropicalFishPatternComp x1 => some ((encodeFin x1))
  | .TropicalFishBaseColor x1 => some ((encodeFin x1))
  | .TropicalFishPatternColor x1 => some ((encodeFin x1))
  | .MooshroomVariant x1 => some ((encodeFin x1))
  | .RabbitVariant x1 => some ((encodeFin x1))
  | .PigVariant x1 => some ((encodeDynamicRegistryPlaceholder x1))
  | .CowVariant x1 => some ((encodeDynamicRegistryPlaceholder x1))
  | .ChickenVariant x1 => do
      let b1 ← encodeModePair encStringElem (fun v => some (encodeRegistryId v)) x1
      some (b1)
  | .FrogVariant x1 => some ((encodeDynamicRegistryPlaceholder x1))
  | .HorseVariant x1 => some ((encodeFin x1))
  | .PaintingVariant x1 => do
      let b1 ← encodeIdOr (fun v => some (encodePaintingVariantDefinition v)) x1
      some (b1)
  | .LlamaVariant x1 => some ((encodeFin x1))
  | .AxolotlVariant x1 => some ((encodeFin x1))
  | .CatVariant x1 => some ((encodeDynamicRegistryPlaceholder x1))
  | .CatCollar x1 => some ((encodeFin x1))
  | .SheepColor x1 => some ((encodeFin x1))
  | .ShulkerColor x1 => some ((encodeFin x1))



/-- Vec of ItemStack payloads: each element in the nested (non-prefixed)
stack format. -/
def encodeStackList : List ItemStack → Option (List Nat)
  | [] => some []
  | s :: rest => do
      let b ← ItemStack.encode_recursive s false
      let t ← encodeStackList rest
      some (b ++ t)

def encodePredList : List BlockPredicate → Option (List Nat)
  | [] => some []
  | p :: rest => do
      let b ← BlockPredicate.encode p
      let t ← encodePredList rest
      some (b ++ t)

def encodeMatcherList : List ExactComponentMatcher → Option (List Nat)
  | [] => some []
  | .mk t d :: rest => do
      let pd ← ItemComponent.encode d
      let tl ← encodeMatcherList rest
      some (encodeVarInt t ++ pd ++ tl)

/-- From components.rs derive(Encode) for BlockPredicate: the five fields in
declaration order. -/
def BlockPredicate.encode : BlockPredicate → Option (List Nat)
  | .mk blocks properties nbt exact partials => do
      let bb ← encodeOption (fun s => some (encodeIDSet s)) blocks
      let pb ← encodeOption (fun l => encodeVec (fun p => some (encodeProperty p)) l)
        properties
      let nb ← encodeOption (fun c => some (encodeCompound c)) nbt
      let eb ← encodeMatcherList exact
      let cb ← encodeVec (fun m => some (encodePartialComponentMatcher m)) partials
      some (bb ++ pb ++ nb ++ encodeVarInt (exact.length : Int) ++ eb ++ cb)

/-- The added-components loop of stack.rs encode_recursive: for each Added
cell, the component id, then (in the prefixed variant) the payload byte
length, then the payload. -/
def encodeAddedFrom (prefixed : Bool) (i : Nat) :
    List (Patchable ItemComponent) → Option (List Nat)
  | [] => some []
  | .Added c _ :: rest => do
      let payload ← ItemComponent.encode c
      let tail ← encodeAddedFrom prefixed (i + 1) rest
      some (encodeVarInt (i : Int) ++
        (if prefixed then encodeVarInt (payload.length : Int) ++ payload else payload) ++
        tail)
  | _ :: rest => encodeAddedFrom prefixed (i + 1) rest

/-- From stack.rs ItemStack::encode_recursive: an empty stack writes the
single VarInt 0; otherwise count, item, the added and removed counts, the
added entries, then the removed ids. -/
def ItemStack.encode_recursive : ItemStack → Bool → Option (List Nat)
  | .mk item count comps, prefixed =>
      if (ItemStack.mk item count comps).is_empty then some (encodeVarInt 0)
      else do
        let body ← encodeAddedFrom prefixed 0 comps
        some (encodeVarInt count ++ encodeItemKind item ++
          encodeVarInt ((collectAdded 0 comps).length : Int) ++
          encodeVarInt ((collectRemoved 0 comps).length : Int) ++
          body ++ encodeRemovedIds (collectRemoved 0 comps))

end

/-- The removed-components loop of impls.rs decode_item_stack_recursive:
reads ids (usize cast), validating each against NUM_ITEM_COMPONENTS. -/
def decodeRemovedComponents : Nat → List (Patchable ItemComponent) →
    Dec (List (Patchable ItemComponent))
  | 0, comps => fun bs => .ok (comps, bs)
  | n + 1, comps => fun bs => do
      let (idv, r1) ← dVarInt bs
      if NUM_ITEM_COMPONENTS ≤ usizeOfInt idv then .error .invalidComponentId
      else decodeRemovedComponents n (comps.set (usizeOfInt idv) Patchable.Removed) r1

mutual

/-- From impls.rs decode_item_stack_recursive.  The Nat fuel is an artifact
of the embedding: the source recursion terminates because every call
consumes input bytes, and any sufficiently large fuel yields the source
behavior (theorems hold for every sufficient fuel). -/
def decode_item_stack_recursive : Nat → Nat → Bool → Dec ItemStack
  | 0, _, _ => fun _ => .error .malformed
  | fuel + 1, depth, prefixed => fun bs =>
      if depth > MAX_RECURSION_DEPTH then .error .recursionLimit
      else do
        let (count, r1) ← dVarInt bs
        if count ≤ 0 then .ok (ItemStack.EMPTY, r1)
        else do
          let (item, r2) ← dItemKind r1
          let (added_count, r3) ← dVarInt r2
          let (removed_count, r4) ← dVarInt r3
          let (comps, r5) ← decodeAddedComponents fuel added_count.toNat depth prefixed
            (ItemKind.default_components item) r4
          let (comps2, r6) ← decodeRemovedComponents removed_count.toNat comps r5
          .ok (.mk item (i8ofInt count) comps2, r6)

/-- The added-components loop of impls.rs decode_item_stack_recursive: id
(usize cast, validated), optional length prefix (skipped), payload, stored
with the recomputed content hash. -/
def decodeAddedComponents : Nat → Nat → Nat → Bool →
    List (Patchable ItemComponent) → Dec (List (Patchable ItemComponent))
  | 0, _, _, _, _ => fun _ => .error .malformed
  | _ + 1, 0, _, _, comps => fun bs => .ok (comps, bs)
  | fuel + 1, n + 1, depth, prefixed, comps => fun bs => do
      let (idv, r1) ← dVarInt bs
      if NUM_ITEM_COMPONENTS ≤ usizeOfInt idv then .error .invalidComponentId
      else do
        let r2 ← (if prefixed then do
            let (_, rr) ← dVarInt r1
            .ok rr
          else (.ok r1 : Except DecErr (List Nat)))
        let (c, r3) ← decode_item_component fuel (usizeOfInt idv) depth r2
        decodeAddedComponents fuel n depth prefixed
          (comps.set (usizeOfInt idv) (.Added c c.hash)) r3

/-- From impls.rs decode_item_component: the flat 96-way dispatch on the
component id; an unrecognized id is a hard decode error. -/
def decode_item_component : Nat → Nat → Nat → Dec ItemComponent
  | 0, _, _ => fun _ => .error .malformed
  | fuel + 1, id, depth => fun bs =>
      match id with
      | 0 => do
          let (x1, r1) ← dCompound bs
          .ok (.CustomData x1, r1)
      | 1 => do
          let (x1, r1) ← dVarInt bs
          .ok (.MaxStackSize x1, r1)
      | 2 => do
          let (x1, r1) ← dVarInt bs
          .ok (.MaxDamage x1, r1)
      | 3 => do
          let (x1, r1) ← dVarInt bs
          .ok (.Damage x1, r1)
      | 4 => .ok (.Unbreakable, bs)
      | 5 => do
          let (x1, r1) ← dTextComponent bs
          .ok (.CustomName x1, r1)
      | 6 => do
          let (x1, r1) ← dTextComponent bs
          .ok (.ItemName x1, r1)
      | 7 => do
          let (x1, r1) ← dString bs
          .ok (.ItemModel x1, r1)
      | 8 => do
          let (x1, r1) ← dVec dTextComponent bs
          .ok (.Lore x1, r1)
      | 9 => do
          let (x1, r1) ← dFin 4 bs
          .ok (.Rarity x1, r1)
      | 10 => do
          let (x1, r1) ← dVec dDrpPair bs
          .ok (.Enchantments x1, r1)
      | 11 => do
          let (count, r1) ← dVarInt bs
          let (items, r2) ← decodePredList fuel count.toNat depth r1
          .ok (.CanPlaceOn items, r2)
      | 12 => do
          let (count, r1) ← dVarInt bs
          let (items, r2) ← decodePredList fuel count.toNat depth r1
          .ok (.CanBreak items, r2)
      | 13 => do
          let (x1, r1) ← dVec dAttributeModifier bs
          .ok (.AttributeModifiers x1, r1)
      | 14 => do
          let (x1, r1) ← dVec dF32 bs
          let (x2, r2) ← dVec dBool r1
          let (x3, r3) ← dVec dString r2
          let (x4, r4) ← dVec dI32 r3
          .ok (.CustomModelData x1 x2 x3 x4, r4)
      | 15 => do
          let (x1, r1) ← dBool bs
          let (x2, r2) ← dVec dVarInt r1
          .ok (.TooltipDisplay x1 x2, r2)
      | 16 => do
          let (x1, r1) ← dVarInt bs
          .ok (.RepairCost x1, r1)
      | 17 => .ok (.CreativeSlotLock, bs)
      | 18 => do
          let (x1, r1) ← dBool bs
          .ok (.EnchantmentGlintOverride x1, r1)
      | 19 => do
          let (x1, r1) ← dCompound bs
          .ok (.IntangibleProjectile x1, r1)
      | 20 => do
          let (x1, r1) ← dVarInt bs
          let (x2, r2) ← dF32 r1
          let (x3, r3) ← dBool r2
          .ok (.Food x1 x2 x3, r3)
      | 21 => do
          let (x1, r1) ← dF32 bs
          let (x2, r2) ← dFin 10 r1
          let (x3, r3) ← dIdOrSound r2
          let (x4, r4) ← dBool r3
          let (x5, r5) ← dVec dConsumeEffect r4
          .ok (.Consumable x1 x2 x3 x4 x5, r5)
      | 22 => do
          let (s, r1) ← decode_item_stack_recursive fuel (depth + 1) false bs
          .ok (.UseRemainder s, r1)
      | 23 => do
          let (x1, r1) ← dF32 bs
          let (x2, r2) ← dOption dString r1
          .ok (.UseCooldown x1 x2, r2)
      | 24 => do
          let (x1, r1) ← dString bs
          .ok (.DamageResistant x1, r1)
      | 25 => do
          let (x1, r1) ← dVec dToolRule bs
          let (x2, r2) ← dF32 r1
          let (x3, r3) ← dVarInt r2
          let (x4, r4) ← dBool r3
          .ok (.Tool x1 x2 x3 x4, r4)
      | 26 => do
          let (x1, r1) ← dVarInt bs
          let (x2, r2) ← dF32 r1
          .ok (.Weapon x1 x2, r2)
      | 27 => do
          let (x1, r1) ← dVarInt bs
          .ok (.Enchantable x1, r1)
      | 28 => do
          let (x1, r1) ← dFin 7 bs
          let (x2, r2) ← dIdOrSound r1
          let (x3, r3) ← dOption dString r2
          let (x4, r4) ← dOption dString r3
          let (x5, r5) ← dOption dIDSet r4
          let (x6, r6) ← dBool r5
          let (x7, r7) ← dBool r6
          let (x8, r8) ← dBool r7
          .ok (.Equippable x1 x2 x3 x4 x5 x6 x7 x8, r8)
      | 29 => do
          let (x1, r1) ← dIDSet bs
          .ok (.Repairable x1, r1)
      | 30 => .ok (.Glider, bs)
      | 31 => do
          let (x1, r1) ← dString bs
          .ok (.TooltipStyle x1, r1)
      | 32 => do
          let (x1, r1) ← dVec dConsumeEffect bs
          .ok (.DeathProtection x1, r1)
      | 33 => do
          let (x1, r1) ← dF32 bs
          let (x2, r2) ← dF32 r1
          let (x3, r3) ← dVec dDamageReduction r2
          let (x4, r4) ← dF32 r3
          let (x5, r5) ← dF32 r4
          let (x6, r6) ← dF32 r5
          let (x7, r7) ← dOption dString r6
          let (x8, r8) ← dOption dIdOrSound r7
          let (x9, r9) ← dOption dIdOrSound r8
          .ok (.BlocksAttacks x1 x2 x3 x4 x5 x6 x7 x8 x9, r9)
      | 34 => do
          let (x1, r1) ← dVec dDrpPair bs
          let (x2, r2) ← dBool r1
          .ok (.StoredEnchantments x1 x2, r2)
      | 35 => do
          let (x1, r1) ← dI32 bs
          let (x2, r2) ← dBool r1
          .ok (.DyedColor x1 x2, r2)
      | 36 => do
          let (x1, r1) ← dI32 bs
          .ok (.MapColor x1, r1)
      | 37 => do
          let (x1, r1) ← dVarInt bs
          .ok (.MapId x1, r1)
      | 38 => do
          let (x1, r1) ← dCompound bs
          .ok (.MapDecorations x1, r1)
      | 39 => do
          let (x1, r1) ← dFin 2 bs
          .ok (.MapPostProcessing x1, r1)
      | 40 => do
          let (count, r1) ← dVarInt bs
          let (items, r2) ← decodeStackList fuel count.toNat (depth + 1) r1
          .ok (.ChargedProjectiles items, r2)
      | 41 => do
          let (count, r1) ← dVarInt bs
          let (items, r2) ← decodeStackList fuel count.toNat (depth + 1) r1
          .ok (.BundleContents items, r2)
      | 42 => do
          let (x1, r1) ← dOption dVarInt bs
          let (x2, r2) ← dOption dI32 r1
          let (x3, r3) ← dVec dPotionEffect r2
          let (x4, r4) ← dOption dString r3
          .ok (.PotionContents x1 x2 x3 x4, r4)
      | 43 => do
          let (x1, r1) ← dF32 bs
          .ok (.PotionDurationScale x1, r1)
      | 44 => do
          let (x1, r1) ← dVec dIntPair bs
          .ok (.SuspiciousStewEffects x1, r1)
      | 45 => do
          let (x1, r1) ← dVec dWritablePage bs
          .ok (.WritableBookContent x1, r1)
      | 46 => do
          let (x1, r1) ← dString bs
          let (x2, r2) ← dOption dString r1
          let (x3, r3) ← dString r2
          let (x4, r4) ← dVarInt r3
          let (x5, r5) ← dVec dWrittenPage r4
          let (x6, r6) ← dBool r5
          .ok (.WrittenBookContent x1 x2 x3 x4 x5 x6, r6)
      | 47 => do
          let (x1, r1) ← dIdOr dTrimMaterial bs
          let (x2, r2) ← dIdOr dTrimPattern r1
          let (x3, r3) ← dBool r2
          .ok (.Trim x1 x2 x3, r3)
      | 48 => do
          let (x1, r1) ← dCompound bs
          .ok (.DebugStickState x1, r1)
      | 49 => do
          let (x1, r1) ← dVarInt bs
          let (x2, r2) ← dCompound r1
          .ok (.EntityData x1 x2, r2)
      | 50 => do
          let (x1, r1) ← dCompound bs
          .ok (.BucketEntityData x1, r1)
      | 51 => do
          let (x1, r1) ← dVarInt bs
          let (x2, r2) ← dCompound r1
          .ok (.BlockEntityData x1 x2, r2)
      | 52 => do
          let (x1, r1) ← dIdOr dInstrumentDefinition bs
          .ok (.Instrument x1, r1)
      | 53 => do
          let (x1, r1) ← dModePair dString (dIdOr dTrimMaterial) bs
          .ok (.ProvidesTrimMaterial x1, r1)
      | 54 => do
          let (x1, r1) ← dVarInt bs
          .ok (.OminousBottleAmplifier x1, r1)
      | 55 => do
          let (x1, r1) ← dModePair dString (dIdOr dJukeboxSong) bs
          let (x2, r2) ← dBool r1
          .ok (.JukeboxPlayable x1 x2, r2)
      | 56 => do
          let (x1, r1) ← dString bs
          .ok (.ProvidesBannerPatterns x1, r1)
      | 57 => do
          let (x1, r1) ← dCompound bs
          .ok (.Recipes x1, r1)
      | 58 => do
          let (x1, r1) ← dOption dLodestoneTarget bs
          let (x2, r2) ← dBool r1
          .ok (.LodestoneTracker x1 x2, r2)
      | 59 => do
          let (x1, r1) ← dFireworkExplosionData bs
          .ok (.FireworkExplosion x1, r1)
      | 60 => do
          let (x1, r1) ← dVarInt bs
          let (x2, r2) ← dVec dFireworkExplosionData r1
          .ok (.Fireworks x1 x2, r2)
      | 61 => do
          let (x1, r1) ← dResolvableProfile bs
          .ok (.Profile x1, r1)
      | 62 => do
          let (x1, r1) ← dString bs
          .ok (.NoteBlockSound x1, r1)
      | 63 => do
          let (x1, r1) ← dVec dBannerLayer bs
          .ok (.BannerPatterns x1, r1)
      | 64 => do
          let (x1, r1) ← dVarInt bs
          .ok (.BaseColor x1, r1)
      | 65 => do
          let (x1, r1) ← dVec dVarInt bs
          .ok (.PotDecorations x1, r1)
      | 66 => do
          let (count, r1) ← dVarInt bs
          let (items, r2) ← decodeStackList fuel count.toNat (depth + 1) r1
          .ok (.Container items, r2)
      | 67 => do
          let (x1, r1) ← dVec dStringPair bs
          .ok (.BlockState x1, r1)
      | 68 => do
          let (x1, r1) ← dVec dBeeData bs
          .ok (.Bees x1, r1)
      | 69 => do
          let (x1, r1) ← dString bs
          .ok (.Lock x1, r1)
      | 70 => do
          let (x1, r1) ← dCompound bs
          .ok (.ContainerLoot x1, r1)
      | 71 => do
          let (x1, r1) ← dIdOrSound bs
          .ok (.BreakSound x1, r1)
      | 72 => do
          let (x1, r1) ← dDynamicRegistryPlaceholder bs
          .ok (.VillagerVariant x1, r1)
      | 73 => do
          let (x1, r1) ← dDynamicRegistryPlaceholder bs
          .ok (.WolfVariant x1, r1)
      | 74 => do
          let (x1, r1) ← dDynamicRegistryPlaceholder bs
          .ok (.WolfSoundVariant x1, r1)
      | 75 => do
          let (x1, r1) ← dFin 16 bs
          .ok (.WolfCollar x1, r1)
      | 76 => do
          let (x1, r1) ← dFin 2 bs
          .ok (.FoxVariant x1, r1)
      | 77 => do
          let (x1, r1) ← dFin 3 bs
          .ok (.SalmonSize x1, r1)
      | 78 => do
          let (x1, r1) ← dFin 5 bs
          .ok (.ParrotVariant x1, r1)
      | 79 => do
          let (x1, r1) ← dFin 12 bs
          .ok (.TropicalFishPatternComp x1, r1)
      | 80 => do
          let (x1, r1) ← dFin 16 bs
          .ok (.TropicalFishBaseColor x1, r1)
      | 81 => do
          let (x1, r1) ← dFin 16 bs
          .ok (.TropicalFishPatternColor x1, r1)
      | 82 => do
          let (x1, r1) ← dFin 2 bs
          .ok (.MooshroomVariant x1, r1)
      | 83 => do
          let (x1, r1) ← dFin 7 bs
          .ok (.RabbitVariant x1, r1)
      | 84 => do
          let (x1, r1) ← dDynamicRegistryPlaceholder bs
          .ok (.PigVariant x1, r1)
      | 85 => do
          let (x1, r1) ← dDynamicRegistryPlaceholder bs
          .ok (.CowVariant x1, r1)
      | 86 => do
          let (x1, r1) ← dModePair dString dRegistryId bs
          .ok (.ChickenVariant x1, r1)
      | 87 => do
          let (x1, r1) ← dDynamicRegistryPlaceholder bs
          .ok (.FrogVariant x1, r1)
      | 88 => do
          let (x1, r1) ← dFin 7 bs
          .ok (.HorseVariant x1, r1)
      | 89 => do
          let (x1, r1) ← dIdOr dPaintingVariantDefinition bs
          .ok (.PaintingVariant x1, r1)
      | 90 => do
          let (x1, r1) ← dFin 4 bs
          .ok (.LlamaVariant x1, r1)
      | 91 => do
          let (x1, r1) ← dFin 5 bs
          .ok (.AxolotlVariant x1, r1)
      | 92 => do
          let (x1, r1) ← dDynamicRegistryPlaceholder bs
          .ok (.CatVariant x1, r1)
      | 93 => do
          let (x1, r1) ← dFin 16 bs
          .ok (.CatCollar x1, r1)
      | 94 => do
          let (x1, r1) ← dFin 16 bs
          .ok (.SheepColor x1, r1)
      | 95 => do
          let (x1, r1) ← dFin 16 bs
          .ok (.ShulkerColor x1, r1)
      | _ => .error .unknownComponentId

/-- From impls.rs decode_block_predicate; the exact-component matchers
recurse into the component decoder at depth + 1. -/
def decode_block_predicate : Nat → Nat → Dec BlockPredicate
  | 0, _ => fun _ => .error .malformed
  | fuel + 1, depth => fun bs => do
      let (blocks, r1) ← dOption dIDSet bs
      let (properties, r2) ← dOption (dVec dProperty) r1
      let (nbt, r3) ← dOption dCompound r2
      let (len, r4) ← dVarInt r3
      let (exact, r5) ← decodeExactList fuel (usizeOfInt len) depth r4
      let (partials, r6) ← dVec dPartialComponentMatcher r5
      .ok (.mk blocks properties nbt exact partials, r6)

def decodeExactList : Nat → Nat → Nat → Dec (List ExactComponentMatcher)
  | 0, _, _ => fun _ => .error .malformed
  | _ + 1, 0, _ => fun bs => .ok ([], bs)
  | fuel + 1, n + 1, depth => fun bs => do
      let (ty, r1) ← dVarInt bs
      let (data, r2) ← decode_item_component fuel (usizeOfInt ty) (depth + 1) r1
      let (rest2, r3) ← decodeExactList fuel n depth r2
      .ok (.mk ty data :: rest2, r3)

def decodeStackList : Nat → Nat → Nat → Dec (List ItemStack)
  | 0, _, _ => fun _ => .error .malformed
  | _ + 1, 0, _ => fun bs => .ok ([], bs)
  | fuel + 1, n + 1, depth => fun bs => do
      let (s, r1) ← decode_item_stack_recursive fuel depth false bs
      let (rest2, r2) ← decodeStackList fuel n depth r1
      .ok (s :: rest2, r2)

def decodePredList : Nat → Nat → Nat → Dec (List BlockPredicate)
  | 0, _, _ => fun _ => .error .malformed
  | _ + 1, 0, _ => fun bs => .ok ([], bs)
  | fuel + 1, n + 1, depth => fun bs => do
      let (p, r1) ← decode_block_predicate fuel depth bs
      let (rest2, r2) ← decodePredList fuel n depth r1
      .ok (p :: rest2, r2)

end

/-- Canonical wire equality: two stacks are canonically equal when their
canonical (non-prefixed) wire encodings coincide. -/
def ItemStack.wireCanonEq (a b : ItemStack) : Prop :=
  a.encode_recursive false = b.encode_recursive false

/-- Modelled from the spec: the click-mode enum of the click packet. -/
inductive ClickMode : Type where
  | Click
  | ShiftClick
  | Hotbar
  | CreativeMiddleClick
  | DropKey
  | Drag
  | DoubleClick
deriving DecidableEq

/-- Modelled from the spec: one claimed slot change, an index (an i16 on
the wire) together with the claimed new stack. -/
structure SlotChange : Type where
  idx : Int
  stack : ItemStack

/-- Modelled from the spec: the parsed click description. -/
structure ContainerClickC2s : Type where
  window_id : Int
  state_id : Int
  slot_idx : Int
  button : Int
  mode : ClickMode
  slot_changes : List SlotChange
  carried_item : ItemStack

/-- Modelled from the spec: slot storage exposing the authoritative current
stack at each window slot index. -/
structure InventoryWindow : Type where
  slot : Nat → ItemStack

/-- Modelled from the spec: the cursor item is a stack. -/
abbrev CursorItem : Type := ItemStack

/-- From validate.rs calculate_net_item_delta: the signed contribution of
one old/new stack pair (the same four-way match is used for the slots and
for the cursor). -/
def stackPairDelta (old_slot new_slot : ItemStack) : Int :=
  match !old_slot.is_empty, !new_slot.is_empty with
  | true, true => new_slot.count - old_slot.count
  | true, false => -old_slot.count
  | false, true => new_slot.count
  | false, false => 0

/-- From validate.rs calculate_net_item_delta: the slot loop contribution
for one claimed change (the i16 index is reinterpreted as a u16). -/
def slotDelta (window : InventoryWindow) (s : SlotChange) : Int :=
  stackPairDelta (window.slot (u16ofInt s.idx)) s.stack

/-- From validate.rs calculate_net_item_delta: slot-loop sum plus the
cursor-versus-carried contribution. -/
def calculate_net_item_delta (packet : ContainerClickC2s)
    (window : InventoryWindow) (cursor_item : CursorItem) : Int :=
  (packet.slot_changes.foldl (fun acc s => acc + slotDelta window s) 0) +
    stackPairDelta cursor_item packet.carried_item

/-- From validate.rs: the per-mode button/carried/slot-index preconditions
checked before the conservation block. -/
def modePreambleOk (packet : ContainerClickC2s) (max_slot : Nat) : Bool :=
  match packet.mode with
  | .Click =>
      (decide (0 ≤ packet.button) && decide (packet.button ≤ 1)) &&
      (decide (u16ofInt packet.slot_idx ≤ max_slot) ||
        decide (packet.slot_idx = -999) || decide (packet.slot_idx = -1))
  | .ShiftClick =>
      (decide (0 ≤ packet.button) && decide (packet.button ≤ 1)) &&
      packet.carried_item.is_empty &&
      decide (u16ofInt packet.slot_idx ≤ max_slot)
  | .Hotbar =>
      ((decide (0 ≤ packet.button) && decide (packet.button ≤ 8)) ||
        decide (packet.button = 40)) &&
      packet.carried_item.is_empty
  | .CreativeMiddleClick =>
      decide (packet.button = 2) &&
      decide (u16ofInt packet.slot_idx ≤ max_slot)
  | .DropKey =>
      (decide (0 ≤ packet.button) && decide (packet.button ≤ 1)) &&
      packet.carried_item.is_empty &&
      (decide (u16ofInt packet.slot_idx ≤ max_slot) ||
        decide (packet.slot_idx = -999))
  | .Drag =>
      ((decide (0 ≤ packet.button) && decide (packet.button ≤ 2)) ||
        (decide (4 ≤ packet.button) && decide (packet.button ≤ 6)) ||
        (decide (8 ≤ packet.button) && decide (packet.button ≤ 10))) &&
      (decide (u16ofInt packet.slot_idx ≤ max_slot) ||
        decide (packet.slot_idx = -999))
  | .DoubleClick => decide (packet.button = 0)

/-- From validate.rs: the swap-versus-merge discriminator of a plain click
on a real slot (button 0 and a swap-shaped old-slot/cursor pair). -/
def clickShouldSwap (maxStack : ItemKind → Int) (packet : ContainerClickC2s)
    (window : InventoryWindow) (cursor_item : CursorItem) : Bool :=
  decide (packet.button = 0) &&
    (let old_slot := window.slot
      (u16ofInt (packet.slot_changes.headD ⟨0, ItemStack.EMPTY⟩).idx)
     match !old_slot.is_empty, !cursor_item.is_empty with
     | true, true => !decide (old_slot.item = cursor_item.item)
     | true, false => true
     | false, true => decide (cursor_item.count ≤ maxStack cursor_item.item)
     | false, false => false)

/-- From validate.rs: the no-transmutation discriminator of the drop-key
arm. -/
def dropIsTransmuting (old_slot new_slot : ItemStack) : Bool :=
  match !old_slot.is_empty, !new_slot.is_empty with
  | true, true => !decide (old_slot.item = new_slot.item)
  | _, false => false
  | false, true => true

/-- From validate.rs: the swap-shape check of the hotbar arm: the claimed
change reproduces one of the two pre-click stacks (kind and count). -/
def hotbarMatchesOld (o0 o1 claimed : ItemStack) : Bool :=
  (decide (o0.item = claimed.item) && decide (o0.count = claimed.count)) ||
    (decide (o1.item = claimed.item) && decide (o1.count = claimed.count))

/-- From validate.rs: the conservation ("no duplication") block, one arm
per mode.  The source's unreachable button arms (ruled out by the
preamble) are rendered as the constant 0 expected delta. -/
def conservationOk (maxStack : ItemKind → Int) (packet : ContainerClickC2s)
    (window : InventoryWindow) (cursor_item : CursorItem) : Bool :=
  match packet.mode with
  | .Click =>
      if packet.slot_idx = -1 then
        packet.slot_changes.isEmpty &&
          decide (calculate_net_item_delta packet window cursor_item = 0)
      else if packet.slot_idx = -999 then
        packet.slot_changes.isEmpty &&
          decide (calculate_net_item_delta packet window cursor_item =
            (if packet.button = 1 then -1
             else if packet.button = 0 then
               (if !cursor_item.is_empty then -cursor_item.count else 0)
             else 0))
      else if packet.slot_changes.isEmpty then
        decide (calculate_net_item_delta packet window cursor_item = 0)
      else
        decide (packet.slot_changes.length = 1) &&
        (if clickShouldSwap maxStack packet window cursor_item then
           decide ((window.slot (u16ofInt
               (packet.slot_changes.headD ⟨0, ItemStack.EMPTY⟩).idx)).item =
             packet.carried_item.item) &&
           decide ((window.slot (u16ofInt
               (packet.slot_changes.headD ⟨0, ItemStack.EMPTY⟩).idx)).count =
             packet.carried_item.count) &&
           decide (cursor_item.item =
             (packet.slot_changes.headD ⟨0, ItemStack.EMPTY⟩).stack.item) &&
           decide (cursor_item.count =
             (packet.slot_changes.headD ⟨0, ItemStack.EMPTY⟩).stack.count)
         else
           decide (calculate_net_item_delta packet window cursor_item = 0))
  | .ShiftClick =>
      if packet.slot_changes.isEmpty then
        decide (calculate_net_item_delta packet window cursor_item = 0)
      else
        decide (2 ≤ packet.slot_changes.length) &&
        decide (packet.slot_changes.length ≤ 3) &&
        decide (calculate_net_item_delta packet window cursor_item = 0) &&
        (match packet.slot_changes.find? (fun s => !s.stack.is_empty) with
         | none => false
         | some s =>
             decide ((window.slot (u16ofInt packet.slot_idx)).item =
               s.stack.item) &&
             (packet.slot_changes.filter (fun s2 => !s2.stack.is_empty)).all
               (fun s2 => decide (s2.stack.item = s.stack.item)))
  | .Hotbar =>
      if packet.slot_changes.isEmpty then
        decide (calculate_net_item_delta packet window cursor_item = 0)
      else
        decide (packet.slot_changes.length = 2) &&
        decide (calculate_net_item_delta packet window cursor_item = 0) &&
        (hotbarMatchesOld
          (window.slot (u16ofInt
            (packet.slot_changes.getD 0 ⟨0, ItemStack.EMPTY⟩).idx))
          (window.slot (u16ofInt
            (packet.slot_changes.getD 1 ⟨0, ItemStack.EMPTY⟩).idx))
          (packet.slot_changes.getD 0 ⟨0, ItemStack.EMPTY⟩).stack &&
         hotbarMatchesOld
          (window.slot (u16ofInt
            (packet.slot_changes.getD 0 ⟨0, ItemStack.EMPTY⟩).idx))
          (window.slot (u16ofInt
            (packet.slot_changes.getD 1 ⟨0, ItemStack.EMPTY⟩).idx))
          (packet.slot_changes.getD 1 ⟨0, ItemStack.EMPTY⟩).stack)
  | .CreativeMiddleClick => true
  | .DropKey =>
      if packet.slot_changes.isEmpty then
        decide (calculate_net_item_delta packet window cursor_item = 0)
      else
        decide (packet.slot_changes.length = 1) &&
        decide (packet.slot_idx =
          (match packet.slot_changes.head? with
           | some s => s.idx
           | none => -2)) &&
        !(dropIsTransmuting (window.slot (u16ofInt packet.slot_idx))
            (packet.slot_changes.headD ⟨0, ItemStack.EMPTY⟩).stack) &&
        decide (calculate_net_item_delta packet window cursor_item =
          (if packet.button = 0 then -1
           else if packet.button = 1 then
             (if !(window.slot (u16ofInt packet.slot_idx)).is_empty then
               -(window.slot (u16ofInt packet.slot_idx)).count
              else 0)
           else 0))
  | .Drag =>
      if decide (packet.button = 2) || decide (packet.button = 6) ||
          decide (packet.button = 10) then
        decide (calculate_net_item_delta packet window cursor_item = 0)
      else
        packet.slot_changes.isEmpty &&
        decide (packet.carried_item.item = cursor_item.item) &&
        decide (packet.carried_item.count = cursor_item.count)
  | .DoubleClick =>
      decide (calculate_net_item_delta packet window cursor_item = 0)

/-- From validate.rs validate_click_slot_packet, as the acceptance
predicate: true exactly when every ensure passes.  The per-kind maximum
stack size, the presence of an open inventory and the computed maximal
slot index are parameters of the embedding, because the inventory storage
crate is not part of this source snapshot. -/
def validate_click_slot_packet (maxStack : ItemKind → Int) (hasOpen : Bool)
    (max_slot : Nat) (packet : ContainerClickC2s) (window : InventoryWindow)
    (cursor_item : CursorItem) : Bool :=
  (decide (packet.window_id = 0) == !hasOpen) &&
  packet.slot_changes.all (fun s =>
    decide (u16ofInt s.idx ≤ max_slot) &&
    (if s.stack.is_empty then true
     else decide (1 ≤ s.stack.count) &&
       decide (s.stack.count ≤ max (maxStack s.stack.item) s.stack.count))) &&
  (if packet.carried_item.is_empty then true
   else decide (1 ≤ packet.carried_item.count) &&
     decide (packet.carried_item.count ≤
       max (maxStack packet.carried_item.item) packet.carried_item.count)) &&
  modePreambleOk packet max_slot &&
  conservationOk maxStack packet window cursor_item

/-- Spec-side effective count: an empty stack contributes zero. -/
def effCount (s : ItemStack) : Int := if s.is_empty then 0 else s.count

/-- Spec-side restatement of the net delta: over all claimed slot changes,
new-stack count minus old-slot count (empty contributing 0), plus claimed
carried count minus current cursor count (empty contributing 0). -/
def specNetItemDelta (packet : ContainerClickC2s) (window : InventoryWindow)
    (cursor_item : CursorItem) : Int :=
  ((packet.slot_changes.map (fun s =>
      effCount s.stack - effCount (window.slot (u16ofInt s.idx)))).foldr
    (· + ·) 0) +
    (effCount packet.carried_item - effCount cursor_item)

/-- Spec-side expected delta of each conservation-checked branch, fixed by
mode, button and the count-only cursor/slot state; none marks the branches
that perform no conservation check (creative clicks, verified swaps, drag
start/add). -/
def spec_expected_delta (maxStack : ItemKind → Int)
    (packet : ContainerClickC2s) (window : InventoryWindow)
    (cursor_item : CursorItem) : Option Int :=
  match packet.mode with
  | .Click =>
      if packet.slot_idx = -1 then some 0
      else if packet.slot_idx = -999 then
        some (if packet.button = 1 then -1 else -effCount cursor_item)
      else if packet.slot_changes.isEmpty then some 0
      else if clickShouldSwap maxStack packet window cursor_item then none
      else some 0
  | .ShiftClick => some 0
  | .Hotbar => some 0
  | .CreativeMiddleClick => none
  | .DropKey =>
      if packet.slot_changes.isEmpty then some 0
      else
        some (if packet.button = 0 then -1
          else -effCount (window.slot (u16ofInt packet.slot_idx)))
  | .Drag =>
      if decide (packet.button = 2) || decide (packet.button = 6) ||
          decide (packet.button = 10) then some 0
      else none
  | .DoubleClick => some 0

theorem encodeVarInt_zero : encodeVarInt 0 = [0] := rfl

theorem dVarInt_zero (rest : List Nat) : dVarInt (0 :: rest) = .ok (0, rest) := rfl

theorem ItemStack.is_empty_iff (s : ItemStack) :
    s.is_empty = true ↔ s.item = ItemKind.Air ∨ s.count ≤ 0 := by
  simp [ItemStack.is_empty]

theorem encode_recursive_of_empty (s : ItemStack) (p : Bool)
    (h : s.is_empty = true) : s.encode_recursive p = some [0] := by
  cases s with
  | mk item count comps =>
      rw [ItemStack.encode_recursive, if_pos h, encodeVarInt_zero]

theorem EMPTY_is_empty : ItemStack.EMPTY.is_empty = true := rfl

theorem decode_zero_byte (fuel depth : Nat) (prefixed : Bool) (rest : List Nat)
    (hf : 0 < fuel) (hd : depth ≤ MAX_RECURSION_DEPTH) :
    decode_item_stack_recursive fuel depth prefixed (0 :: rest) =
      .ok (ItemStack.EMPTY, rest) := by
  obtain ⟨f, rfl⟩ : ∃ f, fuel = f + 1 := ⟨fuel - 1, by omega⟩
  simp only [decode_item_stack_recursive]
  rw [if_neg (by simp only [MAX_RECURSION_DEPTH] at hd ⊢; omega)]
  rw [dVarInt_zero, exbind_ok]
  dsimp only
  rw [if_pos (le_refl (0 : Int))]

/-- C4: any stack with count ≤ 0 or item = Air encodes as the single
VarInt byte 0 (the same bytes EMPTY encodes to, with nothing following,
whatever the components are), and decoding that byte yields the canonical
EMPTY stack, consuming exactly the one byte. -/
theorem claim_C4 (s : ItemStack) (p : Bool) (fuel depth : Nat) (rest : List Nat)
    (h : s.count ≤ 0 ∨ s.item = ItemKind.Air)
    (hf : 0 < fuel) (hd : depth ≤ MAX_RECURSION_DEPTH) :
    s.encode_recursive p = some [0] ∧
    ItemStack.EMPTY.encode_recursive p = some [0] ∧
    decode_item_stack_recursive fuel depth p ([0] ++ rest) =
      .ok (ItemStack.EMPTY, rest) := by
  have he : s.is_empty = true := (ItemStack.is_empty_iff s).mpr h.symm
  refine ⟨encode_recursive_of_empty s p he,
    encode_recursive_of_empty ItemStack.EMPTY p EMPTY_is_empty, ?_⟩
  simpa using decode_zero_byte fuel depth p rest hf hd

theorem claim_C4_witness :
    (ItemStack.new 7 0).encode_recursive false = some [0] ∧
    ItemStack.EMPTY.encode_recursive false = some [0] ∧
    decode_item_stack_recursive 1 0 false ([0] ++ [9]) =
      .ok (ItemStack.EMPTY, [9]) :=
  claim_C4 (ItemStack.new 7 0) false 1 0 [9] (Or.inl (by decide))
    (by decide) (by decide)

/-- C9: any stack with count ≤ 0 or item = Air is empty (is_empty is true)
and is canonically equal to the EMPTY constant — i.e. its canonical wire
encoding coincides with that of EMPTY — whatever its components hold. -/
theorem claim_C9 (s : ItemStack)
    (h : s.count ≤ 0 ∨ s.item = ItemKind.Air) :
    s.is_empty = true ∧ s.wireCanonEq ItemStack.EMPTY := by
  have he : s.is_empty = true := (ItemStack.is_empty_iff s).mpr h.symm
  refine ⟨he, ?_⟩
  rw [ItemStack.wireCanonEq, encode_recursive_of_empty s false he,
    encode_recursive_of_empty ItemStack.EMPTY false EMPTY_is_empty]

theorem claim_C9_witness :
    (ItemStack.mk 3 0 (List.replicate 96 Patchable.Removed)).is_empty = true ∧
    (ItemStack.mk 3 0 (List.replicate 96 Patchable.Removed)).wireCanonEq
      ItemStack.EMPTY :=
  claim_C9 (ItemStack.mk 3 0 (List.replicate 96 Patchable.Removed))
    (Or.inl (by decide))

/-- C8: insert_component is a no-op (the stack, hence its wire encoding, is
unchanged and no Added entry is produced) when the cell at the component's
id holds Default d with d = c; in every other case the cell becomes
Added c (hash c) while item and count are untouched. -/
theorem claim_C8 (s : ItemStack) (c : ItemComponent) (p : Bool) :
    (∀ d, s.components.getD c.id Patchable.None = Patchable.Default d → d = c →
        s.insert_component c = s ∧
        (s.insert_component c).encode_recursive p = s.encode_recursive p) ∧
    ((∀ d, s.components.getD c.id Patchable.None = Patchable.Default d → d ≠ c) →
        (s.insert_component c).item = s.item ∧
        (s.insert_component c).count = s.count ∧
        (s.insert_component c).components =
          s.components.set c.id (Patchable.Added c c.hash)) := by
  constructor
  · intro d hcell hdc
    subst hdc
    have hb : ItemComponent.beq d d = true := (itemComponentBeqIff d d).mpr rfl
    have hs : s.insert_component d = s := by
      rw [ItemStack.insert_component, hcell]
      simp [hb]
    exact ⟨hs, by rw [hs]⟩
  · intro hne
    rw [ItemStack.insert_component]
    cases hcell : s.components.getD c.id Patchable.None with
    | None => exact ⟨rfl, rfl, rfl⟩
    | Removed => exact ⟨rfl, rfl, rfl⟩
    | Added a h => exact ⟨rfl, rfl, rfl⟩
    | Default d =>
        have hb : ItemComponent.beq d c = false := by
          cases hb2 : ItemComponent.beq d c with
          | false => rfl
          | true => exact absurd ((itemComponentBeqIff d c).mp hb2) (hne d hcell)
        simp [hb, ItemStack.item, ItemStack.count, ItemStack.components]

theorem claim_C8_witness :
    ((ItemStack.new 1 1).insert_component ItemComponent.Unbreakable).item =
      (ItemStack.new 1 1).item ∧
    ((ItemStack.new 1 1).insert_component ItemComponent.Unbreakable).count =
      (ItemStack.new 1 1).count ∧
    ((ItemStack.new 1 1).insert_component ItemComponent.Unbreakable).components =
      (ItemStack.new 1 1).components.set ItemComponent.Unbreakable.id
        (Patchable.Added ItemComponent.Unbreakable
          ItemComponent.Unbreakable.hash) :=
  (claim_C8 (ItemStack.new 1 1) ItemComponent.Unbreakable false).2
    (fun d hd => by
      rw [show (ItemStack.new 1 1).components.getD ItemComponent.Unbreakable.id
          Patchable.None = Patchable.None from rfl] at hd
      exact Patchable.noConfusion hd)

set_option maxHeartbeats 1600000 in
/-- C5: a wire component index of 96 or more is rejected with a typed
error by both the added-components loop and the removed-components loop
(never skipped, never a panic — the decoders are total functions into
Except), and the component dispatch maps every id of 96 or more to the
typed unknown-component error. -/
theorem claim_C5 (v : Int) (fuel n depth : Nat) (prefixed : Bool)
    (comps : List (Patchable ItemComponent)) (bs rest : List Nat) (id : Nat)
    (hv : NUM_ITEM_COMPONENTS ≤ usizeOfInt v) (hf : 0 < fuel)
    (hid : 96 ≤ id) (h1 : -2147483648 ≤ v) (h2 : v < 2147483648) :
    decodeAddedComponents fuel (n + 1) depth prefixed comps
      (encodeVarInt v ++ bs) = .error .invalidComponentId ∧
    decodeRemovedComponents (n + 1) comps (encodeVarInt v ++ bs) =
      .error .invalidComponentId ∧
    decode_item_component fuel id depth rest = .error .unknownComponentId := by
  obtain ⟨f, rfl⟩ : ∃ f, fuel = f + 1 := ⟨fuel - 1, by omega⟩
  obtain ⟨m, rfl⟩ : ∃ m, id = m + 96 := ⟨id - 96, by omega⟩
  refine ⟨?_, ?_, ?_⟩
  · simp only [decodeAddedComponents]
    rw [dVarInt_enc v bs h1 h2, exbind_ok]
    dsimp only
    rw [if_pos hv]
  · simp only [decodeRemovedComponents]
    rw [dVarInt_enc v bs h1 h2, exbind_ok]
    dsimp only
    rw [if_pos hv]
  · rw [decode_item_component]
    dsimp only
    split <;> first | rfl | omega

theorem claim_C5_witness :
    decodeAddedComponents 1 1 0 false [] (encodeVarInt 999 ++ []) =
      .error .invalidComponentId ∧
    decodeRemovedComponents 1 [] (encodeVarInt 999 ++ []) =
      .error .invalidComponentId ∧
    decode_item_component 1 999 0 [] = .error .unknownComponentId :=
  claim_C5 999 1 0 0 false [] [] [] 999 (by decide) (by decide) (by decide)
    (by decide) (by decide)

theorem exbind_ok2 {α β : Type} (a : α) (f : α → Except DecErr β) :
    (Except.ok a : Except DecErr α) >>= f = f a := rfl

theorem stackPairDelta_eq (a b : ItemStack) :
    stackPairDelta a b = effCount b - effCount a := by
  unfold stackPairDelta effCount
  cases h1 : a.is_empty <;> cases h2 : b.is_empty <;> simp [h1, h2]

theorem foldl_add_map (f : SlotChange → Int) :
    ∀ (l : List SlotChange) (a : Int),
      l.foldl (fun acc s => acc + f s) a = a + (l.map f).foldr (· + ·) 0
  | [], a => by simp
  | x :: xs, a => by
      rw [List.foldl_cons, List.map_cons, List.foldr_cons,
        foldl_add_map f xs (a + f x)]
      ring

theorem dropIsTransmuting_false (a b : ItemStack)
    (h : dropIsTransmuting a b = false) (ha : a.is_empty = false)
    (hb : b.is_empty = false) : a.item = b.item := by
  unfold dropIsTransmuting at h
  rw [ha, hb] at h
  simp at h
  exact h

/-- C1: the validator's net item delta coincides with the spec formula
(per claimed slot change, the new-stack count minus the old-slot count
with empties contributing zero, plus the claimed-carried minus cursor
delta), and on any accepted packet whose branch performs a conservation
check the delta equals the expected value fixed by mode and button. -/
theorem claim_C1 (maxStack : ItemKind → Int) (hasOpen : Bool) (max_slot : Nat)
    (packet : ContainerClickC2s) (window : InventoryWindow)
    (cursor_item : CursorItem) :
    calculate_net_item_delta packet window cursor_item =
      specNetItemDelta packet window cursor_item ∧
    (validate_click_slot_packet maxStack hasOpen max_slot packet window
        cursor_item = true →
      ∀ e, spec_expected_delta maxStack packet window cursor_item = some e →
        calculate_net_item_delta packet window cursor_item = e) := by
  constructor
  · unfold calculate_net_item_delta specNetItemDelta
    rw [foldl_add_map (slotDelta window) packet.slot_changes 0,
      stackPairDelta_eq]
    have hsd : slotDelta window = fun s =>
        effCount s.stack - effCount (window.slot (u16ofInt s.idx)) := by
      funext s
      rw [slotDelta, stackPairDelta_eq]
    rw [hsd]
    ring
  · obtain ⟨wid, sid, sidx, btn, mode, changes, carried⟩ := packet
    cases mode with
    | Click =>
        intro hacc e he
        simp only [validate_click_slot_packet, Bool.and_eq_true] at hacc
        obtain ⟨⟨⟨⟨-, -⟩, -⟩, hpre⟩, hcons⟩ := hacc
        simp only [modePreambleOk, Bool.and_eq_true, Bool.or_eq_true,
          decide_eq_true_eq] at hpre
        obtain ⟨⟨hb0, hb1⟩, -⟩ := hpre
        simp only [conservationOk] at hcons
        simp only [spec_expected_delta] at he
        by_cases h1 : sidx = -1
        · rw [if_pos h1] at hcons he
          simp only [Bool.and_eq_true, decide_eq_true_eq] at hcons
          obtain ⟨-, hd⟩ := hcons
          simp only [Option.some.injEq] at he
          omega
        · by_cases h2 : sidx = -999
          · rw [if_neg h1, if_pos h2] at hcons he
            simp only [Bool.and_eq_true, decide_eq_true_eq] at hcons
            obtain ⟨-, hd⟩ := hcons
            simp only [Option.some.injEq] at he
            by_cases hb : btn = 1
            · rw [if_pos hb] at hd he
              omega
            · rw [if_neg hb] at hd he
              have hb0' : btn = 0 := by omega
              rw [if_pos hb0'] at hd
              unfold effCount at he
              by_cases hc : cursor_item.is_empty = true
              · simp [hc] at hd he
                omega
              · rw [Bool.not_eq_true] at hc
                simp [hc] at hd he
                omega
          · rw [if_neg h1, if_neg h2] at hcons he
            by_cases h3 : changes.isEmpty = true
            · rw [if_pos h3] at hcons he
              simp only [decide_eq_true_eq] at hcons
              simp only [Option.some.injEq] at he
              omega
            · rw [if_neg h3] at hcons he
              by_cases h4 : clickShouldSwap maxStack
                  ⟨wid, sid, sidx, btn, ClickMode.Click, changes, carried⟩
                  window cursor_item = true
              · rw [if_pos h4] at he
                exact Option.noConfusion he
              · rw [if_neg h4] at he
                simp only [Bool.and_eq_true] at hcons
                obtain ⟨-, hcons2⟩ := hcons
                rw [if_neg h4] at hcons2
                simp only [decide_eq_true_eq] at hcons2
                simp only [Option.some.injEq] at he
                omega
    | ShiftClick =>
        intro hacc e he
        simp only [validate_click_slot_packet, Bool.and_eq_true] at hacc
        obtain ⟨⟨⟨⟨-, -⟩, -⟩, hpre⟩, hcons⟩ := hacc
        simp only [conservationOk] at hcons
        simp only [spec_expected_delta, Option.some.injEq] at he
        by_cases h3 : changes.isEmpty = true
        · rw [if_pos h3] at hcons
          simp only [decide_eq_true_eq] at hcons
          omega
        · rw [if_neg h3] at hcons
          simp only [Bool.and_eq_true, decide_eq_true_eq] at hcons
          obtain ⟨⟨⟨-, -⟩, hd⟩, -⟩ := hcons
          omega
    | Hotbar =>
        intro hacc e he
        simp only [validate_click_slot_packet, Bool.and_eq_true] at hacc
        obtain ⟨⟨⟨⟨-, -⟩, -⟩, hpre⟩, hcons⟩ := hacc
        simp only [conservationOk] at hcons
        simp only [spec_expected_delta, Option.some.injEq] at he
        by_cases h3 : changes.isEmpty = true
        · rw [if_pos h3] at hcons
          simp only [decide_eq_true_eq] at hcons
          omega
        · rw [if_neg h3] at hcons
          simp only [Bool.and_eq_true, decide_eq_true_eq] at hcons
          obtain ⟨⟨-, hd⟩, -⟩ := hcons
          omega
    | CreativeMiddleClick =>
        intro hacc e he
        simp only [validate_click_slot_packet, Bool.and_eq_true] at hacc
        obtain ⟨⟨⟨⟨-, -⟩, -⟩, hpre⟩, hcons⟩ := hacc
        simp only [spec_expected_delta] at he
        exact Option.noConfusion he
    | DropKey =>
        intro hacc e he
        simp only [validate_click_slot_packet, Bool.and_eq_true] at hacc
        obtain ⟨⟨⟨⟨-, -⟩, -⟩, hpre⟩, hcons⟩ := hacc
        simp only [modePreambleOk, Bool.and_eq_true, Bool.or_eq_true,
          decide_eq_true_eq] at hpre
        obtain ⟨⟨⟨hb0, hb1⟩, -⟩, -⟩ := hpre
        simp only [conservationOk] at hcons
        simp only [spec_expected_delta] at he
        by_cases h3 : changes.isEmpty = true
        · rw [if_pos h3] at hcons he
          simp only [decide_eq_true_eq] at hcons
          simp only [Option.some.injEq] at he
          omega
        · rw [if_neg h3] at hcons he
          simp only [Bool.and_eq_true, decide_eq_true_eq] at hcons
          obtain ⟨⟨⟨-, -⟩, -⟩, hd⟩ := hcons
          simp only [Option.some.injEq] at he
          by_cases hb : btn = 0
          · rw [if_pos hb] at hd he
            omega
          · rw [if_neg hb] at hd he
            have hb1' : btn = 1 := by omega
            rw [if_pos hb1'] at hd
            unfold effCount at he
            by_cases hoe : (window.slot (u16ofInt sidx)).is_empty = true
            · simp [hoe] at hd he
              omega
            · rw [Bool.not_eq_true] at hoe
              simp [hoe] at hd he
              omega
    | Drag =>
        intro hacc e he
        simp only [validate_click_slot_packet, Bool.and_eq_true] at hacc
        obtain ⟨⟨⟨⟨-, -⟩, -⟩, hpre⟩, hcons⟩ := hacc
        simp only [conservationOk] at hcons
        simp only [spec_expected_delta] at he
        by_cases h2 : (decide (btn = 2) || decide (btn = 6)
            || decide (btn = 10)) = true
        · rw [if_pos h2] at hcons he
          simp only [decide_eq_true_eq] at hcons
          simp only [Option.some.injEq] at he
          omega
        · rw [if_neg h2] at he
          exact Option.noConfusion he
    | DoubleClick =>
        intro hacc e he
        simp only [validate_click_slot_packet, Bool.and_eq_true] at hacc
        obtain ⟨⟨⟨⟨-, -⟩, -⟩, hpre⟩, hcons⟩ := hacc
        simp only [conservationOk] at hcons
        simp only [spec_expected_delta, Option.some.injEq] at he
        simp only [decide_eq_true_eq] at hcons
        omega

theorem claim_C1_witness :
    calculate_net_item_delta
      ⟨0, 0, 20, 0, ClickMode.Click, [⟨20, ItemStack.new 10 5⟩],
        ItemStack.EMPTY⟩
      ⟨fun i => if i = 20 then ItemStack.new 10 2 else ItemStack.EMPTY⟩
      (ItemStack.new 10 3) =
      specNetItemDelta
        ⟨0, 0, 20, 0, ClickMode.Click, [⟨20, ItemStack.new 10 5⟩],
          ItemStack.EMPTY⟩
        ⟨fun i => if i = 20 then ItemStack.new 10 2 else ItemStack.EMPTY⟩
        (ItemStack.new 10 3) ∧
    calculate_net_item_delta
      ⟨0, 0, 20, 0, ClickMode.Click, [⟨20, ItemStack.new 10 5⟩],
        ItemStack.EMPTY⟩
      ⟨fun i => if i = 20 then ItemStack.new 10 2 else ItemStack.EMPTY⟩
      (ItemStack.new 10 3) = 0 :=
  ⟨(claim_C1 (fun _ => 64) false 45
      ⟨0, 0, 20, 0, ClickMode.Click, [⟨20, ItemStack.new 10 5⟩],
        ItemStack.EMPTY⟩
      ⟨fun i => if i = 20 then ItemStack.new 10 2 else ItemStack.EMPTY⟩
      (ItemStack.new 10 3)).1,
   (claim_C1 (fun _ => 64) false 45
      ⟨0, 0, 20, 0, ClickMode.Click, [⟨20, ItemStack.new 10 5⟩],
        ItemStack.EMPTY⟩
      ⟨fun i => if i = 20 then ItemStack.new 10 2 else ItemStack.EMPTY⟩
      (ItemStack.new 10 3)).2 (by decide) 0 (by decide)⟩

/-- C6: an accepted drop-key click has button 0 or 1, an empty claimed
carried item, at most one slot change, and with exactly one change the net
delta is -1 for button 0 and minus the old slot count (0 for an empty old
slot) for button 1, while the touched slot's kind is unchanged whenever
both the old and the claimed new stack are non-empty; moreover the
concrete claim dropping 2 out of a 32-stack with button 0 is rejected. -/
theorem claim_C6 (maxStack : ItemKind → Int) (hasOpen : Bool) (max_slot : Nat)
    (packet : ContainerClickC2s) (window : InventoryWindow)
    (cursor_item : CursorItem) :
    (packet.mode = ClickMode.DropKey →
     validate_click_slot_packet maxStack hasOpen max_slot packet window
        cursor_item = true →
     (0 ≤ packet.button ∧ packet.button ≤ 1) ∧
     packet.carried_item.is_empty = true ∧
     packet.slot_changes.length ≤ 1 ∧
     (∀ sc, packet.slot_changes = [sc] →
       calculate_net_item_delta packet window cursor_item =
         (if packet.button = 0 then -1
          else if (window.slot (u16ofInt packet.slot_idx)).is_empty then 0
          else -(window.slot (u16ofInt packet.slot_idx)).count) ∧
       ((window.slot (u16ofInt packet.slot_idx)).is_empty = false →
        sc.stack.is_empty = false →
        (window.slot (u16ofInt packet.slot_idx)).item = sc.stack.item))) ∧
    validate_click_slot_packet (fun _ => 64) false 45
      ⟨0, 0, 5, 0, ClickMode.DropKey, [⟨5, ItemStack.new 100 30⟩],
        ItemStack.EMPTY⟩
      ⟨fun i => if i = 5 then ItemStack.new 100 32 else ItemStack.EMPTY⟩
      ItemStack.EMPTY = false := by
  constructor
  · intro hm hacc
    obtain ⟨wid, sid, sidx, btn, mode, changes, carried⟩ := packet
    have hm' : mode = ClickMode.DropKey := hm
    subst hm'
    simp only [validate_click_slot_packet, Bool.and_eq_true] at hacc
    obtain ⟨⟨⟨⟨-, -⟩, -⟩, hpre⟩, hcons⟩ := hacc
    simp only [modePreambleOk, Bool.and_eq_true, Bool.or_eq_true,
      decide_eq_true_eq] at hpre
    obtain ⟨⟨⟨hb0, hb1⟩, hcarr⟩, -⟩ := hpre
    simp only [conservationOk] at hcons
    refine ⟨⟨hb0, hb1⟩, hcarr, ?_, ?_⟩
    · by_cases h3 : changes.isEmpty = true
      · rw [List.isEmpty_iff] at h3
        rw [show (ContainerClickC2s.mk wid sid sidx btn ClickMode.DropKey
          changes carried).slot_changes = changes from rfl, h3]
        simp
      · rw [if_neg h3] at hcons
        simp only [Bool.and_eq_true, decide_eq_true_eq] at hcons
        obtain ⟨⟨⟨hlen, -⟩, -⟩, -⟩ := hcons
        simp only [show (ContainerClickC2s.mk wid sid sidx btn
          ClickMode.DropKey changes carried).slot_changes = changes from rfl]
        omega
    · intro sc hsc
      have hsc' : changes = [sc] := hsc
      subst hsc'
      rw [if_neg (by simp :
        ¬ (([sc] : List SlotChange).isEmpty = true))] at hcons
      simp only [List.headD_cons, List.head?_cons, Bool.and_eq_true,
        decide_eq_true_eq] at hcons
      obtain ⟨⟨⟨-, -⟩, hnt⟩, hd⟩ := hcons
      have hnt' : dropIsTransmuting
          (window.slot (u16ofInt sidx)) sc.stack = false := by
        simpa using hnt
      constructor
      · by_cases hb : btn = 0
        · rw [if_pos hb] at hd ⊢
          exact hd
        · have hb1' : btn = 1 := by omega
          rw [if_neg hb] at hd ⊢
          rw [if_pos hb1'] at hd
          by_cases hoe : (window.slot (u16ofInt sidx)).is_empty = true
          · simp [hoe] at hd ⊢
            omega
          · rw [Bool.not_eq_true] at hoe
            simp [hoe] at hd ⊢
            omega
      · intro hoe hse
        exact dropIsTransmuting_false _ _ hnt' hoe hse
  · decide

theorem claim_C6_witness :
    (0 ≤ (0 : Int) ∧ (0 : Int) ≤ 1) ∧
    ItemStack.EMPTY.is_empty = true ∧
    ([(⟨5, ItemStack.new 100 31⟩ : SlotChange)] : List SlotChange).length ≤ 1 ∧
    calculate_net_item_delta
      ⟨0, 0, 5, 0, ClickMode.DropKey, [⟨5, ItemStack.new 100 31⟩],
        ItemStack.EMPTY⟩
      ⟨fun i => if i = 5 then ItemStack.new 100 32 else ItemStack.EMPTY⟩
      ItemStack.EMPTY = -1 := by
  have h := (claim_C6 (fun _ => 64) false 45
    ⟨0, 0, 5, 0, ClickMode.DropKey, [⟨5, ItemStack.new 100 31⟩],
      ItemStack.EMPTY⟩
    ⟨fun i => if i = 5 then ItemStack.new 100 32 else ItemStack.EMPTY⟩
    ItemStack.EMPTY).1 rfl (by decide)
  exact ⟨h.1, h.2.1, h.2.2.1,
    ((h.2.2.2 ⟨5, ItemStack.new 100 31⟩ rfl).1).trans (by decide)⟩

/-- C7 (amended): an accepted shift-click has button 0 or 1, an empty
claimed carried item, either no slot change at all (the accepted empty
click echo) or 2-3 slot changes, net delta 0, and when changes are present
some non-empty claimed payload exists whose kind matches the clicked
slot's original kind and is shared by every non-empty claimed payload. -/
theorem claim_C7 (maxStack : ItemKind → Int) (hasOpen : Bool) (max_slot : Nat)
    (packet : ContainerClickC2s) (window : InventoryWindow)
    (cursor_item : CursorItem)
    (hm : packet.mode = ClickMode.ShiftClick)
    (hacc : validate_click_slot_packet maxStack hasOpen max_slot packet window
      cursor_item = true) :
    (0 ≤ packet.button ∧ packet.button ≤ 1) ∧
    packet.carried_item.is_empty = true ∧
    (packet.slot_changes.length = 0 ∨
      (2 ≤ packet.slot_changes.length ∧ packet.slot_changes.length ≤ 3)) ∧
    calculate_net_item_delta packet window cursor_item = 0 ∧
    (packet.slot_changes.length ≠ 0 →
      ∃ sc, sc ∈ packet.slot_changes ∧ sc.stack.is_empty = false ∧
        (window.slot (u16ofInt packet.slot_idx)).item = sc.stack.item ∧
        (∀ sc2 ∈ packet.slot_changes, sc2.stack.is_empty = false →
          sc2.stack.item = sc.stack.item)) := by
  obtain ⟨wid, sid, sidx, btn, mode, changes, carried⟩ := packet
  have hm' : mode = ClickMode.ShiftClick := hm
  subst hm'
  simp only [validate_click_slot_packet, Bool.and_eq_true] at hacc
  obtain ⟨⟨⟨⟨-, -⟩, -⟩, hpre⟩, hcons⟩ := hacc
  simp only [modePreambleOk, Bool.and_eq_true, decide_eq_true_eq] at hpre
  obtain ⟨⟨⟨hb0, hb1⟩, hcarr⟩, -⟩ := hpre
  simp only [conservationOk] at hcons
  by_cases h3 : changes.isEmpty = true
  · rw [if_pos h3] at hcons
    simp only [decide_eq_true_eq] at hcons
    rw [List.isEmpty_iff] at h3
    subst h3
    refine ⟨⟨hb0, hb1⟩, hcarr, Or.inl rfl, hcons, ?_⟩
    intro hne
    exact absurd rfl hne
  · rw [if_neg h3] at hcons
    simp only [Bool.and_eq_true, decide_eq_true_eq] at hcons
    obtain ⟨⟨⟨hl2, hl3⟩, hd⟩, hfind⟩ := hcons
    refine ⟨⟨hb0, hb1⟩, hcarr, Or.inr ⟨hl2, hl3⟩, hd, ?_⟩
    intro _
    split at hfind
    · exact Bool.noConfusion hfind
    · rename_i s hf
      simp only [Bool.and_eq_true, decide_eq_true_eq] at hfind
      obtain ⟨hkind, hall⟩ := hfind
      refine ⟨s, List.mem_of_find?_eq_some hf, ?_, hkind, ?_⟩
      · have hp := List.find?_some hf
        simpa using hp
      · intro sc2 hsc2 hne2
        rw [List.all_eq_true] at hall
        have hx := hall sc2 (List.mem_filter.mpr ⟨hsc2, by simp [hne2]⟩)
        simpa using hx

theorem claim_C7_counterexample :
    validate_click_slot_packet (fun _ => 64) false 45
      ⟨0, 0, 0, 0, ClickMode.ShiftClick, [], ItemStack.EMPTY⟩
      ⟨fun _ => ItemStack.EMPTY⟩ ItemStack.EMPTY = true ∧
    (⟨0, 0, 0, 0, ClickMode.ShiftClick, [], ItemStack.EMPTY⟩ :
      ContainerClickC2s).slot_changes.length = 0 :=
  ⟨by decide, rfl⟩

theorem claim_C7_witness :
    (0 ≤ (0 : Int) ∧ (0 : Int) ≤ 1) ∧
    ItemStack.EMPTY.is_empty = true ∧
    (([⟨1, ItemStack.EMPTY⟩, ⟨9, ItemStack.new 7 16⟩] :
        List SlotChange).length = 0 ∨
      (2 ≤ ([⟨1, ItemStack.EMPTY⟩, ⟨9, ItemStack.new 7 16⟩] :
          List SlotChange).length ∧
        ([⟨1, ItemStack.EMPTY⟩, ⟨9, ItemStack.new 7 16⟩] :
          List SlotChange).length ≤ 3)) ∧
    calculate_net_item_delta
      ⟨0, 0, 1, 0, ClickMode.ShiftClick,
        [⟨1, ItemStack.EMPTY⟩, ⟨9, ItemStack.new 7 16⟩], ItemStack.EMPTY⟩
      ⟨fun i => if i = 1 then ItemStack.new 7 16 else ItemStack.EMPTY⟩
      ItemStack.EMPTY = 0 := by
  have h := claim_C7 (fun _ => 64) false 45
    ⟨0, 0, 1, 0, ClickMode.ShiftClick,
      [⟨1, ItemStack.EMPTY⟩, ⟨9, ItemStack.new 7 16⟩], ItemStack.EMPTY⟩
    ⟨fun i => if i = 1 then ItemStack.new 7 16 else ItemStack.EMPTY⟩
    ItemStack.EMPTY rfl (by decide)
  exact ⟨h.1, h.2.1, h.2.2.1, h.2.2.2.1⟩

/-- C10: the decoded count is checked for positivity as a 32-bit value and
only then truncated to signed 8 bits, so a wire count in [128, 255]
decodes successfully into a stack whose count is the wire count minus 256:
that stack reports is_empty, keeps the decoded item kind and (default)
components, and is not equal to EMPTY. -/
theorem claim_C10 (n : Nat) (k : ItemKind) (fuel depth : Nat)
    (rest : List Nat) (hn1 : 128 ≤ n) (hn2 : n ≤ 255) (hk : k.WF)
    (hk0 : k ≠ ItemKind.Air) (hf : 1 < fuel)
    (hd : depth ≤ MAX_RECURSION_DEPTH) :
    decode_item_stack_recursive fuel depth false
        (encodeVarInt (n : Int) ++ (encodeItemKind k ++ (encodeVarInt 0 ++
          (encodeVarInt 0 ++ rest)))) =
      .ok (ItemStack.mk k ((n : Int) - 256) (ItemKind.default_components k),
        rest) ∧
    (ItemStack.mk k ((n : Int) - 256)
      (ItemKind.default_components k)).is_empty = true ∧
    (ItemStack.mk k ((n : Int) - 256)
      (ItemKind.default_components k)).count = (n : Int) - 256 ∧
    (ItemStack.mk k ((n : Int) - 256)
      (ItemKind.default_components k)).item = k ∧
    ItemStack.mk k ((n : Int) - 256) (ItemKind.default_components k) ≠
      ItemStack.EMPTY := by
  obtain ⟨f, rfl⟩ : ∃ f, fuel = (f + 1) + 1 := ⟨fuel - 2, by omega⟩
  refine ⟨?_, ?_, rfl, rfl, ?_⟩
  · simp only [decode_item_stack_recursive]
    rw [if_neg (by simp only [MAX_RECURSION_DEPTH] at hd ⊢; omega)]
    rw [dVarInt_enc (n : Int) _ (by omega) (by omega), exbind_ok]
    dsimp only
    rw [if_neg (by omega : ¬ ((n : Int) ≤ 0))]
    rw [dItemKind_enc k _ hk, exbind_ok]
    dsimp only
    rw [dVarInt_enc 0 _ (by omega) (by omega), exbind_ok]
    dsimp only
    rw [dVarInt_enc 0 _ (by omega) (by omega), exbind_ok]
    dsimp only
    rw [show ((0 : Int)).toNat = 0 from rfl]
    simp only [decodeAddedComponents]
    rw [exbind_ok]
    dsimp only
    simp only [decodeRemovedComponents]
    rw [exbind_ok]
    dsimp only
    rw [show i8ofInt (n : Int) = (n : Int) - 256 from by unfold i8ofInt; omega]
  · simp only [ItemStack.is_empty, ItemStack.item, ItemStack.count,
      Bool.or_eq_true, decide_eq_true_eq]
    right
    omega
  · intro h
    rw [ItemStack.EMPTY] at h
    injection h with h1 h2 h3
    exact hk0 h1

theorem claim_C10_witness :
    decode_item_stack_recursive 2 0 false
        (encodeVarInt ((200 : Nat) : Int) ++ (encodeItemKind 1 ++
          (encodeVarInt 0 ++ (encodeVarInt 0 ++ [])))) =
      .ok (ItemStack.mk 1 (((200 : Nat) : Int) - 256)
        (ItemKind.default_components 1), []) ∧
    (ItemStack.mk 1 (((200 : Nat) : Int) - 256)
      (ItemKind.default_components 1)).is_empty = true ∧
    (ItemStack.mk 1 (((200 : Nat) : Int) - 256)
      (ItemKind.default_components 1)).count = ((200 : Nat) : Int) - 256 ∧
    (ItemStack.mk 1 (((200 : Nat) : Int) - 256)
      (ItemKind.default_components 1)).item = 1 ∧
    ItemStack.mk 1 (((200 : Nat) : Int) - 256)
      (ItemKind.default_components 1) ≠ ItemStack.EMPTY :=
  claim_C10 200 1 2 0 [] (by decide) (by decide)
    (by decide : (1 : Nat) < 2147483648) (by decide) (by decide) (by decide)

/-- A one-layer bundle wrapper: a non-air single-count stack whose only
component is BundleContents holding exactly the given inner stack. -/
def bundleStack (inner : ItemStack) : ItemStack :=
  ItemStack.mk 1 1 ((List.replicate NUM_ITEM_COMPONENTS Patchable.None).set 41
    (Patchable.Added (ItemComponent.BundleContents [inner]) 0))

/-- A bundle nested n levels deep; level 0 is a component-free stack. -/
def mkNestedBundle : Nat → ItemStack
  | 0 => ItemStack.new 1 1
  | n + 1 => bundleStack (mkNestedBundle n)

/-- The wire bytes of one bundle layer before the nested payload: count 1,
item kind, one added component, no removed components, component id 41,
bundle list length 1. -/
def bundleLevelHeader : List Nat :=
  encodeVarInt 1 ++ encodeItemKind 1 ++ encodeVarInt 1 ++ encodeVarInt 0 ++
    (encodeVarInt 41 ++ encodeVarInt 1)

/-- The canonical wire bytes of the n-level nested bundle. -/
def bundleBytes : Nat → List Nat
  | 0 => encodeVarInt 1 ++ encodeItemKind 1 ++ encodeVarInt 0 ++ encodeVarInt 0
  | n + 1 => bundleLevelHeader ++ bundleBytes n

theorem encodeAddedFrom_replicate (p : Bool) :
    ∀ (m i : Nat), encodeAddedFrom p i (List.replicate m Patchable.None) =
      some []
  | 0, _ => rfl
  | m + 1, i => by
      rw [List.replicate_succ]
      simp only [encodeAddedFrom]
      exact encodeAddedFrom_replicate p m (i + 1)

theorem collectAdded_replicate :
    ∀ (m i : Nat), collectAdded i (List.replicate m Patchable.None) = []
  | 0, _ => rfl
  | m + 1, i => by
      rw [List.replicate_succ]
      simp only [collectAdded]
      exact collectAdded_replicate m (i + 1)

theorem collectRemoved_replicate :
    ∀ (m i : Nat), collectRemoved i (List.replicate m Patchable.None) = []
  | 0, _ => rfl
  | m + 1, i => by
      rw [List.replicate_succ]
      simp only [collectRemoved]
      exact collectRemoved_replicate m (i + 1)

theorem collectAdded_single (c : ItemComponent) (hsh : Int) :
    ∀ (k m i : Nat), k < m →
      collectAdded i ((List.replicate m Patchable.None).set k
        (Patchable.Added c hsh)) = [(i + k, c)]
  | 0, m, i, hk => by
      obtain ⟨m', rfl⟩ : ∃ m', m = m' + 1 := ⟨m - 1, by omega⟩
      rw [List.replicate_succ, List.set_cons_zero]
      simp only [collectAdded]
      rw [collectAdded_replicate]
      simp
  | k + 1, m, i, hk => by
      obtain ⟨m', rfl⟩ : ∃ m', m = m' + 1 := ⟨m - 1, by omega⟩
      rw [List.replicate_succ, List.set_cons_succ]
      simp only [collectAdded]
      rw [collectAdded_single c hsh k m' (i + 1) (by omega)]
      have hik : i + 1 + k = i + (k + 1) := by omega
      rw [hik]

theorem collectRemoved_single (c : ItemComponent) (hsh : Int) :
    ∀ (k m i : Nat), k < m →
      collectRemoved i ((List.replicate m Patchable.None).set k
        (Patchable.Added c hsh)) = []
  | 0, m, i, hk => by
      obtain ⟨m', rfl⟩ : ∃ m', m = m' + 1 := ⟨m - 1, by omega⟩
      rw [List.replicate_succ, List.set_cons_zero]
      simp only [collectRemoved]
      exact collectRemoved_replicate m' (i + 1)
  | k + 1, m, i, hk => by
      obtain ⟨m', rfl⟩ : ∃ m', m = m' + 1 := ⟨m - 1, by omega⟩
      rw [List.replicate_succ, List.set_cons_succ]
      simp only [collectRemoved]
      exact collectRemoved_single c hsh k m' (i + 1) (by omega)

theorem encodeAddedFrom_single (c : ItemComponent) (hsh : Int) :
    ∀ (k m i : Nat), k < m →
      encodeAddedFrom false i ((List.replicate m Patchable.None).set k
        (Patchable.Added c hsh)) =
        (ItemComponent.encode c).bind (fun payload =>
          some (encodeVarInt ((i + k : Nat) : Int) ++ payload))
  | 0, m, i, hk => by
      obtain ⟨m', rfl⟩ : ∃ m', m = m' + 1 := ⟨m - 1, by omega⟩
      rw [List.replicate_succ, List.set_cons_zero]
      simp only [encodeAddedFrom, encodeAddedFrom_replicate]
      cases hc : ItemComponent.encode c with
      | none => rfl
      | some payload => simp [hc]
  | k + 1, m, i, hk => by
      obtain ⟨m', rfl⟩ : ∃ m', m = m' + 1 := ⟨m - 1, by omega⟩
      rw [List.replicate_succ, List.set_cons_succ]
      simp only [encodeAddedFrom]
      rw [encodeAddedFrom_single c hsh k m' (i + 1) (by omega)]
      have hik : i + 1 + k = i + (k + 1) := by omega
      rw [hik]

theorem encode_bundleStack (inner : ItemStack) (b : List Nat)
    (hinner : inner.encode_recursive false = some b) :
    (bundleStack inner).encode_recursive false =
      some (bundleLevelHeader ++ b) := by
  have hc : ItemComponent.encode (ItemComponent.BundleContents [inner]) =
      some (encodeVarInt 1 ++ (b ++ [])) := by
    simp only [ItemComponent.encode, encodeStackList, hinner]
    simp
  rw [bundleStack]
  simp only [ItemStack.encode_recursive]
  rw [if_neg (fun hcon => Bool.noConfusion hcon)]
  simp only [encodeAddedFrom_single (ItemComponent.BundleContents [inner]) 0 41
      NUM_ITEM_COMPONENTS 0 (by decide), hc,
    collectAdded_single (ItemComponent.BundleContents [inner]) 0 41
      NUM_ITEM_COMPONENTS 0 (by decide),
    collectRemoved_single (ItemComponent.BundleContents [inner]) 0 41
      NUM_ITEM_COMPONENTS 0 (by decide)]
  simp [bundleLevelHeader, encodeRemovedIds]

theorem encode_mkNestedBundle :
    ∀ n, (mkNestedBundle n).encode_recursive false = some (bundleBytes n)
  | 0 => by
      rw [mkNestedBundle, bundleBytes, ItemStack.new]
      simp only [ItemStack.encode_recursive]
      rw [if_neg (fun hcon => Bool.noConfusion hcon)]
      simp only [encodeAddedFrom_replicate, collectAdded_replicate,
        collectRemoved_replicate]
      simp [encodeRemovedIds]
  | n + 1 => by
      rw [mkNestedBundle, bundleBytes]
      exact encode_bundleStack (mkNestedBundle n) (bundleBytes n)
        (encode_mkNestedBundle n)

theorem if_false_bool {α : Type} (a b : α) : (if false then a else b) = b := rfl

set_option maxHeartbeats 1600000 in
theorem decode_bundle_level (f d : Nat) (bs : List Nat)
    (hd : ¬ d > MAX_RECURSION_DEPTH) :
    decode_item_stack_recursive (f + 5) d false (bundleLevelHeader ++ bs) =
      (decode_item_stack_recursive (f + 1) (d + 1) false bs).map
        (fun p => (bundleStack p.1, p.2)) := by
  rw [bundleLevelHeader]
  simp only [List.append_assoc]
  rw [show f + 5 = (f + 4) + 1 from rfl]
  rw [decode_item_stack_recursive]
  dsimp only
  rw [if_neg hd]
  rw [dVarInt_enc 1 _ (by omega) (by omega), exbind_ok]
  dsimp only
  rw [if_neg (by omega : ¬ ((1 : Int) ≤ 0))]
  rw [dItemKind_enc 1 _ (by decide : (1 : Nat) < 2147483648), exbind_ok]
  dsimp only
  rw [dVarInt_enc 1 _ (by omega) (by omega), exbind_ok]
  dsimp only
  rw [dVarInt_enc 0 _ (by omega) (by omega), exbind_ok]
  dsimp only
  rw [show ((1 : Int)).toNat = 1 from rfl, show ((0 : Int)).toNat = 0 from rfl]
  rw [show f + 4 = (f + 3) + 1 from rfl]
  simp only [decodeAddedComponents]
  rw [dVarInt_enc 41 _ (by omega) (by omega), exbind_ok]
  dsimp only
  rw [if_neg (by decide : ¬ (NUM_ITEM_COMPONENTS ≤ usizeOfInt 41))]
  rw [if_false_bool, exbind_ok2]
  rw [show usizeOfInt 41 = 41 from rfl]
  rw [show f + 3 = (f + 2) + 1 from rfl]
  simp only [decode_item_component]
  rw [dVarInt_enc 1 _ (by omega) (by omega), exbind_ok]
  dsimp only
  rw [show ((1 : Int)).toNat = 1 from rfl]
  rw [show f + 2 = (f + 1) + 1 from rfl]
  simp only [decodeStackList]
  cases hres : decode_item_stack_recursive (f + 1) (d + 1) false bs with
  | error e => rfl
  | ok p =>
      simp only [decodeAddedComponents, decodeRemovedComponents]
      rfl

theorem decode_mkNestedBundle :
    ∀ (n d : Nat) (rest : List Nat), d + n ≤ MAX_RECURSION_DEPTH →
      decode_item_stack_recursive (4 * n + 2) d false (bundleBytes n ++ rest) =
        .ok (mkNestedBundle n, rest)
  | 0, d, rest, hd => by
      rw [bundleBytes]
      simp only [List.append_assoc]
      rw [show 4 * 0 + 2 = 1 + 1 from rfl]
      simp only [decode_item_stack_recursive]
      rw [if_neg (by simp only [MAX_RECURSION_DEPTH] at hd ⊢; omega)]
      rw [dVarInt_enc 1 _ (by omega) (by omega), exbind_ok]
      dsimp only
      rw [if_neg (by omega : ¬ ((1 : Int) ≤ 0))]
      rw [dItemKind_enc 1 _ (by decide : (1 : Nat) < 2147483648), exbind_ok]
      dsimp only
      rw [dVarInt_enc 0 _ (by omega) (by omega), exbind_ok]
      dsimp only
      rw [dVarInt_enc 0 _ (by omega) (by omega), exbind_ok]
      dsimp only
      rw [show ((0 : Int)).toNat = 0 from rfl]
      simp only [decodeAddedComponents]
      rw [exbind_ok]
      dsimp only
      simp only [decodeRemovedComponents]
      rw [exbind_ok]
      dsimp only
      rfl
  | n + 1, d, rest, hd => by
      rw [bundleBytes, List.append_assoc]
      rw [show 4 * (n + 1) + 2 = (4 * n + 1) + 5 from by ring]
      rw [decode_bundle_level (4 * n + 1) d (bundleBytes n ++ rest)
        (by simp only [MAX_RECURSION_DEPTH] at hd ⊢; omega)]
      rw [show (4 * n + 1) + 1 = 4 * n + 2 from by ring]
      rw [decode_mkNestedBundle n (d + 1) rest
        (by simp only [MAX_RECURSION_DEPTH] at hd ⊢; omega)]
      rfl

theorem decode_bundle_deep :
    ∀ (n d : Nat) (rest : List Nat), MAX_RECURSION_DEPTH < d + n →
      decode_item_stack_recursive (4 * n + 2) d false (bundleBytes n ++ rest) =
        .error .recursionLimit
  | 0, d, rest, hdeep => by
      rw [show 4 * 0 + 2 = 1 + 1 from rfl]
      simp only [decode_item_stack_recursive]
      rw [if_pos (by omega : d > MAX_RECURSION_DEPTH)]
  | m + 1, d, rest, hdeep => by
      by_cases hd : d > MAX_RECURSION_DEPTH
      · rw [show 4 * (m + 1) + 2 = (4 * (m + 1) + 1) + 1 from by ring]
        simp only [decode_item_stack_recursive]
        rw [if_pos hd]
      · rw [bundleBytes, List.append_assoc]
        rw [show 4 * (m + 1) + 2 = (4 * m + 1) + 5 from by ring]
        rw [decode_bundle_level (4 * m + 1) d (bundleBytes m ++ rest) hd]
        rw [show (4 * m + 1) + 1 = 4 * m + 2 from by ring]
        rw [decode_bundle_deep m (d + 1) rest (by omega)]
        rfl

set_option maxHeartbeats 1600000 in
/-- C3: the stack decoder fails with the recursion-limit error exactly when
the depth parameter exceeds the fixed limit 16; each recursive call site
of the embedding (nested stack in UseRemainder, nested stack lists in
bundle-style components, exact-matcher components of block predicates)
passes depth + 1; the nested-bundle wire bytes really are the encoding of
the nested-bundle stack; a bundle nested 20 levels deep fails to decode
with the recursion-limit error; and every nesting of at most 16 levels
decodes successfully (the fuel argument is an artifact of the embedding,
instantiated at any sufficient value). -/
theorem claim_C3 :
    (∀ (fuel depth : Nat) (prefixed : Bool) (bs : List Nat), 0 < fuel →
      MAX_RECURSION_DEPTH < depth →
      decode_item_stack_recursive fuel depth prefixed bs =
        .error .recursionLimit) ∧
    MAX_RECURSION_DEPTH = 16 ∧
    (∀ (f d : Nat) (bs : List Nat),
      decode_item_component (f + 1) 22 d bs =
        decode_item_stack_recursive f (d + 1) false bs >>= fun p =>
          .ok (ItemComponent.UseRemainder p.1, p.2)) ∧
    (∀ (f n d : Nat) (bs : List Nat),
      decodeStackList (f + 1) (n + 1) d bs =
        decode_item_stack_recursive f d false bs >>= fun p =>
          decodeStackList f n d p.2 >>= fun q =>
            .ok (p.1 :: q.1, q.2)) ∧
    (∀ (f d : Nat) (bs : List Nat),
      decode_item_component (f + 1) 41 d bs =
        dVarInt bs >>= fun c =>
          decodeStackList f c.1.toNat (d + 1) c.2 >>= fun q =>
            .ok (ItemComponent.BundleContents q.1, q.2)) ∧
    (∀ (f n d : Nat) (bs : List Nat),
      decodeExactList (f + 1) (n + 1) d bs =
        dVarInt bs >>= fun c =>
          decode_item_component f (usizeOfInt c.1) (d + 1) c.2 >>= fun q =>
            decodeExactList f n d q.2 >>= fun r =>
              .ok (ExactComponentMatcher.mk c.1 q.1 :: r.1, r.2)) ∧
    (∀ n, (mkNestedBundle n).encode_recursive false = some (bundleBytes n)) ∧
    decode_item_stack_recursive (4 * 20 + 2) 0 false (bundleBytes 20 ++ []) =
      .error .recursionLimit ∧
    (∀ (n : Nat) (rest : List Nat), n ≤ 16 →
      decode_item_stack_recursive (4 * n + 2) 0 false (bundleBytes n ++ rest) =
        .ok (mkNestedBundle n, rest)) := by
  refine ⟨?_, rfl, ?_, ?_, ?_, ?_, encode_mkNestedBundle, ?_, ?_⟩
  · intro fuel depth prefixed bs hf hdp
    obtain ⟨g, rfl⟩ : ∃ g, fuel = g + 1 := ⟨fuel - 1, by omega⟩
    simp only [decode_item_stack_recursive]
    rw [if_pos (by omega : depth > MAX_RECURSION_DEPTH)]
  · intro f d bs
    rw [decode_item_component]
  · intro f n d bs
    rw [decodeStackList]
  · intro f d bs
    rw [decode_item_component]
  · intro f n d bs
    rw [decodeExactList]
  · exact decode_bundle_deep 20 0 [] (by decide)
  · intro n rest hn
    exact decode_mkNestedBundle n 0 rest
      (by simp only [MAX_RECURSION_DEPTH]; omega)

theorem claim_C3_witness :
    decode_item_stack_recursive 1 17 false [] = .error .recursionLimit ∧
    decode_item_stack_recursive (4 * 16 + 2) 0 false
        (bundleBytes 16 ++ []) = .ok (mkNestedBundle 16, []) :=
  ⟨claim_C3.1 1 17 false [] (by decide) (by decide),
   claim_C3.2.2.2.2.2.2.2.2 16 [] (by decide)⟩


mutual

/-- Wire-range well-formedness of a component payload: every field lies in
the range its codec round-trips on, recursively. -/
def ItemComponent.WFc : ItemComponent → Prop
  | .CustomData x1 => Compound.WF x1
  | .MaxStackSize x1 => I32Range x1
  | .MaxDamage x1 => I32Range x1
  | .Damage x1 => I32Range x1
  | .Unbreakable => True
  | .CustomName x1 => TextComponent.WF x1
  | .ItemName x1 => TextComponent.WF x1
  | .ItemModel x1 => StringWF x1
  | .Lore x1 => (x1.length < 2147483648 ∧ ∀ a ∈ x1, TextComponent.WF a)
  | .Rarity x1 => True
  | .Enchantments x1 => (x1.length < 2147483648 ∧ ∀ a ∈ x1, DrpPairWF a)
  | .CanPlaceOn x1 => (x1.length < 2147483648 ∧ wfPL x1)
  | .CanBreak x1 => (x1.length < 2147483648 ∧ wfPL x1)
  | .AttributeModifiers x1 => (x1.length < 2147483648 ∧ ∀ a ∈ x1, AttributeModifier.WF a)
  | .CustomModelData x1 x2 x3 x4 => (x1.length < 2147483648 ∧ ∀ a ∈ x1, a < 4294967296) ∧ x2.length < 2147483648 ∧ (x3.length < 2147483648 ∧ ∀ a ∈ x3, StringWF a) ∧ (x4.length < 2147483648 ∧ ∀ a ∈ x4, I32Range a)
  | .TooltipDisplay x1 x2 => (x2.length < 2147483648 ∧ ∀ a ∈ x2, I32Range a)
  | .RepairCost x1 => I32Range x1
  | .CreativeSlotLock => True
  | .EnchantmentGlintOverride x1 => True
  | .IntangibleProjectile x1 => Compound.WF x1
  | .Food x1 x2 x3 => I32Range x1 ∧ x2 < 4294967296
  | .Consumable x1 x2 x3 x4 x5 => x1 < 4294967296 ∧ IdOrSoundWF x3 ∧ (x5.length < 2147483648 ∧ ∀ a ∈ x5, ConsumeEffect.WF a)
  | .UseRemainder x1 => ItemStack.WFs x1
  | .UseCooldown x1 x2 => x1 < 4294967296 ∧ (∀ a, x2 = some a → StringWF a)
  | .DamageResistant x1 => StringWF x1
  | .Tool x1 x2 x3 x4 => (x1.length < 2147483648 ∧ ∀ a ∈ x1, ToolRule.WF a) ∧ x2 < 4294967296 ∧ I32Range x3
  | .Weapon x1 x2 => I32Range x1 ∧ x2 < 4294967296
  | .Enchantable x1 => I32Range x1
  | .Equippable x1 x2 x3 x4 x5 x6 x7 x8 => IdOrSoundWF x2 ∧ (∀ a, x3 = some a → StringWF a) ∧ (∀ a, x4 = some a → StringWF a) ∧ (∀ a, x5 = some a → IDSet.WF a)
  | .Repairable x1 => IDSet.WF x1
  | .Glider => True
  | .TooltipStyle x1 => StringWF x1
  | .DeathProtection x1 => (x1.length < 2147483648 ∧ ∀ a ∈ x1, ConsumeEffect.WF a)
  | .BlocksAttacks x1 x2 x3 x4 x5 x6 x7 x8 x9 => x1 < 4294967296 ∧ x2 < 4294967296 ∧ (x3.length < 2147483648 ∧ ∀ a ∈ x3, DamageReduction.WF a) ∧ x4 < 4294967296 ∧ x5 < 4294967296 ∧ x6 < 4294967296 ∧ (∀ a, x7 = some a → StringWF a) ∧ (∀ a, x8 = some a → IdOrSoundWF a) ∧ (∀ a, x9 = some a → IdOrSoundWF a)
  | .StoredEnchantments x1 x2 => (x1.length < 2147483648 ∧ ∀ a ∈ x1, DrpPairWF a)
  | .DyedColor x1 x2 => I32Range x1
  | .MapColor x1 => I32Range x1
  | .MapId x1 => I32Range x1
  | .MapDecorations x1 => Compound.WF x1
  | .MapPostProcessing x1 => True
  | .ChargedProjectiles x1 => (x1.length < 2147483648 ∧ wfSL x1)
  | .BundleContents x1 => (x1.length < 2147483648 ∧ wfSL x1)
  | .PotionContents x1 x2 x3 x4 => (∀ a, x1 = some a → I32Range a) ∧ (∀ a, x2 = some a → I32Range a) ∧ (x3.length < 2147483648 ∧ ∀ a ∈ x3, PotionEffect.WF a) ∧ (∀ a, x4 = some a → StringWF a)
  | .PotionDurationScale x1 => x1 < 4294967296
  | .SuspiciousStewEffects x1 => (x1.length < 2147483648 ∧ ∀ a ∈ x1, IntPairWF a)
  | .WritableBookContent x1 => (x1.length < 2147483648 ∧ ∀ a ∈ x1, WritablePage.WF a)
  | .WrittenBookContent x1 x2 x3 x4 x5 x6 => StringWF x1 ∧ (∀ a, x2 = some a → StringWF a) ∧ StringWF x3 ∧ I32Range x4 ∧ (x5.length < 2147483648 ∧ ∀ a ∈ x5, WrittenPage.WF a)
  | .Trim x1 x2 x3 => IdOrWF TrimMaterial.WF x1 ∧ IdOrWF TrimPattern.WF x2
  | .DebugStickState x1 => Compound.WF x1
  | .EntityData x1 x2 => I32Range x1 ∧ Compound.WF x2
  | .BucketEntityData x1 => Compound.WF x1
  | .BlockEntityData x1 x2 => I32Range x1 ∧ Compound.WF x2
  | .Instrument x1 => IdOrWF InstrumentDefinition.WF x1
  | .ProvidesTrimMaterial x1 => ModePairWF StringWF (IdOrWF TrimMaterial.WF) x1
  | .OminousBottleAmplifier x1 => I32Range x1
  | .JukeboxPlayable x1 x2 => ModePairWF StringWF (IdOrWF JukeboxSong.WF) x1
  | .ProvidesBannerPatterns x1 => StringWF x1
  | .Recipes x1 => Compound.WF x1
  | .LodestoneTracker x1 x2 => (∀ a, x1 = some a → LodestoneTarget.WF a)
  | .FireworkExplosion x1 => FireworkExplosionData.WF x1
  | .Fireworks x1 x2 => I32Range x1 ∧ (x2.length < 2147483648 ∧ ∀ a ∈ x2, FireworkExplosionData.WF a)
  | .Profile x1 => ResolvableProfile.WF x1
  | .NoteBlockSound x1 => StringWF x1
  | .BannerPatterns x1 => (x1.length < 2147483648 ∧ ∀ a ∈ x1, BannerLayer.WF a)
  | .BaseColor x1 => I32Range x1
  | .PotDecorations x1 => (x1.length < 2147483648 ∧ ∀ a ∈ x1, I32Range a)
  | .Container x1 => (x1.length < 2147483648 ∧ wfSL x1)
  | .BlockState x1 => (x1.length < 2147483648 ∧ ∀ a ∈ x1, StringPairWF a)
  | .Bees x1 => (x1.length < 2147483648 ∧ ∀ a ∈ x1, BeeData.WF a)
  | .Lock x1 => StringWF x1
  | .ContainerLoot x1 => Compound.WF x1
  | .BreakSound x1 => IdOrSoundWF x1
  | .VillagerVariant x1 => DynamicRegistryPlaceholder.WF x1
  | .WolfVariant x1 => DynamicRegistryPlaceholder.WF x1
  | .WolfSoundVariant x1 => DynamicRegistryPlaceholder.WF x1
  | .WolfCollar x1 => True
  | .FoxVariant x1 => True
  | .SalmonSize x1 => True
  | .ParrotVariant x1 => True
  | .TropicalFishPatternComp x1 => True
  | .TropicalFishBaseColor x1 => True
  | .TropicalFishPatternColor x1 => True
  | .MooshroomVariant x1 => True
  | .RabbitVariant x1 => True
  | .PigVariant x1 => DynamicRegistryPlaceholder.WF x1
  | .CowVariant x1 => DynamicRegistryPlaceholder.WF x1
  | .ChickenVariant x1 => ModePairWF StringWF I32Range x1
  | .FrogVariant x1 => DynamicRegistryPlaceholder.WF x1
  | .HorseVariant x1 => True
  | .PaintingVariant x1 => IdOrWF PaintingVariantDefinition.WF x1
  | .LlamaVariant x1 => True
  | .AxolotlVariant x1 => True
  | .CatVariant x1 => DynamicRegistryPlaceholder.WF x1
  | .CatCollar x1 => True
  | .SheepColor x1 => True
  | .ShulkerColor x1 => True

/-- Canonical roundtrip shape of an ItemStack: either exactly EMPTY, or a
non-Air kind in range, a count in 1..=127, and a canonical 96-cell patch
list. -/
def ItemStack.WFs : ItemStack → Prop
  | .mk item count comps =>
      (item = ItemKind.Air ∧ count = 0 ∧
        comps = List.replicate NUM_ITEM_COMPONENTS Patchable.None) ∨
      (item ≠ ItemKind.Air ∧ ItemKind.WF item ∧ 1 ≤ count ∧ count ≤ 127 ∧
        comps.length = NUM_ITEM_COMPONENTS ∧ compsWF 0 comps)

/-- Canonical patch cells: Added cells carry their own wire id and content
hash and a well-formed payload; Default cells never round-trip (the default
table is all None). -/
def compsWF : Nat → List (Patchable ItemComponent) → Prop
  | _, [] => True
  | i, .Added c h :: rest =>
      (ItemComponent.id c = i ∧ h = ItemComponent.hash c ∧ ItemComponent.WFc c) ∧
      compsWF (i + 1) rest
  | _, .Default _ :: _ => False
  | i, .Removed :: rest => compsWF (i + 1) rest
  | i, .None :: rest => compsWF (i + 1) rest

def wfSL : List ItemStack → Prop
  | [] => True
  | s :: rest => ItemStack.WFs s ∧ wfSL rest

def wfPL : List BlockPredicate → Prop
  | [] => True
  | p :: rest => BlockPredicate.WFp p ∧ wfPL rest

/-- Well-formedness of a block predicate: every optional field in range and
every exact matcher carrying its payload id. -/
def BlockPredicate.WFp : BlockPredicate → Prop
  | .mk blocks properties nbt exact partials =>
      (∀ a, blocks = some a → IDSet.WF a) ∧
      (∀ l, properties = some l →
        l.length < 2147483648 ∧ ∀ p ∈ l, Property.WF p) ∧
      (∀ c, nbt = some c → Compound.WF c) ∧
      exact.length < 2147483648 ∧ wfML exact ∧
      partials.length < 2147483648 ∧ (∀ m ∈ partials, PartialComponentMatcher.WF m)

def wfML : List ExactComponentMatcher → Prop
  | [] => True
  | .mk ty d :: rest =>
      ty = (ItemComponent.id d : Int) ∧ ItemComponent.WFc d ∧ wfML rest

end

mutual

/-- Minimum sufficient decoder fuel for a component payload (the fuel is an
embedding artifact; theorems hold for every fuel at least this). -/
def fuelC : ItemComponent → Nat
  | .CustomData _ => 1
  | .MaxStackSize _ => 1
  | .MaxDamage _ => 1
  | .Damage _ => 1
  | .Unbreakable => 1
  | .CustomName _ => 1
  | .ItemName _ => 1
  | .ItemModel _ => 1
  | .Lore _ => 1
  | .Rarity _ => 1
  | .Enchantments _ => 1
  | .CanPlaceOn x1 => 1 + fuelPL x1
  | .CanBreak x1 => 1 + fuelPL x1
  | .AttributeModifiers _ => 1
  | .CustomModelData _ _ _ _ => 1
  | .TooltipDisplay _ _ => 1
  | .RepairCost _ => 1
  | .CreativeSlotLock => 1
  | .EnchantmentGlintOverride _ => 1
  | .IntangibleProjectile _ => 1
  | .Food _ _ _ => 1
  | .Consumable _ _ _ _ _ => 1
  | .UseRemainder x1 => 1 + fuelS x1
  | .UseCooldown _ _ => 1
  | .DamageResistant _ => 1
  | .Tool _ _ _ _ => 1
  | .Weapon _ _ => 1
  | .Enchantable _ => 1
  | .Equippable _ _ _ _ _ _ _ _ => 1
  | .Repairable _ => 1
  | .Glider => 1
  | .TooltipStyle _ => 1
  | .DeathProtection _ => 1
  | .BlocksAttacks _ _ _ _ _ _ _ _ _ => 1
  | .StoredEnchantments _ _ => 1
  | .DyedColor _ _ => 1
  | .MapColor _ => 1
  | .MapId _ => 1
  | .MapDecorations _ => 1
  | .MapPostProcessing _ => 1
  | .ChargedProjectiles x1 => 1 + fuelSL x1
  | .BundleContents x1 => 1 + fuelSL x1
  | .PotionContents _ _ _ _ => 1
  | .PotionDurationScale _ => 1
  | .SuspiciousStewEffects _ => 1
  | .WritableBookContent _ => 1
  | .WrittenBookContent _ _ _ _ _ _ => 1
  | .Trim _ _ _ => 1
  | .DebugStickState _ => 1
  | .EntityData _ _ => 1
  | .BucketEntityData _ => 1
  | .BlockEntityData _ _ => 1
  | .Instrument _ => 1
  | .ProvidesTrimMaterial _ => 1
  | .OminousBottleAmplifier _ => 1
  | .JukeboxPlayable _ _ => 1
  | .ProvidesBannerPatterns _ => 1
  | .Recipes _ => 1
  | .LodestoneTracker _ _ => 1
  | .FireworkExplosion _ => 1
  | .Fireworks _ _ => 1
  | .Profile _ => 1
  | .NoteBlockSound _ => 1
  | .BannerPatterns _ => 1
  | .BaseColor _ => 1
  | .PotDecorations _ => 1
  | .Container x1 => 1 + fuelSL x1
  | .BlockState _ => 1
  | .Bees _ => 1
  | .Lock _ => 1
  | .ContainerLoot _ => 1
  | .BreakSound _ => 1
  | .VillagerVariant _ => 1
  | .WolfVariant _ => 1
  | .WolfSoundVariant _ => 1
  | .WolfCollar _ => 1
  | .FoxVariant _ => 1
  | .SalmonSize _ => 1
  | .ParrotVariant _ => 1
  | .TropicalFishPatternComp _ => 1
  | .TropicalFishBaseColor _ => 1
  | .TropicalFishPatternColor _ => 1
  | .MooshroomVariant _ => 1
  | .RabbitVariant _ => 1
  | .PigVariant _ => 1
  | .CowVariant _ => 1
  | .ChickenVariant _ => 1
  | .FrogVariant _ => 1
  | .HorseVariant _ => 1
  | .PaintingVariant _ => 1
  | .LlamaVariant _ => 1
  | .AxolotlVariant _ => 1
  | .CatVariant _ => 1
  | .CatCollar _ => 1
  | .SheepColor _ => 1
  | .ShulkerColor _ => 1

def fuelS : ItemStack → Nat
  | .mk _ _ comps => 1 + fuelCL comps

def fuelCL : List (Patchable ItemComponent) → Nat
  | [] => 1
  | .Added c _ :: rest => 1 + max (fuelC c) (fuelCL rest)
  | .Default _ :: rest => fuelCL rest
  | .Removed :: rest => fuelCL rest
  | .None :: rest => fuelCL rest

def fuelSL : List ItemStack → Nat
  | [] => 1
  | s :: rest => 1 + max (fuelS s) (fuelSL rest)

def fuelPL : List BlockPredicate → Nat
  | [] => 1
  | p :: rest => 1 + max (fuelP p) (fuelPL rest)

def fuelP : BlockPredicate → Nat
  | .mk _ _ _ exact _ => 1 + fuelML exact

def fuelML : List ExactComponentMatcher → Nat
  | [] => 1
  | .mk _ d :: rest => 1 + max (fuelC d) (fuelML rest)

end

mutual

/-- Depth headroom a component payload needs below MAX_RECURSION_DEPTH. -/
def depthC : ItemComponent → Nat
  | .CustomData _ => 0
  | .MaxStackSize _ => 0
  | .MaxDamage _ => 0
  | .Damage _ => 0
  | .Unbreakable => 0
  | .CustomName _ => 0
  | .ItemName _ => 0
  | .ItemModel _ => 0
  | .Lore _ => 0
  | .Rarity _ => 0
  | .Enchantments _ => 0
  | .CanPlaceOn x1 => depthPL x1
  | .CanBreak x1 => depthPL x1
  | .AttributeModifiers _ => 0
  | .CustomModelData _ _ _ _ => 0
  | .TooltipDisplay _ _ => 0
  | .RepairCost _ => 0
  | .CreativeSlotLock => 0
  | .EnchantmentGlintOverride _ => 0
  | .IntangibleProjectile _ => 0
  | .Food _ _ _ => 0
  | .Consumable _ _ _ _ _ => 0
  | .UseRemainder x1 => 1 + depthS x1
  | .UseCooldown _ _ => 0
  | .DamageResistant _ => 0
  | .Tool _ _ _ _ => 0
  | .Weapon _ _ => 0
  | .Enchantable _ => 0
  | .Equippable _ _ _ _ _ _ _ _ => 0
  | .Repairable _ => 0
  | .Glider => 0
  | .TooltipStyle _ => 0
  | .DeathProtection _ => 0
  | .BlocksAttacks _ _ _ _ _ _ _ _ _ => 0
  | .StoredEnchantments _ _ => 0
  | .DyedColor _ _ => 0
  | .MapColor _ => 0
  | .MapId _ => 0
  | .MapDecorations _ => 0
  | .MapPostProcessing _ => 0
  | .ChargedProjectiles x1 => 1 + depthSL x1
  | .BundleContents x1 => 1 + depthSL x1
  | .PotionContents _ _ _ _ => 0
  | .PotionDurationScale _ => 0
  | .SuspiciousStewEffects _ => 0
  | .WritableBookContent _ => 0
  | .WrittenBookContent _ _ _ _ _ _ => 0
  | .Trim _ _ _ => 0
  | .DebugStickState _ => 0
  | .EntityData _ _ => 0
  | .BucketEntityData _ => 0
  | .BlockEntityData _ _ => 0
  | .Instrument _ => 0
  | .ProvidesTrimMaterial _ => 0
  | .OminousBottleAmplifier _ => 0
  | .JukeboxPlayable _ _ => 0
  | .ProvidesBannerPatterns _ => 0
  | .Recipes _ => 0
  | .LodestoneTracker _ _ => 0
  | .FireworkExplosion _ => 0
  | .Fireworks _ _ => 0
  | .Profile _ => 0
  | .NoteBlockSound _ => 0
  | .BannerPatterns _ => 0
  | .BaseColor _ => 0
  | .PotDecorations _ => 0
  | .Container x1 => 1 + depthSL x1
  | .BlockState _ => 0
  | .Bees _ => 0
  | .Lock _ => 0
  | .ContainerLoot _ => 0
  | .BreakSound _ => 0
  | .VillagerVariant _ => 0
  | .WolfVariant _ => 0
  | .WolfSoundVariant _ => 0
  | .WolfCollar _ => 0
  | .FoxVariant _ => 0
  | .SalmonSize _ => 0
  | .ParrotVariant _ => 0
  | .TropicalFishPatternComp _ => 0
  | .TropicalFishBaseColor _ => 0
  | .TropicalFishPatternColor _ => 0
  | .MooshroomVariant _ => 0
  | .RabbitVariant _ => 0
  | .PigVariant _ => 0
  | .CowVariant _ => 0
  | .ChickenVariant _ => 0
  | .FrogVariant _ => 0
  | .HorseVariant _ => 0
  | .PaintingVariant _ => 0
  | .LlamaVariant _ => 0
  | .AxolotlVariant _ => 0
  | .CatVariant _ => 0
  | .CatCollar _ => 0
  | .SheepColor _ => 0
  | .ShulkerColor _ => 0

def depthS : ItemStack → Nat
  | .mk _ _ comps => depthCL comps

def depthCL : List (Patchable ItemComponent) → Nat
  | [] => 0
  | .Added c _ :: rest => max (depthC c) (depthCL rest)
  | .Default _ :: rest => depthCL rest
  | .Removed :: rest => depthCL rest
  | .None :: rest => depthCL rest

def depthSL : List ItemStack → Nat
  | [] => 0
  | s :: rest => max (depthS s) (depthSL rest)

def depthPL : List BlockPredicate → Nat
  | [] => 0
  | p :: rest => max (depthP p) (depthPL rest)

def depthP : BlockPredicate → Nat
  | .mk _ _ _ exact _ => depthML exact

def depthML : List ExactComponentMatcher → Nat
  | [] => 0
  | .mk _ d :: rest => max (1 + depthC d) (depthML rest)

end

/-- The accumulator effect of the added-components decode loop: each Added
cell sets its index to Added with the recomputed content hash. -/
def applyAdds : Nat → List (Patchable ItemComponent) → List (Patchable ItemComponent) →
    List (Patchable ItemComponent)
  | _, [], acc => acc
  | i, .Added c _ :: rest, acc =>
      applyAdds (i + 1) rest (acc.set i (Patchable.Added c (ItemComponent.hash c)))
  | i, .Default _ :: rest, acc => applyAdds (i + 1) rest acc
  | i, .Removed :: rest, acc => applyAdds (i + 1) rest acc
  | i, .None :: rest, acc => applyAdds (i + 1) rest acc

/-- The combined effect of the added and removed decode loops, in one pass. -/
def patchAll : Nat → List (Patchable ItemComponent) → List (Patchable ItemComponent) →
    List (Patchable ItemComponent)
  | _, [], acc => acc
  | i, .Added c _ :: rest, acc =>
      patchAll (i + 1) rest (acc.set i (Patchable.Added c (ItemComponent.hash c)))
  | i, .Default _ :: rest, acc => patchAll (i + 1) rest acc
  | i, .Removed :: rest, acc => patchAll (i + 1) rest (acc.set i Patchable.Removed)
  | i, .None :: rest, acc => patchAll (i + 1) rest acc

/-- Pointwise compatibility of a patch list with a decode accumulator: None
cells must already be None, Added cells carry their content hash, and Default
cells are impossible. -/
def overlayOK : List (Patchable ItemComponent) → List (Patchable ItemComponent) → Prop
  | [], [] => True
  | .None :: cs, a :: as2 => a = Patchable.None ∧ overlayOK cs as2
  | .Added c h :: cs, _ :: as2 => h = ItemComponent.hash c ∧ overlayOK cs as2
  | .Removed :: cs, _ :: as2 => overlayOK cs as2
  | .Default _ :: _, _ :: _ => False
  | [], _ :: _ => False
  | _ :: _, [] => False

theorem usizeOfInt_natCast (n : Nat) (h : n < 18446744073709551616) :
    usizeOfInt (n : Int) = n := by
  unfold usizeOfInt
  omega

theorem i8ofInt_of_range (i : Int) (h1 : 0 ≤ i) (h2 : i ≤ 127) : i8ofInt i = i := by
  unfold i8ofInt
  omega

theorem ItemComponent.id_lt (c : ItemComponent) : ItemComponent.id c < 96 := by
  cases c <;> simp only [ItemComponent.id] <;> omega

theorem collectAdded_length_le : ∀ (i : Nat) (cs : List (Patchable ItemComponent)),
    (collectAdded i cs).length ≤ cs.length
  | _, [] => Nat.le_refl 0
  | i, .Added c h :: rest => by
      simp only [collectAdded, List.length_cons]
      exact Nat.succ_le_succ (collectAdded_length_le (i + 1) rest)
  | i, .Default v :: rest => by
      simp only [collectAdded, List.length_cons]
      exact Nat.le_succ_of_le (collectAdded_length_le (i + 1) rest)
  | i, .Removed :: rest => by
      simp only [collectAdded, List.length_cons]
      exact Nat.le_succ_of_le (collectAdded_length_le (i + 1) rest)
  | i, .None :: rest => by
      simp only [collectAdded, List.length_cons]
      exact Nat.le_succ_of_le (collectAdded_length_le (i + 1) rest)

theorem collectRemoved_length_le : ∀ (i : Nat) (cs : List (Patchable ItemComponent)),
    (collectRemoved i cs).length ≤ cs.length
  | _, [] => Nat.le_refl 0
  | i, .Removed :: rest => by
      simp only [collectRemoved, List.length_cons]
      exact Nat.succ_le_succ (collectRemoved_length_le (i + 1) rest)
  | i, .Added c h :: rest => by
      simp only [collectRemoved, List.length_cons]
      exact Nat.le_succ_of_le (collectRemoved_length_le (i + 1) rest)
  | i, .Default v :: rest => by
      simp only [collectRemoved, List.length_cons]
      exact Nat.le_succ_of_le (collectRemoved_length_le (i + 1) rest)
  | i, .None :: rest => by
      simp only [collectRemoved, List.length_cons]
      exact Nat.le_succ_of_le (collectRemoved_length_le (i + 1) rest)

theorem collectRemoved_lt : ∀ (cs : List (Patchable ItemComponent)) (i m : Nat),
    i + cs.length ≤ m → ∀ j ∈ collectRemoved i cs, j < m
  | [], _, _, _, j, hj => absurd hj (by simp [collectRemoved])
  | .Removed :: rest, i, m, hb, j, hj => by
      simp only [collectRemoved, List.mem_cons] at hj
      rcases hj with rfl | hj
      · simp only [List.length_cons] at hb
        omega
      · exact collectRemoved_lt rest (i + 1) m
          (by simp only [List.length_cons] at hb; omega) j hj
  | .Added c h :: rest, i, m, hb, j, hj => by
      simp only [collectRemoved] at hj
      exact collectRemoved_lt rest (i + 1) m
        (by simp only [List.length_cons] at hb; omega) j hj
  | .Default v :: rest, i, m, hb, j, hj => by
      simp only [collectRemoved] at hj
      exact collectRemoved_lt rest (i + 1) m
        (by simp only [List.length_cons] at hb; omega) j hj
  | .None :: rest, i, m, hb, j, hj => by
      simp only [collectRemoved] at hj
      exact collectRemoved_lt rest (i + 1) m
        (by simp only [List.length_cons] at hb; omega) j hj

theorem set_append_len {α : Type} : ∀ (pre l : List α) (a v : α),
    (pre ++ a :: l).set pre.length v = pre ++ v :: l
  | [], _, _, _ => rfl
  | p :: pre, l, a, v => by
      simp only [List.cons_append, List.length_cons, List.set_cons_succ]
      rw [set_append_len pre l a v]

theorem applyAdds_set_lt : ∀ (cs : List (Patchable ItemComponent)) (i j : Nat)
    (v : Patchable ItemComponent) (acc : List (Patchable ItemComponent)), j < i →
    (applyAdds i cs acc).set j v = applyAdds i cs (acc.set j v)
  | [], _, _, _, _, _ => rfl
  | .Added c hh :: rest, i, j, v, acc, h => by
      simp only [applyAdds]
      rw [applyAdds_set_lt rest (i + 1) j v _ (by omega),
        List.set_comm (Patchable.Added c (ItemComponent.hash c)) v acc (by omega : i ≠ j)]
  | .Default w :: rest, i, j, v, acc, h => by
      simp only [applyAdds]
      exact applyAdds_set_lt rest (i + 1) j v acc (by omega)
  | .Removed :: rest, i, j, v, acc, h => by
      simp only [applyAdds]
      exact applyAdds_set_lt rest (i + 1) j v acc (by omega)
  | .None :: rest, i, j, v, acc, h => by
      simp only [applyAdds]
      exact applyAdds_set_lt rest (i + 1) j v acc (by omega)

/-- Applying the removed loop after the added loop is the single combined
pass: the two touch disjoint indices. -/
theorem removedFold_applyAdds : ∀ (cs : List (Patchable ItemComponent)) (i : Nat)
    (acc : List (Patchable ItemComponent)),
    (collectRemoved i cs).foldl (fun a j => a.set j Patchable.Removed) (applyAdds i cs acc) =
      patchAll i cs acc
  | [], _, _ => rfl
  | .Added c hh :: rest, i, acc => by
      simp only [collectRemoved, applyAdds, patchAll]
      exact removedFold_applyAdds rest (i + 1)
        (acc.set i (Patchable.Added c (ItemComponent.hash c)))
  | .Default v :: rest, i, acc => by
      simp only [collectRemoved, applyAdds, patchAll]
      exact removedFold_applyAdds rest (i + 1) acc
  | .Removed :: rest, i, acc => by
      simp only [collectRemoved, applyAdds, patchAll, List.foldl_cons]
      rw [applyAdds_set_lt rest (i + 1) i Patchable.Removed acc (by omega)]
      exact removedFold_applyAdds rest (i + 1) (acc.set i Patchable.Removed)
  | .None :: rest, i, acc => by
      simp only [collectRemoved, applyAdds, patchAll]
      exact removedFold_applyAdds rest (i + 1) acc

theorem patchAll_pre : ∀ (cs pre acc : List (Patchable ItemComponent)),
    overlayOK cs acc → patchAll pre.length cs (pre ++ acc) = pre ++ cs
  | [], pre, [], _ => by simp only [patchAll, List.append_nil]
  | [], pre, a :: as2, hOK => by simp only [overlayOK] at hOK
  | .None :: cs, pre, [], hOK => by simp only [overlayOK] at hOK
  | .Added c hh :: cs, pre, [], hOK => by simp only [overlayOK] at hOK
  | .Removed :: cs, pre, [], hOK => by simp only [overlayOK] at hOK
  | .Default v :: cs, pre, [], hOK => by simp only [overlayOK] at hOK
  | .None :: cs, pre, a :: as2, hOK => by
      simp only [overlayOK] at hOK
      obtain ⟨rfl, hrest⟩ := hOK
      simp only [patchAll]
      have h2 := patchAll_pre cs (pre ++ [Patchable.None]) as2 hrest
      simp only [List.append_assoc, List.singleton_append, List.length_append,
        List.length_singleton] at h2
      exact h2
  | .Added c hh :: cs, pre, a :: as2, hOK => by
      simp only [overlayOK] at hOK
      obtain ⟨rfl, hrest⟩ := hOK
      simp only [patchAll]
      rw [set_append_len pre as2 a (Patchable.Added c (ItemComponent.hash c))]
      have h2 := patchAll_pre cs (pre ++ [Patchable.Added c (ItemComponent.hash c)]) as2 hrest
      simp only [List.append_assoc, List.singleton_append, List.length_append,
        List.length_singleton] at h2
      exact h2
  | .Removed :: cs, pre, a :: as2, hOK => by
      simp only [overlayOK] at hOK
      simp only [patchAll]
      rw [set_append_len pre as2 a Patchable.Removed]
      have h2 := patchAll_pre cs (pre ++ [Patchable.Removed]) as2 hOK
      simp only [List.append_assoc, List.singleton_append, List.length_append,
        List.length_singleton] at h2
      exact h2
  | .Default v :: cs, pre, a :: as2, hOK => by simp only [overlayOK] at hOK

theorem compsWF_overlayOK : ∀ (cs : List (Patchable ItemComponent)) (i n : Nat),
    compsWF i cs → cs.length = n → overlayOK cs (List.replicate n Patchable.None)
  | [], _, n, _, hlen => by
      subst hlen
      simp only [List.length_nil, List.replicate_zero, overlayOK]
  | .None :: cs, i, n, hwf, hlen => by
      simp only [compsWF] at hwf
      obtain ⟨m, rfl⟩ : ∃ m, n = m + 1 := ⟨cs.length, by simp at hlen; omega⟩
      rw [List.replicate_succ]
      simp only [overlayOK]
      exact ⟨by trivial, compsWF_overlayOK cs (i + 1) m hwf (by simp at hlen; omega)⟩
  | .Added c hh :: cs, i, n, hwf, hlen => by
      simp only [compsWF] at hwf
      obtain ⟨m, rfl⟩ : ∃ m, n = m + 1 := ⟨cs.length, by simp at hlen; omega⟩
      rw [List.replicate_succ]
      simp only [overlayOK]
      exact ⟨hwf.1.2.1, compsWF_overlayOK cs (i + 1) m hwf.2 (by simp at hlen; omega)⟩
  | .Removed :: cs, i, n, hwf, hlen => by
      simp only [compsWF] at hwf
      obtain ⟨m, rfl⟩ : ∃ m, n = m + 1 := ⟨cs.length, by simp at hlen; omega⟩
      rw [List.replicate_succ]
      simp only [overlayOK]
      exact compsWF_overlayOK cs (i + 1) m hwf (by simp at hlen; omega)
  | .Default v :: cs, i, n, hwf, hlen => by simp only [compsWF] at hwf

/-- Decoding the patch loops from the all-None default table rebuilds a
canonical patch list exactly. -/
theorem patchAll_replicate (cs : List (Patchable ItemComponent)) (n : Nat)
    (hwf : compsWF 0 cs) (hlen : cs.length = n) :
    patchAll 0 cs (List.replicate n Patchable.None) = cs := by
  have h2 := patchAll_pre cs [] (List.replicate n Patchable.None)
    (compsWF_overlayOK cs 0 n hwf hlen)
  simpa using h2

/-- The removed-components loop round trip: reading back the encoded removed
ids sets exactly those cells to Removed. -/
theorem removedRT : ∀ (ids : List Nat) (acc : List (Patchable ItemComponent)) (r : List Nat),
    (∀ j ∈ ids, j < NUM_ITEM_COMPONENTS) →
    decodeRemovedComponents ids.length acc (encodeRemovedIds ids ++ r) =
      .ok (ids.foldl (fun a j => a.set j Patchable.Removed) acc, r)
  | [], acc, r, _ => by
      rw [show encodeRemovedIds [] = [] from rfl]
      simp only [List.length_nil, List.foldl_nil, List.nil_append]
      rw [decodeRemovedComponents]
  | j :: ids, acc, r, h => by
      have hj : j < NUM_ITEM_COMPONENTS := h j (List.mem_cons_self j ids)
      have hj96 : j < 96 := by simpa [NUM_ITEM_COMPONENTS] using hj
      rw [show encodeRemovedIds (j :: ids) =
        encodeVarInt (j : Int) ++ encodeRemovedIds ids from rfl]
      simp only [List.length_cons, List.append_assoc, List.foldl_cons]
      rw [decodeRemovedComponents]
      dsimp only
      rw [dVarInt_enc (j : Int) _ (by omega) (by omega), exbind_ok]
      dsimp only
      rw [usizeOfInt_natCast j (by omega)]
      rw [if_neg (show ¬ NUM_ITEM_COMPONENTS ≤ j by omega)]
      exact removedRT ids (acc.set j Patchable.Removed) r
        (fun k hk => h k (List.mem_cons_of_mem j hk))

theorem compsWF_replicate : ∀ (n i : Nat), compsWF i (List.replicate n Patchable.None)
  | 0, _ => by simp only [List.replicate_zero, compsWF]
  | n + 1, i => by
      rw [List.replicate_succ]
      simp only [compsWF]
      exact compsWF_replicate n (i + 1)

theorem fuelCL_replicate : ∀ (n : Nat), fuelCL (List.replicate n Patchable.None) = 1
  | 0 => by simp only [List.replicate_zero, fuelCL]
  | n + 1 => by
      rw [List.replicate_succ]
      simp only [fuelCL]
      exact fuelCL_replicate n

theorem depthCL_replicate : ∀ (n : Nat), depthCL (List.replicate n Patchable.None) = 0
  | 0 => by simp only [List.replicate_zero, depthCL]
  | n + 1 => by
      rw [List.replicate_succ]
      simp only [depthCL]
      exact depthCL_replicate n

set_option maxHeartbeats 1600000 in
mutual

theorem compRT (c : ItemComponent) : ItemComponent.WFc c →
    ∀ fuel depth, fuelC c ≤ fuel → depth + depthC c ≤ MAX_RECURSION_DEPTH →
    ∃ bytes, ItemComponent.encode c = some bytes ∧
      ∀ r, decode_item_component fuel (ItemComponent.id c) depth (bytes ++ r) =
        .ok (c, r) := by
  cases c with
  | CustomData x1 =>
      intro h fuel depth hf hd
      simp only [fuelC] at hf
      obtain ⟨f, rfl⟩ : ∃ f, fuel = f + 1 := ⟨fuel - 1, by omega⟩
      simp only [ItemComponent.WFc] at h
      refine ⟨encodeCompound x1, by rw [ItemComponent.encode], fun r => ?_⟩
      simp only [ItemComponent.id]
      simp only [decode_item_component, List.append_assoc]
      rw [dCompound_enc x1 _ h, exbind_ok]
  | MaxStackSize x1 =>
      intro h fuel depth hf hd
      simp only [fuelC] at hf
      obtain ⟨f, rfl⟩ : ∃ f, fuel = f + 1 := ⟨fuel - 1, by omega⟩
      simp only [ItemComponent.WFc] at h
      refine ⟨encodeVarInt x1, by rw [ItemComponent.encode], fun r => ?_⟩
      simp only [ItemComponent.id]
      simp only [decode_item_component, List.append_assoc]
      rw [dVarInt_enc x1 _ h.1 h.2, exbind_ok]
  | MaxDamage x1 =>
      intro h fuel depth hf hd
      simp only [fuelC] at hf
      obtain ⟨f, rfl⟩ : ∃ f, fuel = f + 1 := ⟨fuel - 1, by omega⟩
      simp only [ItemComponent.WFc] at h
      refine ⟨encodeVarInt x1, by rw [ItemComponent.encode], fun r => ?_⟩
      simp only [ItemComponent.id]
      simp only [decode_item_component, List.append_assoc]
      rw [dVarInt_enc x1 _ h.1 h.2, exbind_ok]
  | Damage x1 =>
      intro h fuel depth hf hd
      simp only [fuelC] at hf
      obtain ⟨f, rfl⟩ : ∃ f, fuel = f + 1 := ⟨fuel - 1, by omega⟩
      simp only [ItemComponent.WFc] at h
      refine ⟨encodeVarInt x1, by rw [ItemComponent.encode], fun r => ?_⟩
      simp only [ItemComponent.id]
      simp only [decode_item_component, List.append_assoc]
      rw [dVarInt_enc x1 _ h.1 h.2, exbind_ok]
  | Unbreakable =>
      intro h fuel depth hf hd
      simp only [fuelC] at hf
      obtain ⟨f, rfl⟩ : ∃ f, fuel = f + 1 := ⟨fuel - 1, by omega⟩
      refine ⟨[], by rw [ItemComponent.encode], fun r => ?_⟩
      simp only [ItemComponent.id]
      simp only [decode_item_component]
      simp only [List.nil_append]
  | CustomName x1 =>
      intro h fuel depth hf hd
      simp only [fuelC] at hf
      obtain ⟨f, rfl⟩ : ∃ f, fuel = f + 1 := ⟨fuel - 1, by omega⟩
      simp only [ItemComponent.WFc] at h
      obtain ⟨b1, hb1, hd1⟩ := textComponentRT x1 h
      refine ⟨b1, by rw [ItemComponent.encode, hb1]; rfl, fun r => ?_⟩
      simp only [ItemComponent.id]
      simp only [decode_item_component, List.append_assoc]
      rw [hd1, exbind_ok]
  | ItemName x1 =>
      intro h fuel depth hf hd
      simp only [fuelC] at hf
      obtain ⟨f, rfl⟩ : ∃ f, fuel = f + 1 := ⟨fuel - 1, by omega⟩
      simp only [ItemComponent.WFc] at h
      obtain ⟨b1, hb1, hd1⟩ := textComponentRT x1 h
      refine ⟨b1, by rw [ItemComponent.encode, hb1]; rfl, fun r => ?_⟩
      simp only [ItemComponent.id]
      simp only [decode_item_component, List.append_assoc]
      rw [hd1, exbind_ok]
  | ItemModel x1 =>
      intro h fuel depth hf hd
      simp only [fuelC] at hf
      obtain ⟨f, rfl⟩ : ∃ f, fuel = f + 1 := ⟨fuel - 1, by omega⟩
      simp only [ItemComponent.WFc] at h
      refine ⟨encodeString x1, by rw [ItemComponent.encode], fun r => ?_⟩
      simp only [ItemComponent.id]
      simp only [decode_item_component, List.append_assoc]
      rw [dString_enc x1 _ h, exbind_ok]
  | Lore x1 =>
      intro h fuel depth hf hd
      simp only [fuelC] at hf
      obtain ⟨f, rfl⟩ : ∃ f, fuel = f + 1 := ⟨fuel - 1, by omega⟩
      simp only [ItemComponent.WFc] at h
      obtain ⟨b1, hb1, hd1⟩ := vecRT dTextComponent encodeTextComponent TextComponent.WF x1 h.1 h.2 textComponentRT
      refine ⟨b1, by rw [ItemComponent.encode, hb1]; rfl, fun r => ?_⟩
      simp only [ItemComponent.id]
      simp only [decode_item_component, List.append_assoc]
      rw [hd1, exbind_ok]
  | Rarity x1 =>
      intro h fuel depth hf hd
      simp only [fuelC] at hf
      obtain ⟨f, rfl⟩ : ∃ f, fuel = f + 1 := ⟨fuel - 1, by omega⟩
      refine ⟨encodeFin x1, by rw [ItemComponent.encode], fun r => ?_⟩
      simp only [ItemComponent.id]
      simp only [decode_item_component, List.append_assoc]
      rw [dFin_enc x1 _ (by norm_num), exbind_ok]
  | Enchantments x1 =>
      intro h fuel depth hf hd
      simp only [fuelC] at hf
      obtain ⟨f, rfl⟩ : ∃ f, fuel = f + 1 := ⟨fuel - 1, by omega⟩
      simp only [ItemComponent.WFc] at h
      obtain ⟨b1, hb1, hd1⟩ := vecRT dDrpPair encDrpPair DrpPairWF x1 h.1 h.2 drpPairRT
      refine ⟨b1, by rw [ItemComponent.encode, hb1]; rfl, fun r => ?_⟩
      simp only [ItemComponent.id]
      simp only [decode_item_component, List.append_assoc]
      rw [hd1, exbind_ok]
  | CanPlaceOn x1 =>
      intro h fuel depth hf hd
      simp only [fuelC] at hf
      simp only [depthC] at hd
      obtain ⟨f, rfl⟩ : ∃ f, fuel = f + 1 := ⟨fuel - 1, by omega⟩
      simp only [ItemComponent.WFc] at h
      have hlen1 := h.1
      obtain ⟨b1, hb1, hd1⟩ := predListRT x1 h.2 f depth (by omega) (by omega)
      refine ⟨encodeVarInt (x1.length : Int) ++ b1, by rw [ItemComponent.encode, hb1]; rfl, fun r => ?_⟩
      simp only [ItemComponent.id]
      simp only [decode_item_component, List.append_assoc]
      rw [dVarInt_enc (x1.length : Int) _ (by omega) (by omega), exbind_ok]
      dsimp only
      rw [show ((x1.length : Int)).toNat = x1.length from rfl]
      rw [hd1, exbind_ok]
  | CanBreak x1 =>
      intro h fuel depth hf hd
      simp only [fuelC] at hf
      simp only [depthC] at hd
      obtain ⟨f, rfl⟩ : ∃ f, fuel = f + 1 := ⟨fuel - 1, by omega⟩
      simp only [ItemComponent.WFc] at h
      have hlen1 := h.1
      obtain ⟨b1, hb1, hd1⟩ := predListRT x1 h.2 f depth (by omega) (by omega)
      refine ⟨encodeVarInt (x1.length : Int) ++ b1, by rw [ItemComponent.encode, hb1]; rfl, fun r => ?_⟩
      simp only [ItemComponent.id]
      simp only [decode_item_component, List.append_assoc]
      rw [dVarInt_enc (x1.length : Int) _ (by omega) (by omega), exbind_ok]
      dsimp only
      rw [show ((x1.length : Int)).toNat = x1.length from rfl]
      rw [hd1, exbind_ok]
  | AttributeModifiers x1 =>
      intro h fuel depth hf hd
      simp only [fuelC] at hf
      obtain ⟨f, rfl⟩ : ∃ f, fuel = f + 1 := ⟨fuel - 1, by omega⟩
      simp only [ItemComponent.WFc] at h
      obtain ⟨b1, hb1, hd1⟩ := vecRT dAttributeModifier encAttributeModifierElem AttributeModifier.WF x1 h.1 h.2 (fun a ha => ⟨encodeAttributeModifier a, rfl, fun r => attributeModifierRT a ha r⟩)
      refine ⟨b1, by rw [ItemComponent.encode, hb1]; rfl, fun r => ?_⟩
      simp only [ItemComponent.id]
      simp only [decode_item_component, List.append_assoc]
      rw [hd1, exbind_ok]
  | CustomModelData x1 x2 x3 x4 =>
      intro h fuel depth hf hd
      simp only [fuelC] at hf
      obtain ⟨f, rfl⟩ : ∃ f, fuel = f + 1 := ⟨fuel - 1, by omega⟩
      simp only [ItemComponent.WFc] at h
      obtain ⟨h1, h2, h3, h4⟩ := h
      obtain ⟨b1, hb1, hd1⟩ := vecRT dF32 encF32Elem (fun v => v < 4294967296) x1 h1.1 h1.2 (fun a ha => ⟨encodeF32 a, rfl, fun r => dF32_enc a r ha⟩)
      obtain ⟨b2, hb2, hd2⟩ := vecRT dBool encBoolElem (fun _ => True) x2 h2 (fun a _ => trivial) (fun a _ => ⟨encodeBool a, rfl, fun r => dBool_enc a r⟩)
      obtain ⟨b3, hb3, hd3⟩ := vecRT dString encStringElem StringWF x3 h3.1 h3.2 (fun a ha => ⟨encodeString a, rfl, fun r => dString_enc a r ha⟩)
      obtain ⟨b4, hb4, hd4⟩ := vecRT dI32 encodeI32Elem I32Range x4 h4.1 h4.2 i32ElemRT
      refine ⟨b1 ++ b2 ++ b3 ++ b4, by rw [ItemComponent.encode, hb1, hb2, hb3, hb4]; rfl, fun r => ?_⟩
      simp only [ItemComponent.id]
      simp only [decode_item_component, List.append_assoc]
      rw [hd1, exbind_ok]
      dsimp only
      rw [hd2, exbind_ok]
      dsimp only
      rw [hd3, exbind_ok]
      dsimp only
      rw [hd4, exbind_ok]
  | TooltipDisplay x1 x2 =>
      intro h fuel depth hf hd
      simp only [fuelC] at hf
      obtain ⟨f, rfl⟩ : ∃ f, fuel = f + 1 := ⟨fuel - 1, by omega⟩
      simp only [ItemComponent.WFc] at h
      obtain ⟨b2, hb2, hd2⟩ := vecRT dVarInt encVarIntElem I32Range x2 h.1 h.2 (fun a ha => ⟨encodeVarInt a, rfl, fun r => dVarInt_enc a r ha.1 ha.2⟩)
      refine ⟨encodeBool x1 ++ b2, by rw [ItemComponent.encode, hb2]; rfl, fun r => ?_⟩
      simp only [ItemComponent.id]
      simp only [decode_item_component, List.append_assoc]
      rw [dBool_enc x1 _, exbind_ok]
      dsimp only
      rw [hd2, exbind_ok]
  | RepairCost x1 =>
      intro h fuel depth hf hd
      simp only [fuelC] at hf
      obtain ⟨f, rfl⟩ : ∃ f, fuel = f + 1 := ⟨fuel - 1, by omega⟩
      simp only [ItemComponent.WFc] at h
      refine ⟨encodeVarInt x1, by rw [ItemComponent.encode], fun r => ?_⟩
      simp only [ItemComponent.id]
      simp only [decode_item_component, List.append_assoc]
      rw [dVarInt_enc x1 _ h.1 h.2, exbind_ok]
  | CreativeSlotLock =>
      intro h fuel depth hf hd
      simp only [fuelC] at hf
      obtain ⟨f, rfl⟩ : ∃ f, fuel = f + 1 := ⟨fuel - 1, by omega⟩
      refine ⟨[], by rw [ItemComponent.encode], fun r => ?_⟩
      simp only [ItemComponent.id]
      simp only [decode_item_component]
      simp only [List.nil_append]
  | EnchantmentGlintOverride x1 =>
      intro h fuel depth hf hd
      simp only [fuelC] at hf
      obtain ⟨f, rfl⟩ : ∃ f, fuel = f + 1 := ⟨fuel - 1, by omega⟩
      refine ⟨encodeBool x1, by rw [ItemComponent.encode], fun r => ?_⟩
      simp only [ItemComponent.id]
      simp only [decode_item_component, List.append_assoc]
      rw [dBool_enc x1 _, exbind_ok]
  | IntangibleProjectile x1 =>
      intro h fuel depth hf hd
      simp only [fuelC] at hf
      obtain ⟨f, rfl⟩ : ∃ f, fuel = f + 1 := ⟨fuel - 1, by omega⟩
      simp only [ItemComponent.WFc] at h
      refine ⟨encodeCompound x1, by rw [ItemComponent.encode], fun r => ?_⟩
      simp only [ItemComponent.id]
      simp only [decode_item_component, List.append_assoc]
      rw [dCompound_enc x1 _ h, exbind_ok]
  | Food x1 x2 x3 =>
      intro h fuel depth hf hd
      simp only [fuelC] at hf
      obtain ⟨f, rfl⟩ : ∃ f, fuel = f + 1 := ⟨fuel - 1, by omega⟩
      simp only [ItemComponent.WFc] at h
      obtain ⟨h1, h2⟩ := h
      refine ⟨encodeVarInt x1 ++ encodeF32 x2 ++ encodeBool x3, by rw [ItemComponent.encode], fun r => ?_⟩
      simp only [ItemComponent.id]
      simp only [decode_item_component, List.append_assoc]
      rw [dVarInt_enc x1 _ h1.1 h1.2, exbind_ok]
      dsimp only
      rw [dF32_enc x2 _ h2, exbind_ok]
      dsimp only
      rw [dBool_enc x3 _, exbind_ok]
  | Consumable x1 x2 x3 x4 x5 =>
      intro h fuel depth hf hd
      simp only [fuelC] at hf
      obtain ⟨f, rfl⟩ : ∃ f, fuel = f + 1 := ⟨fuel - 1, by omega⟩
      simp only [ItemComponent.WFc] at h
      obtain ⟨h1, h3, h5⟩ := h
      obtain ⟨b3, hb3, hd3⟩ := idOrSoundRT x3 h3
      obtain ⟨b5, hb5, hd5⟩ := vecRT dConsumeEffect encConsumeEffectElem ConsumeEffect.WF x5 h5.1 h5.2 consumeEffectRT
      refine ⟨encodeF32 x1 ++ encodeFin x2 ++ b3 ++ encodeBool x4 ++ b5, by rw [ItemComponent.encode, hb3, hb5]; rfl, fun r => ?_⟩
      simp only [ItemComponent.id]
      simp only [decode_item_component, List.append_assoc]
      rw [dF32_enc x1 _ h1, exbind_ok]
      dsimp only
      rw [dFin_enc x2 _ (by norm_num), exbind_ok]
      dsimp only
      rw [hd3, exbind_ok]
      dsimp only
      rw [dBool_enc x4 _, exbind_ok]
      dsimp only
      rw [hd5, exbind_ok]
  | UseRemainder x1 =>
      intro h fuel depth hf hd
      simp only [fuelC] at hf
      simp only [depthC] at hd
      obtain ⟨f, rfl⟩ : ∃ f, fuel = f + 1 := ⟨fuel - 1, by omega⟩
      simp only [ItemComponent.WFc] at h
      obtain ⟨b1, hb1, hd1⟩ := stackRT x1 h f (depth + 1) (by omega) (by omega)
      refine ⟨b1, by rw [ItemComponent.encode]; exact hb1, fun r => ?_⟩
      simp only [ItemComponent.id]
      simp only [decode_item_component, List.append_assoc]
      rw [hd1, exbind_ok]
  | UseCooldown x1 x2 =>
      intro h fuel depth hf hd
      simp only [fuelC] at hf
      obtain ⟨f, rfl⟩ : ∃ f, fuel = f + 1 := ⟨fuel - 1, by omega⟩
      simp only [ItemComponent.WFc] at h
      obtain ⟨h1, h2⟩ := h
      obtain ⟨b2, hb2, hd2⟩ := optRT dString encStringElem StringWF x2 h2 (fun a ha => ⟨encodeString a, rfl, fun r => dString_enc a r ha⟩)
      refine ⟨encodeF32 x1 ++ b2, by rw [ItemComponent.encode, hb2]; rfl, fun r => ?_⟩
      simp only [ItemComponent.id]
      simp only [decode_item_component, List.append_assoc]
      rw [dF32_enc x1 _ h1, exbind_ok]
      dsimp only
      rw [hd2, exbind_ok]
  | DamageResistant x1 =>
      intro h fuel depth hf hd
      simp only [fuelC] at hf
      obtain ⟨f, rfl⟩ : ∃ f, fuel = f + 1 := ⟨fuel - 1, by omega⟩
      simp only [ItemComponent.WFc] at h
      refine ⟨encodeString x1, by rw [ItemComponent.encode], fun r => ?_⟩
      simp only [ItemComponent.id]
      simp only [decode_item_component, List.append_assoc]
      rw [dString_enc x1 _ h, exbind_ok]
  | Tool x1 x2 x3 x4 =>
      intro h fuel depth hf hd
      simp only [fuelC] at hf
      obtain ⟨f, rfl⟩ : ∃ f, fuel = f + 1 := ⟨fuel - 1, by omega⟩
      simp only [ItemComponent.WFc] at h
      obtain ⟨h1, h2, h3⟩ := h
      obtain ⟨b1, hb1, hd1⟩ := vecRT dToolRule encToolRuleElem ToolRule.WF x1 h1.1 h1.2 toolRuleRT
      refine ⟨b1 ++ encodeF32 x2 ++ encodeVarInt x3 ++ encodeBool x4, by rw [ItemComponent.encode, hb1]; rfl, fun r => ?_⟩
      simp only [ItemComponent.id]
      simp only [decode_item_component, List.append_assoc]
      rw [hd1, exbind_ok]
      dsimp only
      rw [dF32_enc x2 _ h2, exbind_ok]
      dsimp only
      rw [dVarInt_enc x3 _ h3.1 h3.2, exbind_ok]
      dsimp only
      rw [dBool_enc x4 _, exbind_ok]
  | Weapon x1 x2 =>
      intro h fuel depth hf hd
      simp only [fuelC] at hf
      obtain ⟨f, rfl⟩ : ∃ f, fuel = f + 1 := ⟨fuel - 1, by omega⟩
      simp only [ItemComponent.WFc] at h
      obtain ⟨h1, h2⟩ := h
      refine ⟨encodeVarInt x1 ++ encodeF32 x2, by rw [ItemComponent.encode], fun r => ?_⟩
      simp only [ItemComponent.id]
      simp only [decode_item_component, List.append_assoc]
      rw [dVarInt_enc x1 _ h1.1 h1.2, exbind_ok]
      dsimp only
      rw [dF32_enc x2 _ h2, exbind_ok]
  | Enchantable x1 =>
      intro h fuel depth hf hd
      simp only [fuelC] at hf
      obtain ⟨f, rfl⟩ : ∃ f, fuel = f + 1 := ⟨fuel - 1, by omega⟩
      simp only [ItemComponent.WFc] at h
      refine ⟨encodeVarInt x1, by rw [ItemComponent.encode], fun r => ?_⟩
      simp only [ItemComponent.id]
      simp only [decode_item_component, List.append_assoc]
      rw [dVarInt_enc x1 _ h.1 h.2, exbind_ok]
  | Equippable x1 x2 x3 x4 x5 x6 x7 x8 =>
      intro h fuel depth hf hd
      simp only [fuelC] at hf
      obtain ⟨f, rfl⟩ : ∃ f, fuel = f + 1 := ⟨fuel - 1, by omega⟩
      simp only [ItemComponent.WFc] at h
      obtain ⟨h2, h3, h4, h5⟩ := h
      obtain ⟨b2, hb2, hd2⟩ := idOrSoundRT x2 h2
      obtain ⟨b3, hb3, hd3⟩ := optRT dString encStringElem StringWF x3 h3 (fun a ha => ⟨encodeString a, rfl, fun r => dString_enc a r ha⟩)
      obtain ⟨b4, hb4, hd4⟩ := optRT dString encStringElem StringWF x4 h4 (fun a ha => ⟨encodeString a, rfl, fun r => dString_enc a r ha⟩)
      obtain ⟨b5, hb5, hd5⟩ := optRT dIDSet (fun s => some (encodeIDSet s)) IDSet.WF x5 h5 (fun a ha => ⟨encodeIDSet a, rfl, fun r => dIDSet_enc a r ha⟩)
      refine ⟨encodeFin x1 ++ b2 ++ b3 ++ b4 ++ b5 ++ encodeBool x6 ++ encodeBool x7 ++ encodeBool x8, by rw [ItemComponent.encode, hb2, hb3, hb4, hb5]; rfl, fun r => ?_⟩
      simp only [ItemComponent.id]
      simp only [decode_item_component, List.append_assoc]
      rw [dFin_enc x1 _ (by norm_num), exbind_ok]
      dsimp only
      rw [hd2, exbind_ok]
      dsimp only
      rw [hd3, exbind_ok]
      dsimp only
      rw [hd4, exbind_ok]
      dsimp only
      rw [hd5, exbind_ok]
      dsimp only
      rw [dBool_enc x6 _, exbind_ok]
      dsimp only
      rw [dBool_enc x7 _, exbind_ok]
      dsimp only
      rw [dBool_enc x8 _, exbind_ok]
  | Repairable x1 =>
      intro h fuel depth hf hd
      simp only [fuelC] at hf
      obtain ⟨f, rfl⟩ : ∃ f, fuel = f + 1 := ⟨fuel - 1, by omega⟩
      simp only [ItemComponent.WFc] at h
      refine ⟨encodeIDSet x1, by rw [ItemComponent.encode], fun r => ?_⟩
      simp only [ItemComponent.id]
      simp only [decode_item_component, List.append_assoc]
      rw [dIDSet_enc x1 _ h, exbind_ok]
  | Glider =>
      intro h fuel depth hf hd
      simp only [fuelC] at hf
      obtain ⟨f, rfl⟩ : ∃ f, fuel = f + 1 := ⟨fuel - 1, by omega⟩
      refine ⟨[], by rw [ItemComponent.encode], fun r => ?_⟩
      simp only [ItemComponent.id]
      simp only [decode_item_component]
      simp only [List.nil_append]
  | TooltipStyle x1 =>
      intro h fuel depth hf hd
      simp only [fuelC] at hf
      obtain ⟨f, rfl⟩ : ∃ f, fuel = f + 1 := ⟨fuel - 1, by omega⟩
      simp only [ItemComponent.WFc] at h
      refine ⟨encodeString x1, by rw [ItemComponent.encode], fun r => ?_⟩
      simp only [ItemComponent.id]
      simp only [decode_item_component, List.append_assoc]
      rw [dString_enc x1 _ h, exbind_ok]
  | DeathProtection x1 =>
      intro h fuel depth hf hd
      simp only [fuelC] at hf
      obtain ⟨f, rfl⟩ : ∃ f, fuel = f + 1 := ⟨fuel - 1, by omega⟩
      simp only [ItemComponent.WFc] at h
      obtain ⟨b1, hb1, hd1⟩ := vecRT dConsumeEffect encConsumeEffectElem ConsumeEffect.WF x1 h.1 h.2 consumeEffectRT
      refine ⟨b1, by rw [ItemComponent.encode, hb1]; rfl, fun r => ?_⟩
      simp only [ItemComponent.id]
      simp only [decode_item_component, List.append_assoc]
      rw [hd1, exbind_ok]
  | BlocksAttacks x1 x2 x3 x4 x5 x6 x7 x8 x9 =>
      intro h fuel depth hf hd
      simp only [fuelC] at hf
      obtain ⟨f, rfl⟩ : ∃ f, fuel = f + 1 := ⟨fuel - 1, by omega⟩
      simp only [ItemComponent.WFc] at h
      obtain ⟨h1, h2, h3, h4, h5, h6, h7, h8, h9⟩ := h
      obtain ⟨b3, hb3, hd3⟩ := vecRT dDamageReduction encDamageReductionElem DamageReduction.WF x3 h3.1 h3.2 damageReductionRT
      obtain ⟨b7, hb7, hd7⟩ := optRT dString encStringElem StringWF x7 h7 (fun a ha => ⟨encodeString a, rfl, fun r => dString_enc a r ha⟩)
      obtain ⟨b8, hb8, hd8⟩ := optRT dIdOrSound encodeIdOrSound IdOrSoundWF x8 h8 idOrSoundRT
      obtain ⟨b9, hb9, hd9⟩ := optRT dIdOrSound encodeIdOrSound IdOrSoundWF x9 h9 idOrSoundRT
      refine ⟨encodeF32 x1 ++ encodeF32 x2 ++ b3 ++ encodeF32 x4 ++ encodeF32 x5 ++ encodeF32 x6 ++ b7 ++ b8 ++ b9, by rw [ItemComponent.encode, hb3, hb7, hb8, hb9]; rfl, fun r => ?_⟩
      simp only [ItemComponent.id]
      simp only [decode_item_component, List.append_assoc]
      rw [dF32_enc x1 _ h1, exbind_ok]
      dsimp only
      rw [dF32_enc x2 _ h2, exbind_ok]
      dsimp only
      rw [hd3, exbind_ok]
      dsimp only
      rw [dF32_enc x4 _ h4, exbind_ok]
      dsimp only
      rw [dF32_enc x5 _ h5, exbind_ok]
      dsimp only
      rw [dF32_enc x6 _ h6, exbind_ok]
      dsimp only
      rw [hd7, exbind_ok]
      dsimp only
      rw [hd8, exbind_ok]
      dsimp only
      rw [hd9, exbind_ok]
  | StoredEnchantments x1 x2 =>
      intro h fuel depth hf hd
      simp only [fuelC] at hf
      obtain ⟨f, rfl⟩ : ∃ f, fuel = f + 1 := ⟨fuel - 1, by omega⟩
      simp only [ItemComponent.WFc] at h
      obtain ⟨b1, hb1, hd1⟩ := vecRT dDrpPair encDrpPair DrpPairWF x1 h.1 h.2 drpPairRT
      refine ⟨b1 ++ encodeBool x2, by rw [ItemComponent.encode, hb1]; rfl, fun r => ?_⟩
      simp only [ItemComponent.id]
      simp only [decode_item_component, List.append_assoc]
      rw [hd1, exbind_ok]
      dsimp only
      rw [dBool_enc x2 _, exbind_ok]
  | DyedColor x1 x2 =>
      intro h fuel depth hf hd
      simp only [fuelC] at hf
      obtain ⟨f, rfl⟩ : ∃ f, fuel = f + 1 := ⟨fuel - 1, by omega⟩
      simp only [ItemComponent.WFc] at h
      refine ⟨encodeI32 x1 ++ encodeBool x2, by rw [ItemComponent.encode], fun r => ?_⟩
      simp only [ItemComponent.id]
      simp only [decode_item_component, List.append_assoc]
      rw [dI32_enc x1 _ h.1 h.2, exbind_ok]
      dsimp only
      rw [dBool_enc x2 _, exbind_ok]
  | MapColor x1 =>
      intro h fuel depth hf hd
      simp only [fuelC] at hf
      obtain ⟨f, rfl⟩ : ∃ f, fuel = f + 1 := ⟨fuel - 1, by omega⟩
      simp only [ItemComponent.WFc] at h
      refine ⟨encodeI32 x1, by rw [ItemComponent.encode], fun r => ?_⟩
      simp only [ItemComponent.id]
      simp only [decode_item_component, List.append_assoc]
      rw [dI32_enc x1 _ h.1 h.2, exbind_ok]
  | MapId x1 =>
      intro h fuel depth hf hd
      simp only [fuelC] at hf
      obtain ⟨f, rfl⟩ : ∃ f, fuel = f + 1 := ⟨fuel - 1, by omega⟩
      simp only [ItemComponent.WFc] at h
      refine ⟨encodeVarInt x1, by rw [ItemComponent.encode], fun r => ?_⟩
      simp only [ItemComponent.id]
      simp only [decode_item_component, List.append_assoc]
      rw [dVarInt_enc x1 _ h.1 h.2, exbind_ok]
  | MapDecorations x1 =>
      intro h fuel depth hf hd
      simp only [fuelC] at hf
      obtain ⟨f, rfl⟩ : ∃ f, fuel = f + 1 := ⟨fuel - 1, by omega⟩
      simp only [ItemComponent.WFc] at h
      refine ⟨encodeCompound x1, by rw [ItemComponent.encode], fun r => ?_⟩
      simp only [ItemComponent.id]
      simp only [decode_item_component, List.append_assoc]
      rw [dCompound_enc x1 _ h, exbind_ok]
  | MapPostProcessing x1 =>
      intro h fuel depth hf hd
      simp only [fuelC] at hf
      obtain ⟨f, rfl⟩ : ∃ f, fuel = f + 1 := ⟨fuel - 1, by omega⟩
      refine ⟨encodeFin x1, by rw [ItemComponent.encode], fun r => ?_⟩
      simp only [ItemComponent.id]
      simp only [decode_item_component, List.append_assoc]
      rw [dFin_enc x1 _ (by norm_num), exbind_ok]
  | ChargedProjectiles x1 =>
      intro h fuel depth hf hd
      simp only [fuelC] at hf
      simp only [depthC] at hd
      obtain ⟨f, rfl⟩ : ∃ f, fuel = f + 1 := ⟨fuel - 1, by omega⟩
      simp only [ItemComponent.WFc] at h
      have hlen1 := h.1
      obtain ⟨b1, hb1, hd1⟩ := stackListRT x1 h.2 f (depth + 1) (by omega) (by omega)
      refine ⟨encodeVarInt (x1.length : Int) ++ b1, by rw [ItemComponent.encode, hb1]; rfl, fun r => ?_⟩
      simp only [ItemComponent.id]
      simp only [decode_item_component, List.append_assoc]
      rw [dVarInt_enc (x1.length : Int) _ (by omega) (by omega), exbind_ok]
      dsimp only
      rw [show ((x1.length : Int)).toNat = x1.length from rfl]
      rw [hd1, exbind_ok]
  | BundleContents x1 =>
      intro h fuel depth hf hd
      simp only [fuelC] at hf
      simp only [depthC] at hd
      obtain ⟨f, rfl⟩ : ∃ f, fuel = f + 1 := ⟨fuel - 1, by omega⟩
      simp only [ItemComponent.WFc] at h
      have hlen1 := h.1
      obtain ⟨b1, hb1, hd1⟩ := stackListRT x1 h.2 f (depth + 1) (by omega) (by omega)
      refine ⟨encodeVarInt (x1.length : Int) ++ b1, by rw [ItemComponent.encode, hb1]; rfl, fun r => ?_⟩
      simp only [ItemComponent.id]
      simp only [decode_item_component, List.append_assoc]
      rw [dVarInt_enc (x1.length : Int) _ (by omega) (by omega), exbind_ok]
      dsimp only
      rw [show ((x1.length : Int)).toNat = x1.length from rfl]
      rw [hd1, exbind_ok]
  | PotionContents x1 x2 x3 x4 =>
      intro h fuel depth hf hd
      simp only [fuelC] at hf
      obtain ⟨f, rfl⟩ : ∃ f, fuel = f + 1 := ⟨fuel - 1, by omega⟩
      simp only [ItemComponent.WFc] at h
      obtain ⟨h1, h2, h3, h4⟩ := h
      obtain ⟨b1, hb1, hd1⟩ := optRT dVarInt encVarIntElem I32Range x1 h1 (fun a ha => ⟨encodeVarInt a, rfl, fun r => dVarInt_enc a r ha.1 ha.2⟩)
      obtain ⟨b2, hb2, hd2⟩ := optRT dI32 encodeI32Elem I32Range x2 h2 i32ElemRT
      obtain ⟨b3, hb3, hd3⟩ := vecRT dPotionEffect encodePotionEffectElem PotionEffect.WF x3 h3.1 h3.2 potionEffectRT
      obtain ⟨b4, hb4, hd4⟩ := optRT dString encStringElem StringWF x4 h4 (fun a ha => ⟨encodeString a, rfl, fun r => dString_enc a r ha⟩)
      refine ⟨b1 ++ b2 ++ b3 ++ b4, by rw [ItemComponent.encode, hb1, hb2, hb3, hb4]; rfl, fun r => ?_⟩
      simp only [ItemComponent.id]
      simp only [decode_item_component, List.append_assoc]
      rw [hd1, exbind_ok]
      dsimp only
      rw [hd2, exbind_ok]
      dsimp only
      rw [hd3, exbind_ok]
      dsimp only
      rw [hd4, exbind_ok]
  | PotionDurationScale x1 =>
      intro h fuel depth hf hd
      simp only [fuelC] at hf
      obtain ⟨f, rfl⟩ : ∃ f, fuel = f + 1 := ⟨fuel - 1, by omega⟩
      simp only [ItemComponent.WFc] at h
      refine ⟨encodeF32 x1, by rw [ItemComponent.encode], fun r => ?_⟩
      simp only [ItemComponent.id]
      simp only [decode_item_component, List.append_assoc]
      rw [dF32_enc x1 _ h, exbind_ok]
  | SuspiciousStewEffects x1 =>
      intro h fuel depth hf hd
      simp only [fuelC] at hf
      obtain ⟨f, rfl⟩ : ∃ f, fuel = f + 1 := ⟨fuel - 1, by omega⟩
      simp only [ItemComponent.WFc] at h
      obtain ⟨b1, hb1, hd1⟩ := vecRT dIntPair encIntPair IntPairWF x1 h.1 h.2 intPairRT
      refine ⟨b1, by rw [ItemComponent.encode, hb1]; rfl, fun r => ?_⟩
      simp only [ItemComponent.id]
      simp only [decode_item_component, List.append_assoc]
      rw [hd1, exbind_ok]
  | WritableBookContent x1 =>
      intro h fuel depth hf hd
      simp only [fuelC] at hf
      obtain ⟨f, rfl⟩ : ∃ f, fuel = f + 1 := ⟨fuel - 1, by omega⟩
      simp only [ItemComponent.WFc] at h
      obtain ⟨b1, hb1, hd1⟩ := vecRT dWritablePage encWritablePageElem WritablePage.WF x1 h.1 h.2 writablePageRT
      refine ⟨b1, by rw [ItemComponent.encode, hb1]; rfl, fun r => ?_⟩
      simp only [ItemComponent.id]
      simp only [decode_item_component, List.append_assoc]
      rw [hd1, exbind_ok]
  | WrittenBookContent x1 x2 x3 x4 x5 x6 =>
      intro h fuel depth hf hd
      simp only [fuelC] at hf
      obtain ⟨f, rfl⟩ : ∃ f, fuel = f + 1 := ⟨fuel - 1, by omega⟩
      simp only [ItemComponent.WFc] at h
      obtain ⟨h1, h2, h3, h4, h5⟩ := h
      obtain ⟨b2, hb2, hd2⟩ := optRT dString encStringElem StringWF x2 h2 (fun a ha => ⟨encodeString a, rfl, fun r => dString_enc a r ha⟩)
      obtain ⟨b5, hb5, hd5⟩ := vecRT dWrittenPage encWrittenPageElem WrittenPage.WF x5 h5.1 h5.2 writtenPageRT
      refine ⟨encodeString x1 ++ b2 ++ encodeString x3 ++ encodeVarInt x4 ++ b5 ++ encodeBool x6, by rw [ItemComponent.encode, hb2, hb5]; rfl, fun r => ?_⟩
      simp only [ItemComponent.id]
      simp only [decode_item_component, List.append_assoc]
      rw [dString_enc x1 _ h1, exbind_ok]
      dsimp only
      rw [hd2, exbind_ok]
      dsimp only
      rw [dString_enc x3 _ h3, exbind_ok]
      dsimp only
      rw [dVarInt_enc x4 _ h4.1 h4.2, exbind_ok]
      dsimp only
      rw [hd5, exbind_ok]
      dsimp only
      rw [dBool_enc x6 _, exbind_ok]
  | Trim x1 x2 x3 =>
      intro h fuel depth hf hd
      simp only [fuelC] at hf
      obtain ⟨f, rfl⟩ : ∃ f, fuel = f + 1 := ⟨fuel - 1, by omega⟩
      simp only [ItemComponent.WFc] at h
      obtain ⟨h1, h2⟩ := h
      obtain ⟨b1, hb1, hd1⟩ := idOrRT dTrimMaterial encodeTrimMaterial TrimMaterial.WF x1 h1 trimMaterialRT
      obtain ⟨b2, hb2, hd2⟩ := idOrRT dTrimPattern encodeTrimPattern TrimPattern.WF x2 h2 trimPatternRT
      refine ⟨b1 ++ b2 ++ encodeBool x3, by rw [ItemComponent.encode, hb1, hb2]; rfl, fun r => ?_⟩
      simp only [ItemComponent.id]
      simp only [decode_item_component, List.append_assoc]
      rw [hd1, exbind_ok]
      dsimp only
      rw [hd2, exbind_ok]
      dsimp only
      rw [dBool_enc x3 _, exbind_ok]
  | DebugStickState x1 =>
      intro h fuel depth hf hd
      simp only [fuelC] at hf
      obtain ⟨f, rfl⟩ : ∃ f, fuel = f + 1 := ⟨fuel - 1, by omega⟩
      simp only [ItemComponent.WFc] at h
      refine ⟨encodeCompound x1, by rw [ItemComponent.encode], fun r => ?_⟩
      simp only [ItemComponent.id]
      simp only [decode_item_component, List.append_assoc]
      rw [dCompound_enc x1 _ h, exbind_ok]
  | EntityData x1 x2 =>
      intro h fuel depth hf hd
      simp only [fuelC] at hf
      obtain ⟨f, rfl⟩ : ∃ f, fuel = f + 1 := ⟨fuel - 1, by omega⟩
      simp only [ItemComponent.WFc] at h
      obtain ⟨h1, h2⟩ := h
      refine ⟨encodeVarInt x1 ++ encodeCompound x2, by rw [ItemComponent.encode], fun r => ?_⟩
      simp only [ItemComponent.id]
      simp only [decode_item_component, List.append_assoc]
      rw [dVarInt_enc x1 _ h1.1 h1.2, exbind_ok]
      dsimp only
      rw [dCompound_enc x2 _ h2, exbind_ok]
  | BucketEntityData x1 =>
      intro h fuel depth hf hd
      simp only [fuelC] at hf
      obtain ⟨f, rfl⟩ : ∃ f, fuel = f + 1 := ⟨fuel - 1, by omega⟩
      simp only [ItemComponent.WFc] at h
      refine ⟨encodeCompound x1, by rw [ItemComponent.encode], fun r => ?_⟩
      simp only [ItemComponent.id]
      simp only [decode_item_component, List.append_assoc]
      rw [dCompound_enc x1 _ h, exbind_ok]
  | BlockEntityData x1 x2 =>
      intro h fuel depth hf hd
      simp only [fuelC] at hf
      obtain ⟨f, rfl⟩ : ∃ f, fuel = f + 1 := ⟨fuel - 1, by omega⟩
      simp only [ItemComponent.WFc] at h
      obtain ⟨h1, h2⟩ := h
      refine ⟨encodeVarInt x1 ++ encodeCompound x2, by rw [ItemComponent.encode], fun r => ?_⟩
      simp only [ItemComponent.id]
      simp only [decode_item_component, List.append_assoc]
      rw [dVarInt_enc x1 _ h1.1 h1.2, exbind_ok]
      dsimp only
      rw [dCompound_enc x2 _ h2, exbind_ok]
  | Instrument x1 =>
      intro h fuel depth hf hd
      simp only [fuelC] at hf
      obtain ⟨f, rfl⟩ : ∃ f, fuel = f + 1 := ⟨fuel - 1, by omega⟩
      simp only [ItemComponent.WFc] at h
      obtain ⟨b1, hb1, hd1⟩ := idOrRT dInstrumentDefinition encodeInstrumentDefinition InstrumentDefinition.WF x1 h instrumentDefinitionRT
      refine ⟨b1, by rw [ItemComponent.encode, hb1]; rfl, fun r => ?_⟩
      simp only [ItemComponent.id]
      simp only [decode_item_component, List.append_assoc]
      rw [hd1, exbind_ok]
  | ProvidesTrimMaterial x1 =>
      intro h fuel depth hf hd
      simp only [fuelC] at hf
      obtain ⟨f, rfl⟩ : ∃ f, fuel = f + 1 := ⟨fuel - 1, by omega⟩
      simp only [ItemComponent.WFc] at h
      obtain ⟨b1, hb1, hd1⟩ := modePairRT dString (dIdOr dTrimMaterial) encStringElem (encodeIdOr encodeTrimMaterial) StringWF (IdOrWF TrimMaterial.WF) x1 h (fun a ha => ⟨encodeString a, rfl, fun r => dString_enc a r ha⟩) (fun b hb => idOrRT dTrimMaterial encodeTrimMaterial TrimMaterial.WF b hb trimMaterialRT)
      refine ⟨b1, by rw [ItemComponent.encode, hb1]; rfl, fun r => ?_⟩
      simp only [ItemComponent.id]
      simp only [decode_item_component, List.append_assoc]
      rw [hd1, exbind_ok]
  | OminousBottleAmplifier x1 =>
      intro h fuel depth hf hd
      simp only [fuelC] at hf
      obtain ⟨f, rfl⟩ : ∃ f, fuel = f + 1 := ⟨fuel - 1, by omega⟩
      simp only [ItemComponent.WFc] at h
      refine ⟨encodeVarInt x1, by rw [ItemComponent.encode], fun r => ?_⟩
      simp only [ItemComponent.id]
      simp only [decode_item_component, List.append_assoc]
      rw [dVarInt_enc x1 _ h.1 h.2, exbind_ok]
  | JukeboxPlayable x1 x2 =>
      intro h fuel depth hf hd
      simp only [fuelC] at hf
      obtain ⟨f, rfl⟩ : ∃ f, fuel = f + 1 := ⟨fuel - 1, by omega⟩
      simp only [ItemComponent.WFc] at h
      obtain ⟨b1, hb1, hd1⟩ := modePairRT dString (dIdOr dJukeboxSong) encStringElem (encodeIdOr encodeJukeboxSong) StringWF (IdOrWF JukeboxSong.WF) x1 h (fun a ha => ⟨encodeString a, rfl, fun r => dString_enc a r ha⟩) (fun b hb => idOrRT dJukeboxSong encodeJukeboxSong JukeboxSong.WF b hb jukeboxSongRT)
      refine ⟨b1 ++ encodeBool x2, by rw [ItemComponent.encode, hb1]; rfl, fun r => ?_⟩
      simp only [ItemComponent.id]
      simp only [decode_item_component, List.append_assoc]
      rw [hd1, exbind_ok]
      dsimp only
      rw [dBool_enc x2 _, exbind_ok]
  | ProvidesBannerPatterns x1 =>
      intro h fuel depth hf hd
      simp only [fuelC] at hf
      obtain ⟨f, rfl⟩ : ∃ f, fuel = f + 1 := ⟨fuel - 1, by omega⟩
      simp only [ItemComponent.WFc] at h
      refine ⟨encodeString x1, by rw [ItemComponent.encode], fun r => ?_⟩
      simp only [ItemComponent.id]
      simp only [decode_item_component, List.append_assoc]
      rw [dString_enc x1 _ h, exbind_ok]
  | Recipes x1 =>
      intro h fuel depth hf hd
      simp only [fuelC] at hf
      obtain ⟨f, rfl⟩ : ∃ f, fuel = f + 1 := ⟨fuel - 1, by omega⟩
      simp only [ItemComponent.WFc] at h
      refine ⟨encodeCompound x1, by rw [ItemComponent.encode], fun r => ?_⟩
      simp only [ItemComponent.id]
      simp only [decode_item_component, List.append_assoc]
      rw [dCompound_enc x1 _ h, exbind_ok]
  | LodestoneTracker x1 x2 =>
      intro h fuel depth hf hd
      simp only [fuelC] at hf
      obtain ⟨f, rfl⟩ : ∃ f, fuel = f + 1 := ⟨fuel - 1, by omega⟩
      simp only [ItemComponent.WFc] at h
      obtain ⟨b1, hb1, hd1⟩ := optRT dLodestoneTarget (fun t => some (encodeLodestoneTarget t)) LodestoneTarget.WF x1 h (fun a ha => ⟨encodeLodestoneTarget a, rfl, fun r => lodestoneTargetRT a ha r⟩)
      refine ⟨b1 ++ encodeBool x2, by rw [ItemComponent.encode, hb1]; rfl, fun r => ?_⟩
      simp only [ItemComponent.id]
      simp only [decode_item_component, List.append_assoc]
      rw [hd1, exbind_ok]
      dsimp only
      rw [dBool_enc x2 _, exbind_ok]
  | FireworkExplosion x1 =>
      intro h fuel depth hf hd
      simp only [fuelC] at hf
      obtain ⟨f, rfl⟩ : ∃ f, fuel = f + 1 := ⟨fuel - 1, by omega⟩
      simp only [ItemComponent.WFc] at h
      obtain ⟨b1, hb1, hd1⟩ := fireworkExplosionDataRT x1 h
      refine ⟨b1, by rw [ItemComponent.encode, hb1]; rfl, fun r => ?_⟩
      simp only [ItemComponent.id]
      simp only [decode_item_component, List.append_assoc]
      rw [hd1, exbind_ok]
  | Fireworks x1 x2 =>
      intro h fuel depth hf hd
      simp only [fuelC] at hf
      obtain ⟨f, rfl⟩ : ∃ f, fuel = f + 1 := ⟨fuel - 1, by omega⟩
      simp only [ItemComponent.WFc] at h
      obtain ⟨h1, h2⟩ := h
      obtain ⟨b2, hb2, hd2⟩ := vecRT dFireworkExplosionData encFireworkExplosionElem FireworkExplosionData.WF x2 h2.1 h2.2 fireworkExplosionDataRT
      refine ⟨encodeVarInt x1 ++ b2, by rw [ItemComponent.encode, hb2]; rfl, fun r => ?_⟩
      simp only [ItemComponent.id]
      simp only [decode_item_component, List.append_assoc]
      rw [dVarInt_enc x1 _ h1.1 h1.2, exbind_ok]
      dsimp only
      rw [hd2, exbind_ok]
  | Profile x1 =>
      intro h fuel depth hf hd
      simp only [fuelC] at hf
      obtain ⟨f, rfl⟩ : ∃ f, fuel = f + 1 := ⟨fuel - 1, by omega⟩
      simp only [ItemComponent.WFc] at h
      obtain ⟨b1, hb1, hd1⟩ := resolvableProfileRT x1 h
      refine ⟨b1, by rw [ItemComponent.encode, hb1]; rfl, fun r => ?_⟩
      simp only [ItemComponent.id]
      simp only [decode_item_component, List.append_assoc]
      rw [hd1, exbind_ok]
  | NoteBlockSound x1 =>
      intro h fuel depth hf hd
      simp only [fuelC] at hf
      obtain ⟨f, rfl⟩ : ∃ f, fuel = f + 1 := ⟨fuel - 1, by omega⟩
      simp only [ItemComponent.WFc] at h
      refine ⟨encodeString x1, by rw [ItemComponent.encode], fun r => ?_⟩
      simp only [ItemComponent.id]
      simp only [decode_item_component, List.append_assoc]
      rw [dString_enc x1 _ h, exbind_ok]
  | BannerPatterns x1 =>
      intro h fuel depth hf hd
      simp only [fuelC] at hf
      obtain ⟨f, rfl⟩ : ∃ f, fuel = f + 1 := ⟨fuel - 1, by omega⟩
      simp only [ItemComponent.WFc] at h
      obtain ⟨b1, hb1, hd1⟩ := vecRT dBannerLayer encBannerLayerElem BannerLayer.WF x1 h.1 h.2 bannerLayerRT
      refine ⟨b1, by rw [ItemComponent.encode, hb1]; rfl, fun r => ?_⟩
      simp only [ItemComponent.id]
      simp only [decode_item_component, List.append_assoc]
      rw [hd1, exbind_ok]
  | BaseColor x1 =>
      intro h fuel depth hf hd
      simp only [fuelC] at hf
      obtain ⟨f, rfl⟩ : ∃ f, fuel = f + 1 := ⟨fuel - 1, by omega⟩
      simp only [ItemComponent.WFc] at h
      refine ⟨encodeVarInt x1, by rw [ItemComponent.encode], fun r => ?_⟩
      simp only [ItemComponent.id]
      simp only [decode_item_component, List.append_assoc]
      rw [dVarInt_enc x1 _ h.1 h.2, exbind_ok]
  | PotDecorations x1 =>
      intro h fuel depth hf hd
      simp only [fuelC] at hf
      obtain ⟨f, rfl⟩ : ∃ f, fuel = f + 1 := ⟨fuel - 1, by omega⟩
      simp only [ItemComponent.WFc] at h
      obtain ⟨b1, hb1, hd1⟩ := vecRT dVarInt encVarIntElem I32Range x1 h.1 h.2 (fun a ha => ⟨encodeVarInt a, rfl, fun r => dVarInt_enc a r ha.1 ha.2⟩)
      refine ⟨b1, by rw [ItemComponent.encode, hb1]; rfl, fun r => ?_⟩
      simp only [ItemComponent.id]
      simp only [decode_item_component, List.append_assoc]
      rw [hd1, exbind_ok]
  | Container x1 =>
      intro h fuel depth hf hd
      simp only [fuelC] at hf
      simp only [depthC] at hd
      obtain ⟨f, rfl⟩ : ∃ f, fuel = f + 1 := ⟨fuel - 1, by omega⟩
      simp only [ItemComponent.WFc] at h
      have hlen1 := h.1
      obtain ⟨b1, hb1, hd1⟩ := stackListRT x1 h.2 f (depth + 1) (by omega) (by omega)
      refine ⟨encodeVarInt (x1.length : Int) ++ b1, by rw [ItemComponent.encode, hb1]; rfl, fun r => ?_⟩
      simp only [ItemComponent.id]
      simp only [decode_item_component, List.append_assoc]
      rw [dVarInt_enc (x1.length : Int) _ (by omega) (by omega), exbind_ok]
      dsimp only
      rw [show ((x1.length : Int)).toNat = x1.length from rfl]
      rw [hd1, exbind_ok]
  | BlockState x1 =>
      intro h fuel depth hf hd
      simp only [fuelC] at hf
      obtain ⟨f, rfl⟩ : ∃ f, fuel = f + 1 := ⟨fuel - 1, by omega⟩
      simp only [ItemComponent.WFc] at h
      obtain ⟨b1, hb1, hd1⟩ := vecRT dStringPair encodeStringPair StringPairWF x1 h.1 h.2 stringPairRT
      refine ⟨b1, by rw [ItemComponent.encode, hb1]; rfl, fun r => ?_⟩
      simp only [ItemComponent.id]
      simp only [decode_item_component, List.append_assoc]
      rw [hd1, exbind_ok]
  | Bees x1 =>
      intro h fuel depth hf hd
      simp only [fuelC] at hf
      obtain ⟨f, rfl⟩ : ∃ f, fuel = f + 1 := ⟨fuel - 1, by omega⟩
      simp only [ItemComponent.WFc] at h
      obtain ⟨b1, hb1, hd1⟩ := vecRT dBeeData encBeeDataElem BeeData.WF x1 h.1 h.2 beeDataRT
      refine ⟨b1, by rw [ItemComponent.encode, hb1]; rfl, fun r => ?_⟩
      simp only [ItemComponent.id]
      simp only [decode_item_component, List.append_assoc]
      rw [hd1, exbind_ok]
  | Lock x1 =>
      intro h fuel depth hf hd
      simp only [fuelC] at hf
      obtain ⟨f, rfl⟩ : ∃ f, fuel = f + 1 := ⟨fuel - 1, by omega⟩
      simp only [ItemComponent.WFc] at h
      refine ⟨encodeString x1, by rw [ItemComponent.encode], fun r => ?_⟩
      simp only [ItemComponent.id]
      simp only [decode_item_component, List.append_assoc]
      rw [dString_enc x1 _ h, exbind_ok]
  | ContainerLoot x1 =>
      intro h fuel depth hf hd
      simp only [fuelC] at hf
      obtain ⟨f, rfl⟩ : ∃ f, fuel = f + 1 := ⟨fuel - 1, by omega⟩
      simp only [ItemComponent.WFc] at h
      refine ⟨encodeCompound x1, by rw [ItemComponent.encode], fun r => ?_⟩
      simp only [ItemComponent.id]
      simp only [decode_item_component, List.append_assoc]
      rw [dCompound_enc x1 _ h, exbind_ok]
  | BreakSound x1 =>
      intro h fuel depth hf hd
      simp only [fuelC] at hf
      obtain ⟨f, rfl⟩ : ∃ f, fuel = f + 1 := ⟨fuel - 1, by omega⟩
      simp only [ItemComponent.WFc] at h
      obtain ⟨b1, hb1, hd1⟩ := idOrSoundRT x1 h
      refine ⟨b1, by rw [ItemComponent.encode, hb1]; rfl, fun r => ?_⟩
      simp only [ItemComponent.id]
      simp only [decode_item_component, List.append_assoc]
      rw [hd1, exbind_ok]
  | VillagerVariant x1 =>
      intro h fuel depth hf hd
      simp only [fuelC] at hf
      obtain ⟨f, rfl⟩ : ∃ f, fuel = f + 1 := ⟨fuel - 1, by omega⟩
      simp only [ItemComponent.WFc] at h
      refine ⟨encodeDynamicRegistryPlaceholder x1, by rw [ItemComponent.encode], fun r => ?_⟩
      simp only [ItemComponent.id]
      simp only [decode_item_component, List.append_assoc]
      rw [dDynamicRegistryPlaceholder_enc x1 _ h, exbind_ok]
  | WolfVariant x1 =>
      intro h fuel depth hf hd
      simp only [fuelC] at hf
      obtain ⟨f, rfl⟩ : ∃ f, fuel = f + 1 := ⟨fuel - 1, by omega⟩
      simp only [ItemComponent.WFc] at h
      refine ⟨encodeDynamicRegistryPlaceholder x1, by rw [ItemComponent.encode], fun r => ?_⟩
      simp only [ItemComponent.id]
      simp only [decode_item_component, List.append_assoc]
      rw [dDynamicRegistryPlaceholder_enc x1 _ h, exbind_ok]
  | WolfSoundVariant x1 =>
      intro h fuel depth hf hd
      simp only [fuelC] at hf
      obtain ⟨f, rfl⟩ : ∃ f, fuel = f + 1 := ⟨fuel - 1, by omega⟩
      simp only [ItemComponent.WFc] at h
      refine ⟨encodeDynamicRegistryPlaceholder x1, by rw [ItemComponent.encode], fun r => ?_⟩
      simp only [ItemComponent.id]
      simp only [decode_item_component, List.append_assoc]
      rw [dDynamicRegistryPlaceholder_enc x1 _ h, exbind_ok]
  | WolfCollar x1 =>
      intro h fuel depth hf hd
      simp only [fuelC] at hf
      obtain ⟨f, rfl⟩ : ∃ f, fuel = f + 1 := ⟨fuel - 1, by omega⟩
      refine ⟨encodeFin x1, by rw [ItemComponent.encode], fun r => ?_⟩
      simp only [ItemComponent.id]
      simp only [decode_item_component, List.append_assoc]
      rw [dFin_enc x1 _ (by norm_num), exbind_ok]
  | FoxVariant x1 =>
      intro h fuel depth hf hd
      simp only [fuelC] at hf
      obtain ⟨f, rfl⟩ : ∃ f, fuel = f + 1 := ⟨fuel - 1, by omega⟩
      refine ⟨encodeFin x1, by rw [ItemComponent.encode], fun r => ?_⟩
      simp only [ItemComponent.id]
      simp only [decode_item_component, List.append_assoc]
      rw [dFin_enc x1 _ (by norm_num), exbind_ok]
  | SalmonSize x1 =>
      intro h fuel depth hf hd
      simp only [fuelC] at hf
      obtain ⟨f, rfl⟩ : ∃ f, fuel = f + 1 := ⟨fuel - 1, by omega⟩
      refine ⟨encodeFin x1, by rw [ItemComponent.encode], fun r => ?_⟩
      simp only [ItemComponent.id]
      simp only [decode_item_component, List.append_assoc]
      rw [dFin_enc x1 _ (by norm_num), exbind_ok]
  | ParrotVariant x1 =>
      intro h fuel depth hf hd
      simp only [fuelC] at hf
      obtain ⟨f, rfl⟩ : ∃ f, fuel = f + 1 := ⟨fuel - 1, by omega⟩
      refine ⟨encodeFin x1, by rw [ItemComponent.encode], fun r => ?_⟩
      simp only [ItemComponent.id]
      simp only [decode_item_component, List.append_assoc]
      rw [dFin_enc x1 _ (by norm_num), exbind_ok]
  | TropicalFishPatternComp x1 =>
      intro h fuel depth hf hd
      simp only [fuelC] at hf
      obtain ⟨f, rfl⟩ : ∃ f, fuel = f + 1 := ⟨fuel - 1, by omega⟩
      refine ⟨encodeFin x1, by rw [ItemComponent.encode], fun r => ?_⟩
      simp only [ItemComponent.id]
      simp only [decode_item_component, List.append_assoc]
      rw [dFin_enc x1 _ (by norm_num), exbind_ok]
  | TropicalFishBaseColor x1 =>
      intro h fuel depth hf hd
      simp only [fuelC] at hf
      obtain ⟨f, rfl⟩ : ∃ f, fuel = f + 1 := ⟨fuel - 1, by omega⟩
      refine ⟨encodeFin x1, by rw [ItemComponent.encode], fun r => ?_⟩
      simp only [ItemComponent.id]
      simp only [decode_item_component, List.append_assoc]
      rw [dFin_enc x1 _ (by norm_num), exbind_ok]
  | TropicalFishPatternColor x1 =>
      intro h fuel depth hf hd
      simp only [fuelC] at hf
      obtain ⟨f, rfl⟩ : ∃ f, fuel = f + 1 := ⟨fuel - 1, by omega⟩
      refine ⟨encodeFin x1, by rw [ItemComponent.encode], fun r => ?_⟩
      simp only [ItemComponent.id]
      simp only [decode_item_component, List.append_assoc]
      rw [dFin_enc x1 _ (by norm_num), exbind_ok]
  | MooshroomVariant x1 =>
      intro h fuel depth hf hd
      simp only [fuelC] at hf
      obtain ⟨f, rfl⟩ : ∃ f, fuel = f + 1 := ⟨fuel - 1, by omega⟩
      refine ⟨encodeFin x1, by rw [ItemComponent.encode], fun r => ?_⟩
      simp only [ItemComponent.id]
      simp only [decode_item_component, List.append_assoc]
      rw [dFin_enc x1 _ (by norm_num), exbind_ok]
  | RabbitVariant x1 =>
      intro h fuel depth hf hd
      simp only [fuelC] at hf
      obtain ⟨f, rfl⟩ : ∃ f, fuel = f + 1 := ⟨fuel - 1, by omega⟩
      refine ⟨encodeFin x1, by rw [ItemComponent.encode], fun r => ?_⟩
      simp only [ItemComponent.id]
      simp only [decode_item_component, List.append_assoc]
      rw [dFin_enc x1 _ (by norm_num), exbind_ok]
  | PigVariant x1 =>
      intro h fuel depth hf hd
      simp only [fuelC] at hf
      obtain ⟨f, rfl⟩ : ∃ f, fuel = f + 1 := ⟨fuel - 1, by omega⟩
      simp only [ItemComponent.WFc] at h
      refine ⟨encodeDynamicRegistryPlaceholder x1, by rw [ItemComponent.encode], fun r => ?_⟩
      simp only [ItemComponent.id]
      simp only [decode_item_component, List.append_assoc]
      rw [dDynamicRegistryPlaceholder_enc x1 _ h, exbind_ok]
  | CowVariant x1 =>
      intro h fuel depth hf hd
      simp only [fuelC] at hf
      obtain ⟨f, rfl⟩ : ∃ f, fuel = f + 1 := ⟨fuel - 1, by omega⟩
      simp only [ItemComponent.WFc] at h
      refine ⟨encodeDynamicRegistryPlaceholder x1, by rw [ItemComponent.encode], fun r => ?_⟩
      simp only [ItemComponent.id]
      simp only [decode_item_component, List.append_assoc]
      rw [dDynamicRegistryPlaceholder_enc x1 _ h, exbind_ok]
  | ChickenVariant x1 =>
      intro h fuel depth hf hd
      simp only [fuelC] at hf
      obtain ⟨f, rfl⟩ : ∃ f, fuel = f + 1 := ⟨fuel - 1, by omega⟩
      simp only [ItemComponent.WFc] at h
      obtain ⟨b1, hb1, hd1⟩ := modePairRT dString dRegistryId encStringElem (fun v => some (encodeRegistryId v)) StringWF I32Range x1 h (fun a ha => ⟨encodeString a, rfl, fun r => dString_enc a r ha⟩) (fun b hb => ⟨encodeRegistryId b, rfl, fun r => dRegistryId_enc b r hb⟩)
      refine ⟨b1, by rw [ItemComponent.encode, hb1]; rfl, fun r => ?_⟩
      simp only [ItemComponent.id]
      simp only [decode_item_component, List.append_assoc]
      rw [hd1, exbind_ok]
  | FrogVariant x1 =>
      intro h fuel depth hf hd
      simp only [fuelC] at hf
      obtain ⟨f, rfl⟩ : ∃ f, fuel = f + 1 := ⟨fuel - 1, by omega⟩
      simp only [ItemComponent.WFc] at h
      refine ⟨encodeDynamicRegistryPlaceholder x1, by rw [ItemComponent.encode], fun r => ?_⟩
      simp only [ItemComponent.id]
      simp only [decode_item_component, List.append_assoc]
      rw [dDynamicRegistryPlaceholder_enc x1 _ h, exbind_ok]
  | HorseVariant x1 =>
      intro h fuel depth hf hd
      simp only [fuelC] at hf
      obtain ⟨f, rfl⟩ : ∃ f, fuel = f + 1 := ⟨fuel - 1, by omega⟩
      refine ⟨encodeFin x1, by rw [ItemComponent.encode], fun r => ?_⟩
      simp only [ItemComponent.id]
      simp only [decode_item_component, List.append_assoc]
      rw [dFin_enc x1 _ (by norm_num), exbind_ok]
  | PaintingVariant x1 =>
      intro h fuel depth hf hd
      simp only [fuelC] at hf
      obtain ⟨f, rfl⟩ : ∃ f, fuel = f + 1 := ⟨fuel - 1, by omega⟩
      simp only [ItemComponent.WFc] at h
      obtain ⟨b1, hb1, hd1⟩ := idOrRT dPaintingVariantDefinition (fun v => some (encodePaintingVariantDefinition v)) PaintingVariantDefinition.WF x1 h (fun a ha => paintingVariantDefinitionRT a ha)
      refine ⟨b1, by rw [ItemComponent.encode, hb1]; rfl, fun r => ?_⟩
      simp only [ItemComponent.id]
      simp only [decode_item_component, List.append_assoc]
      rw [hd1, exbind_ok]
  | LlamaVariant x1 =>
      intro h fuel depth hf hd
      simp only [fuelC] at hf
      obtain ⟨f, rfl⟩ : ∃ f, fuel = f + 1 := ⟨fuel - 1, by omega⟩
      refine ⟨encodeFin x1, by rw [ItemComponent.encode], fun r => ?_⟩
      simp only [ItemComponent.id]
      simp only [decode_item_component, List.append_assoc]
      rw [dFin_enc x1 _ (by norm_num), exbind_ok]
  | AxolotlVariant x1 =>
      intro h fuel depth hf hd
      simp only [fuelC] at hf
      obtain ⟨f, rfl⟩ : ∃ f, fuel = f + 1 := ⟨fuel - 1, by omega⟩
      refine ⟨encodeFin x1, by rw [ItemComponent.encode], fun r => ?_⟩
      simp only [ItemComponent.id]
      simp only [decode_item_component, List.append_assoc]
      rw [dFin_enc x1 _ (by norm_num), exbind_ok]
  | CatVariant x1 =>
      intro h fuel depth hf hd
      simp only [fuelC] at hf
      obtain ⟨f, rfl⟩ : ∃ f, fuel = f + 1 := ⟨fuel - 1, by omega⟩
      simp only [ItemComponent.WFc] at h
      refine ⟨encodeDynamicRegistryPlaceholder x1, by rw [ItemComponent.encode], fun r => ?_⟩
      simp only [ItemComponent.id]
      simp only [decode_item_component, List.append_assoc]
      rw [dDynamicRegistryPlaceholder_enc x1 _ h, exbind_ok]
  | CatCollar x1 =>
      intro h fuel depth hf hd
      simp only [fuelC] at hf
      obtain ⟨f, rfl⟩ : ∃ f, fuel = f + 1 := ⟨fuel - 1, by omega⟩
      refine ⟨encodeFin x1, by rw [ItemComponent.encode], fun r => ?_⟩
      simp only [ItemComponent.id]
      simp only [decode_item_component, List.append_assoc]
      rw [dFin_enc x1 _ (by norm_num), exbind_ok]
  | SheepColor x1 =>
      intro h fuel depth hf hd
      simp only [fuelC] at hf
      obtain ⟨f, rfl⟩ : ∃ f, fuel = f + 1 := ⟨fuel - 1, by omega⟩
      refine ⟨encodeFin x1, by rw [ItemComponent.encode], fun r => ?_⟩
      simp only [ItemComponent.id]
      simp only [decode_item_component, List.append_assoc]
      rw [dFin_enc x1 _ (by norm_num), exbind_ok]
  | ShulkerColor x1 =>
      intro h fuel depth hf hd
      simp only [fuelC] at hf
      obtain ⟨f, rfl⟩ : ∃ f, fuel = f + 1 := ⟨fuel - 1, by omega⟩
      refine ⟨encodeFin x1, by rw [ItemComponent.encode], fun r => ?_⟩
      simp only [ItemComponent.id]
      simp only [decode_item_component, List.append_assoc]
      rw [dFin_enc x1 _ (by norm_num), exbind_ok]

theorem stackRT (s : ItemStack) : ItemStack.WFs s →
    ∀ fuel depth, fuelS s ≤ fuel → depth + depthS s ≤ MAX_RECURSION_DEPTH →
    ∃ bytes, ItemStack.encode_recursive s false = some bytes ∧
      ∀ r, decode_item_stack_recursive fuel depth false (bytes ++ r) = .ok (s, r) := by
  cases s with
  | mk item count comps =>
    intro h fuel depth hf hd
    simp only [fuelS] at hf
    simp only [depthS] at hd
    obtain ⟨f, rfl⟩ : ∃ f, fuel = f + 1 := ⟨fuel - 1, by omega⟩
    simp only [ItemStack.WFs] at h
    cases h with
    | inl hemp =>
        obtain ⟨hi, hc, hcomps⟩ := hemp
        subst hi
        subst hc
        subst hcomps
        refine ⟨[0], encode_recursive_of_empty _ false rfl, fun r => ?_⟩
        exact decode_zero_byte (f + 1) depth false r (by omega) (by omega)
    | inr hne =>
        obtain ⟨hair, hitem, hc1, hc2, hlen, hwf⟩ := hne
        obtain ⟨body, hbody, hdbody⟩ := addedRT comps 0 (ItemKind.default_components item)
          f depth hwf (by omega) (by omega) (by omega)
        have hnemp : ¬ ((ItemStack.mk item count comps).is_empty = true) := by
          simp only [ItemStack.is_empty, ItemStack.item, ItemStack.count,
            Bool.or_eq_true, decide_eq_true_eq]
          rintro (hx | hx)
          · exact hair hx
          · omega
        refine ⟨encodeVarInt count ++ encodeItemKind item ++
            encodeVarInt (((collectAdded 0 comps).length : Nat) : Int) ++
            encodeVarInt (((collectRemoved 0 comps).length : Nat) : Int) ++
            body ++ encodeRemovedIds (collectRemoved 0 comps),
          by rw [ItemStack.encode_recursive, if_neg hnemp, hbody]; rfl, fun r => ?_⟩
        have hale := collectAdded_length_le 0 comps
        have hrle := collectRemoved_length_le 0 comps
        simp only [decode_item_stack_recursive, List.append_assoc]
        rw [if_neg (show ¬ depth > MAX_RECURSION_DEPTH by omega)]
        rw [dVarInt_enc count _ (by omega) (by omega), exbind_ok]
        dsimp only
        rw [if_neg (show ¬ count ≤ 0 by omega)]
        rw [dItemKind_enc item _ hitem, exbind_ok]
        dsimp only
        rw [dVarInt_enc (((collectAdded 0 comps).length : Nat) : Int) _ (by omega)
          (by simp only [NUM_ITEM_COMPONENTS] at hlen; omega), exbind_ok]
        dsimp only
        rw [dVarInt_enc (((collectRemoved 0 comps).length : Nat) : Int) _ (by omega)
          (by simp only [NUM_ITEM_COMPONENTS] at hlen; omega), exbind_ok]
        dsimp only
        rw [show (((collectAdded 0 comps).length : Nat) : Int).toNat =
          (collectAdded 0 comps).length from rfl]
        rw [show (((collectRemoved 0 comps).length : Nat) : Int).toNat =
          (collectRemoved 0 comps).length from rfl]
        rw [hdbody, exbind_ok]
        dsimp only
        rw [removedRT (collectRemoved 0 comps)
          (applyAdds 0 comps (ItemKind.default_components item)) r
          (collectRemoved_lt comps 0 NUM_ITEM_COMPONENTS (by omega)), exbind_ok]
        dsimp only
        rw [removedFold_applyAdds]
        rw [show ItemKind.default_components item =
          List.replicate NUM_ITEM_COMPONENTS Patchable.None from rfl]
        rw [patchAll_replicate comps NUM_ITEM_COMPONENTS hwf hlen]
        rw [i8ofInt_of_range count (by omega) (by omega)]

theorem addedRT (cs : List (Patchable ItemComponent)) : ∀ (i : Nat)
    (acc : List (Patchable ItemComponent)) (fuel depth : Nat),
    compsWF i cs → i + cs.length ≤ NUM_ITEM_COMPONENTS →
    fuelCL cs ≤ fuel → depth + depthCL cs ≤ MAX_RECURSION_DEPTH →
    ∃ body, encodeAddedFrom false i cs = some body ∧
      ∀ r, decodeAddedComponents fuel (collectAdded i cs).length depth false acc
        (body ++ r) = .ok (applyAdds i cs acc, r) := by
  cases cs with
  | nil =>
      intro i acc fuel depth _ _ hf _
      simp only [fuelCL] at hf
      obtain ⟨f, rfl⟩ : ∃ f, fuel = f + 1 := ⟨fuel - 1, by omega⟩
      refine ⟨[], by simp only [encodeAddedFrom], fun r => ?_⟩
      simp only [collectAdded, List.length_nil, applyAdds, List.nil_append]
      rw [decodeAddedComponents]
  | cons cell rest =>
    cases cell with
    | Added c hh =>
        intro i acc fuel depth hwf hbound hf hd
        simp only [compsWF] at hwf
        simp only [fuelCL] at hf
        simp only [depthCL] at hd
        simp only [List.length_cons] at hbound
        have hi96 : i < NUM_ITEM_COMPONENTS := by omega
        have hi96n : i < 96 := by simpa [NUM_ITEM_COMPONENTS] using hi96
        obtain ⟨⟨hid, hhash, hcwf⟩, hrest⟩ := hwf
        obtain ⟨f, rfl⟩ : ∃ f, fuel = f + 1 := ⟨fuel - 1, by omega⟩
        obtain ⟨pc, hpc, hdc⟩ := compRT c hcwf f depth (by omega) (by omega)
        rw [hid] at hdc
        obtain ⟨bt, hbt, hdt⟩ := addedRT rest (i + 1)
          (acc.set i (Patchable.Added c (ItemComponent.hash c))) f depth hrest
          (by omega) (by omega) (by omega)
        refine ⟨encodeVarInt (i : Int) ++ pc ++ bt,
          by rw [encodeAddedFrom, hpc, hbt]; rfl, fun r => ?_⟩
        simp only [collectAdded, List.length_cons, applyAdds, List.append_assoc]
        rw [decodeAddedComponents]
        dsimp only
        rw [dVarInt_enc (i : Int) _ (by omega) (by omega), exbind_ok]
        dsimp only
        rw [usizeOfInt_natCast i (by omega)]
        rw [if_neg (show ¬ NUM_ITEM_COMPONENTS ≤ i by omega)]
        rw [if_false_bool, exbind_ok2]
        rw [hdc, exbind_ok]
        dsimp only
        rw [hdt]
    | Default v =>
        intro i acc fuel depth hwf _ _ _
        simp only [compsWF] at hwf
    | Removed =>
        intro i acc fuel depth hwf hbound hf hd
        simp only [compsWF] at hwf
        simp only [fuelCL] at hf
        simp only [depthCL] at hd
        simp only [List.length_cons] at hbound
        obtain ⟨bt, hbt, hdt⟩ := addedRT rest (i + 1) acc fuel depth hwf
          (by omega) hf hd
        refine ⟨bt, by simp only [encodeAddedFrom]; exact hbt, fun r => ?_⟩
        simp only [collectAdded, applyAdds]
        exact hdt r
    | None =>
        intro i acc fuel depth hwf hbound hf hd
        simp only [compsWF] at hwf
        simp only [fuelCL] at hf
        simp only [depthCL] at hd
        simp only [List.length_cons] at hbound
        obtain ⟨bt, hbt, hdt⟩ := addedRT rest (i + 1) acc fuel depth hwf
          (by omega) hf hd
        refine ⟨bt, by simp only [encodeAddedFrom]; exact hbt, fun r => ?_⟩
        simp only [collectAdded, applyAdds]
        exact hdt r

theorem stackListRT (l : List ItemStack) : wfSL l →
    ∀ fuel depth, fuelSL l ≤ fuel → depth + depthSL l ≤ MAX_RECURSION_DEPTH →
    ∃ bytes, encodeStackList l = some bytes ∧
      ∀ r, decodeStackList fuel l.length depth (bytes ++ r) = .ok (l, r) := by
  cases l with
  | nil =>
      intro _ fuel depth hf _
      simp only [fuelSL] at hf
      obtain ⟨f, rfl⟩ : ∃ f, fuel = f + 1 := ⟨fuel - 1, by omega⟩
      refine ⟨[], by rw [encodeStackList], fun r => ?_⟩
      simp only [List.length_nil, List.nil_append]
      rw [decodeStackList]
  | cons s rest =>
      intro h fuel depth hf hd
      simp only [wfSL] at h
      simp only [fuelSL] at hf
      simp only [depthSL] at hd
      obtain ⟨f, rfl⟩ : ∃ f, fuel = f + 1 := ⟨fuel - 1, by omega⟩
      obtain ⟨hs, hrest⟩ := h
      obtain ⟨b1, hb1, hd1⟩ := stackRT s hs f depth (by omega) (by omega)
      obtain ⟨b2, hb2, hd2⟩ := stackListRT rest hrest f depth (by omega) (by omega)
      refine ⟨b1 ++ b2, by rw [encodeStackList, hb1, hb2]; rfl, fun r => ?_⟩
      simp only [List.length_cons, List.append_assoc]
      rw [decodeStackList]
      dsimp only
      rw [hd1, exbind_ok]
      dsimp only
      rw [hd2, exbind_ok]

theorem predListRT (l : List BlockPredicate) : wfPL l →
    ∀ fuel depth, fuelPL l ≤ fuel → depth + depthPL l ≤ MAX_RECURSION_DEPTH →
    ∃ bytes, encodePredList l = some bytes ∧
      ∀ r, decodePredList fuel l.length depth (bytes ++ r) = .ok (l, r) := by
  cases l with
  | nil =>
      intro _ fuel depth hf _
      simp only [fuelPL] at hf
      obtain ⟨f, rfl⟩ : ∃ f, fuel = f + 1 := ⟨fuel - 1, by omega⟩
      refine ⟨[], by rw [encodePredList], fun r => ?_⟩
      simp only [List.length_nil, List.nil_append]
      rw [decodePredList]
  | cons p rest =>
      intro h fuel depth hf hd
      simp only [wfPL] at h
      simp only [fuelPL] at hf
      simp only [depthPL] at hd
      obtain ⟨f, rfl⟩ : ∃ f, fuel = f + 1 := ⟨fuel - 1, by omega⟩
      obtain ⟨hp, hrest⟩ := h
      obtain ⟨b1, hb1, hd1⟩ := predRT p hp f depth (by omega) (by omega)
      obtain ⟨b2, hb2, hd2⟩ := predListRT rest hrest f depth (by omega) (by omega)
      refine ⟨b1 ++ b2, by rw [encodePredList, hb1, hb2]; rfl, fun r => ?_⟩
      simp only [List.length_cons, List.append_assoc]
      rw [decodePredList]
      dsimp only
      rw [hd1, exbind_ok]
      dsimp only
      rw [hd2, exbind_ok]

theorem predRT (p : BlockPredicate) : BlockPredicate.WFp p →
    ∀ fuel depth, fuelP p ≤ fuel → depth + depthP p ≤ MAX_RECURSION_DEPTH →
    ∃ bytes, BlockPredicate.encode p = some bytes ∧
      ∀ r, decode_block_predicate fuel depth (bytes ++ r) = .ok (p, r) := by
  cases p with
  | mk blocks properties nbt exact partials =>
      intro h fuel depth hf hd
      simp only [fuelP] at hf
      simp only [depthP] at hd
      simp only [BlockPredicate.WFp] at h
      obtain ⟨f, rfl⟩ : ∃ f, fuel = f + 1 := ⟨fuel - 1, by omega⟩
      obtain ⟨hbl, hpr, hnb, hxlen, hml, hplen, hpm⟩ := h
      obtain ⟨b1, hb1, hd1⟩ := optRT dIDSet (fun s => some (encodeIDSet s)) IDSet.WF
        blocks hbl (fun a ha => ⟨encodeIDSet a, rfl, fun r => dIDSet_enc a r ha⟩)
      obtain ⟨b2, hb2, hd2⟩ := optRT (dVec dProperty)
        (fun l => encodeVec (fun q => some (encodeProperty q)) l)
        (fun l => l.length < 2147483648 ∧ ∀ q ∈ l, Property.WF q) properties hpr
        (fun a ha => vecRT dProperty (fun q => some (encodeProperty q)) Property.WF
          a ha.1 ha.2 (fun q hq => ⟨encodeProperty q, rfl, fun r => propertyRT q hq r⟩))
      obtain ⟨b3, hb3, hd3⟩ := optRT dCompound (fun c => some (encodeCompound c))
        Compound.WF nbt hnb
        (fun a ha => ⟨encodeCompound a, rfl, fun r => dCompound_enc a r ha⟩)
      obtain ⟨b4, hb4, hd4⟩ := matcherListRT exact hml f depth (by omega) (by omega)
      obtain ⟨b5, hb5, hd5⟩ := vecRT dPartialComponentMatcher
        (fun m => some (encodePartialComponentMatcher m)) PartialComponentMatcher.WF
        partials hplen hpm
        (fun m hm => ⟨encodePartialComponentMatcher m, rfl,
          fun r => partialComponentMatcherRT m hm r⟩)
      refine ⟨b1 ++ b2 ++ b3 ++ encodeVarInt ((exact.length : Nat) : Int) ++ b4 ++ b5,
        by rw [BlockPredicate.encode, hb1, hb2, hb3, hb4, hb5]; rfl, fun r => ?_⟩
      simp only [List.append_assoc]
      rw [decode_block_predicate]
      dsimp only
      rw [hd1, exbind_ok]
      dsimp only
      rw [hd2, exbind_ok]
      dsimp only
      rw [hd3, exbind_ok]
      dsimp only
      rw [dVarInt_enc ((exact.length : Nat) : Int) _ (by omega) (by omega), exbind_ok]
      dsimp only
      rw [usizeOfInt_natCast exact.length (by omega)]
      rw [hd4, exbind_ok]
      dsimp only
      rw [hd5, exbind_ok]

theorem matcherListRT (l : List ExactComponentMatcher) : wfML l →
    ∀ fuel depth, fuelML l ≤ fuel → depth + depthML l ≤ MAX_RECURSION_DEPTH →
    ∃ bytes, encodeMatcherList l = some bytes ∧
      ∀ r, decodeExactList fuel l.length depth (bytes ++ r) = .ok (l, r) := by
  cases l with
  | nil =>
      intro _ fuel depth hf _
      simp only [fuelML] at hf
      obtain ⟨f, rfl⟩ : ∃ f, fuel = f + 1 := ⟨fuel - 1, by omega⟩
      refine ⟨[], by rw [encodeMatcherList], fun r => ?_⟩
      simp only [List.length_nil, List.nil_append]
      rw [decodeExactList]
  | cons m rest =>
    cases m with
    | mk ty d =>
      intro h fuel depth hf hd
      simp only [wfML] at h
      simp only [fuelML] at hf
      simp only [depthML] at hd
      obtain ⟨f, rfl⟩ : ∃ f, fuel = f + 1 := ⟨fuel - 1, by omega⟩
      obtain ⟨hty, hwd, hrest⟩ := h
      have hidlt := ItemComponent.id_lt d
      obtain ⟨b1, hb1, hd1⟩ := compRT d hwd f (depth + 1) (by omega) (by omega)
      obtain ⟨b2, hb2, hd2⟩ := matcherListRT rest hrest f depth (by omega) (by omega)
      subst hty
      refine ⟨encodeVarInt ((ItemComponent.id d : Nat) : Int) ++ b1 ++ b2,
        by rw [encodeMatcherList, hb1, hb2]; rfl, fun r => ?_⟩
      simp only [List.length_cons, List.append_assoc]
      rw [decodeExactList]
      dsimp only
      rw [dVarInt_enc ((ItemComponent.id d : Nat) : Int) _ (by omega) (by omega), exbind_ok]
      dsimp only
      rw [usizeOfInt_natCast (ItemComponent.id d) (by omega)]
      rw [hd1, exbind_ok]
      dsimp only
      rw [hd2, exbind_ok]

end

/-- C2: encode then decode is the identity on canonical stacks.  For every
ItemStack whose fields are canonical (exactly EMPTY, or: a non-Air kind in
i32 range, count 1..=127, and each patch cell untouched, Removed, or Added
carrying its own wire id, its content hash, and an in-range payload) and
whose component nesting fits the recursion-depth limit, encoding succeeds
and decoding the bytes at depth 0 (with any sufficient fuel; the fuel is an
artifact of the embedding of the terminating source recursion) returns the
original stack and consumes the buffer exactly.  Without canonicity this
fails (see the counterexample). -/
theorem claim_C2 (s : ItemStack) (h : ItemStack.WFs s)
    (hdepth : depthS s ≤ MAX_RECURSION_DEPTH) :
    ∃ bytes, ItemStack.encode_recursive s false = some bytes ∧
      ∀ fuel, fuelS s ≤ fuel →
        decode_item_stack_recursive fuel 0 false bytes = .ok (s, []) := by
  obtain ⟨b, hb, hdec⟩ := stackRT s h (fuelS s) 0 le_rfl (by omega)
  refine ⟨b, hb, fun fuel hfuel => ?_⟩
  obtain ⟨b2, hb2, hdec2⟩ := stackRT s h fuel 0 hfuel (by omega)
  rw [hb] at hb2
  obtain rfl : b2 = b := (Option.some.inj hb2).symm
  have h3 := hdec2 []
  rwa [List.append_nil] at h3

/-- C2 counterexample: the round trip is not unconditional.  The stack
ItemStack.new 5 0 (a non-Air kind with zero count) is wire-empty: it encodes
to the single byte 0, which decodes back to ItemStack.EMPTY, a different
stack. -/
theorem claim_C2_counterexample :
    ItemStack.encode_recursive (ItemStack.new 5 0) false = some [0] ∧
    decode_item_stack_recursive 1 0 false [0] = .ok (ItemStack.EMPTY, []) ∧
    ItemStack.EMPTY ≠ ItemStack.new 5 0 :=
  ⟨encode_recursive_of_empty _ false rfl,
   decode_zero_byte 1 0 false [] (by omega) (by omega),
   fun hcon => absurd (congrArg ItemStack.item hcon) (by decide)⟩

/-- C2 witness: the canonical round trip instantiated at the concrete stack
ItemStack.new 1 1 (one item of kind 1, no component patches). -/
theorem claim_C2_witness :
    ∃ bytes, ItemStack.encode_recursive (ItemStack.new 1 1) false = some bytes ∧
      ∀ fuel, fuelS (ItemStack.new 1 1) ≤ fuel →
        decode_item_stack_recursive fuel 0 false bytes = .ok (ItemStack.new 1 1, []) :=
  claim_C2 (ItemStack.new 1 1)
    (by
      simp only [ItemStack.new, ItemStack.WFs]
      exact Or.inr ⟨by decide, (by decide : (1 : Nat) < 2147483648), by decide,
        by decide, rfl, compsWF_replicate NUM_ITEM_COMPONENTS 0⟩)
    (by
      have h0 := depthCL_replicate NUM_ITEM_COMPONENTS
      simp only [ItemStack.new, depthS]
      omega)

end Valence
